import Mathlib

/-!
Verification development for the `wc_predictor` repository: a shallow embedding
of the World Cup 2026 simulator's core data model and algorithms, together with
theorems settling the specification claims about them.

Machine integers of the source (`u8`, `u16`, `u32`, `u64`) are modelled as
`Nat`; every quantity in play stays far below the respective bound except where
explicitly noted (`u64` seed arithmetic uses `% 2 ^ 64`).  Floating point
(`f64`) computations are modelled over the real numbers.  Fallible or panicking
code paths return `Option`.
-/

set_option maxHeartbeats 1000000

namespace WC

/-- Team identifier (`TeamId(pub u8)` in `team.rs`), modelled as `Nat`;
all ids in play are below 48 so `u8` wraparound never occurs. -/
abbrev TeamId := Nat

/-- The twelve group letters `A..L`. -/
def GROUP_LETTERS : List Char :=
  ['A', 'B', 'C', 'D', 'E', 'F', 'G', 'H', 'I', 'J', 'K', 'L']

/-- Pools of possible source groups for each third-place bracket slot
(`THIRD_PLACE_POOLS` in `bracket.rs`), in slot order `[1E, 1I, 1A, 1L, 1D, 1G, 1B, 1K]`. -/
def THIRD_PLACE_POOLS : List (List Char) := [
  ['A', 'B', 'C', 'D', 'F'],
  ['C', 'D', 'F', 'G', 'H'],
  ['C', 'E', 'F', 'H', 'I'],
  ['E', 'H', 'I', 'J', 'K'],
  ['B', 'E', 'F', 'I', 'J'],
  ['A', 'E', 'H', 'I', 'J'],
  ['E', 'F', 'G', 'I', 'J'],
  ['D', 'E', 'I', 'J', 'L']]

/-- Rust's `iter().position(|&x| x == g)`: index of the first occurrence. -/
def position (g : Char) : List Char → Option Nat
  | [] => none
  | c :: q => if c == g then some 0 else (position g q).map (· + 1)

/-- `backtrack_assign` from `bracket.rs`, written functionally.  `pools` is the
list of pools for the slots still to be filled (the source walks
`THIRD_PLACE_POOLS` by `slot_idx`; here the walked suffix is passed
structurally), `used` marks the indices of `qualifying` already taken, and a
successful search returns the letters chosen for the remaining slots in order.
The source's restore-on-backtrack of `used` is modelled for free by passing it
immutably.  The inner `for` loop over the pool letters is the `foldr`: the
first letter of the pool that leads to a completed assignment wins, otherwise
the fold falls through to the next letter, and `none` when the pool is
exhausted. -/
def backtrack_assign (qualifying : List Char) :
    List (List Char) → List Bool → Option (List Char)
  | [], _ => some []
  | pool :: pools, used =>
    pool.foldr (fun g acc =>
      match position g qualifying with
      | some qualIdx =>
        if used.getD qualIdx true then acc
        else
          match backtrack_assign qualifying pools (used.set qualIdx true) with
          | some tail => some (g :: tail)
          | none => acc
      | none => acc) none

/-- `compute_third_place_assignments` from `bracket.rs`: reject keys that are
not 8 characters, then run the backtracking search over the 8 slot pools with
nothing used yet. -/
def compute_third_place_assignments (qualifying_groups : String) : Option (List Char) :=
  let qualifying := qualifying_groups.toList
  if qualifying.length ≠ 8 then none
  else backtrack_assign qualifying THIRD_PLACE_POOLS (List.replicate 8 false)

/-- A set-based rephrasing of the backtracking search used only in proofs:
instead of the `qualifying` list plus a `used` mask it carries the list of
still-available letters, removing a letter when it is chosen. -/
def btSet : List (List Char) → List Char → Option (List Char)
  | [], _ => some []
  | pool :: pools, avail =>
    pool.foldr (fun g acc =>
      if avail.contains g then
        match btSet pools (avail.erase g) with
        | some tail => some (g :: tail)
        | none => acc
      else acc) none

/-- The letters of `q` whose positions are unmarked in `used`, in order. -/
def availOf : List Char → List Bool → List Char
  | [], _ => []
  | _ :: _, [] => []
  | c :: q, b :: u => if b then availOf q u else c :: availOf q u

/-- The partial third-place assignment lookup table from `bracket.rs` (`THIRD_PLACE_TABLE`): each entry maps the sorted 8-letter key of the qualifying third-place groups to the assignment of a group letter to each of the 8 third-place bracket slots, in `THIRD_PLACE_OPPONENTS` order. -/
def THIRD_PLACE_TABLE : List (String × List Char) := [
  ("EFGHIJKL", ['F', 'G', 'E', 'K', 'I', 'H', 'J', 'L']),
  ("DFGHIJKL", ['D', 'F', 'H', 'K', 'I', 'J', 'G', 'L']),
  ("DEGHIJKL", ['D', 'G', 'E', 'K', 'I', 'H', 'J', 'L']),
  ("DEFHIJKL", ['D', 'F', 'E', 'K', 'I', 'H', 'J', 'L']),
  ("DEFGIJKL", ['D', 'F', 'E', 'K', 'I', 'G', 'J', 'L']),
  ("DEFGHJKL", ['D', 'F', 'E', 'K', 'J', 'G', 'H', 'L']),
  ("DEFGHIKL", ['D', 'F', 'E', 'K', 'I', 'G', 'H', 'L']),
  ("DEFGHIJK", ['D', 'F', 'E', 'J', 'I', 'G', 'H', 'K']),
  ("CFGHIJKL", ['F', 'G', 'C', 'K', 'I', 'H', 'J', 'L']),
  ("CEGHIJKL", ['E', 'G', 'C', 'K', 'I', 'H', 'J', 'L']),
  ("CEFHIJKL", ['E', 'F', 'C', 'K', 'I', 'H', 'J', 'L']),
  ("CEFGIJKL", ['E', 'F', 'C', 'K', 'I', 'G', 'J', 'L']),
  ("CEFGHJKL", ['E', 'F', 'C', 'K', 'J', 'G', 'H', 'L']),
  ("CEFGHIKL", ['E', 'F', 'C', 'K', 'I', 'G', 'H', 'L']),
  ("CEFGHIJK", ['E', 'F', 'C', 'J', 'I', 'G', 'H', 'K']),
  ("CDGHIJKL", ['D', 'G', 'C', 'K', 'I', 'H', 'J', 'L']),
  ("CDFHIJKL", ['D', 'F', 'C', 'K', 'I', 'H', 'J', 'L']),
  ("CDFGIJKL", ['D', 'F', 'C', 'K', 'I', 'G', 'J', 'L']),
  ("CDFGHJKL", ['D', 'F', 'C', 'K', 'J', 'G', 'H', 'L']),
  ("CDFGHIKL", ['D', 'F', 'C', 'K', 'I', 'G', 'H', 'L']),
  ("CDFGHIJK", ['D', 'F', 'C', 'J', 'I', 'G', 'H', 'K']),
  ("CDEHIJKL", ['D', 'E', 'C', 'K', 'I', 'H', 'J', 'L']),
  ("CDEGIJKL", ['D', 'E', 'C', 'K', 'I', 'G', 'J', 'L']),
  ("CDEGHJKL", ['D', 'E', 'C', 'K', 'J', 'G', 'H', 'L']),
  ("CDEGHIKL", ['D', 'E', 'C', 'K', 'I', 'G', 'H', 'L']),
  ("CDEGHIJK", ['D', 'E', 'C', 'J', 'I', 'G', 'H', 'K']),
  ("CDEFIJKL", ['D', 'E', 'C', 'K', 'I', 'F', 'J', 'L']),
  ("CDEFHJKL", ['D', 'E', 'C', 'K', 'J', 'F', 'H', 'L']),
  ("CDEFHIKL", ['D', 'E', 'C', 'K', 'I', 'F', 'H', 'L']),
  ("CDEFHIJK", ['D', 'E', 'C', 'J', 'I', 'F', 'H', 'K']),
  ("CDEFGJKL", ['D', 'E', 'C', 'K', 'J', 'F', 'G', 'L']),
  ("CDEFGIKL", ['D', 'E', 'C', 'K', 'I', 'F', 'G', 'L']),
  ("CDEFGIJK", ['D', 'E', 'C', 'J', 'I', 'F', 'G', 'K']),
  ("CDEFGHKL", ['D', 'E', 'C', 'K', 'F', 'G', 'H', 'L']),
  ("CDEFGHJK", ['D', 'E', 'C', 'J', 'F', 'G', 'H', 'K']),
  ("CDEFGHIL", ['D', 'E', 'C', 'L', 'I', 'F', 'G', 'H']),
  ("CDEFGHIJ", ['D', 'E', 'C', 'J', 'I', 'F', 'G', 'H']),
  ("BFGHIJKL", ['F', 'G', 'B', 'K', 'I', 'H', 'J', 'L']),
  ("BEGHIJKL", ['E', 'G', 'B', 'K', 'I', 'H', 'J', 'L']),
  ("BEFHIJKL", ['E', 'F', 'B', 'K', 'I', 'H', 'J', 'L']),
  ("BEFGIJKL", ['E', 'F', 'B', 'K', 'I', 'G', 'J', 'L']),
  ("BEFGHJKL", ['E', 'F', 'B', 'K', 'J', 'G', 'H', 'L']),
  ("BEFGHIKL", ['E', 'F', 'B', 'K', 'I', 'G', 'H', 'L']),
  ("BEFGHIJK", ['E', 'F', 'B', 'J', 'I', 'G', 'H', 'K']),
  ("BDGHIJKL", ['D', 'G', 'B', 'K', 'I', 'H', 'J', 'L']),
  ("BDFHIJKL", ['D', 'F', 'B', 'K', 'I', 'H', 'J', 'L']),
  ("BDFGIJKL", ['D', 'F', 'B', 'K', 'I', 'G', 'J', 'L']),
  ("BDFGHJKL", ['D', 'F', 'B', 'K', 'J', 'G', 'H', 'L']),
  ("BDFGHIKL", ['D', 'F', 'B', 'K', 'I', 'G', 'H', 'L']),
  ("BDFGHIJK", ['D', 'F', 'B', 'J', 'I', 'G', 'H', 'K']),
  ("BDEHIJKL", ['D', 'E', 'B', 'K', 'I', 'H', 'J', 'L']),
  ("BDEGIJKL", ['D', 'E', 'B', 'K', 'I', 'G', 'J', 'L']),
  ("BDEGHJKL", ['D', 'E', 'B', 'K', 'J', 'G', 'H', 'L']),
  ("BDEGHIKL", ['D', 'E', 'B', 'K', 'I', 'G', 'H', 'L']),
  ("BDEGHIJK", ['D', 'E', 'B', 'J', 'I', 'G', 'H', 'K']),
  ("BDEFIJKL", ['D', 'E', 'B', 'K', 'I', 'F', 'J', 'L']),
  ("BDEFHJKL", ['D', 'E', 'B', 'K', 'J', 'F', 'H', 'L']),
  ("BDEFHIKL", ['D', 'E', 'B', 'K', 'I', 'F', 'H', 'L']),
  ("BDEFHIJK", ['D', 'E', 'B', 'J', 'I', 'F', 'H', 'K']),
  ("BDEFGJKL", ['D', 'E', 'B', 'K', 'J', 'F', 'G', 'L']),
  ("BDEFGIKL", ['D', 'E', 'B', 'K', 'I', 'F', 'G', 'L']),
  ("BDEFGIJK", ['D', 'E', 'B', 'J', 'I', 'F', 'G', 'K']),
  ("BDEFGHKL", ['D', 'E', 'B', 'K', 'F', 'G', 'H', 'L']),
  ("BDEFGHJK", ['D', 'E', 'B', 'J', 'F', 'G', 'H', 'K']),
  ("BDEFGHIL", ['D', 'E', 'B', 'L', 'I', 'F', 'G', 'H']),
  ("BDEFGHIJ", ['D', 'E', 'B', 'J', 'I', 'F', 'G', 'H']),
  ("BCGHIJKL", ['C', 'G', 'B', 'K', 'I', 'H', 'J', 'L']),
  ("BCFHIJKL", ['C', 'F', 'B', 'K', 'I', 'H', 'J', 'L']),
  ("BCFGIJKL", ['C', 'F', 'B', 'K', 'I', 'G', 'J', 'L']),
  ("BCFGHJKL", ['C', 'F', 'B', 'K', 'J', 'G', 'H', 'L']),
  ("BCFGHIKL", ['C', 'F', 'B', 'K', 'I', 'G', 'H', 'L']),
  ("BCFGHIJK", ['C', 'F', 'B', 'J', 'I', 'G', 'H', 'K']),
  ("BCEHIJKL", ['C', 'E', 'B', 'K', 'I', 'H', 'J', 'L']),
  ("BCEGIJKL", ['C', 'E', 'B', 'K', 'I', 'G', 'J', 'L']),
  ("BCEGHJKL", ['C', 'E', 'B', 'K', 'J', 'G', 'H', 'L']),
  ("BCEGHIKL", ['C', 'E', 'B', 'K', 'I', 'G', 'H', 'L']),
  ("BCEGHIJK", ['C', 'E', 'B', 'J', 'I', 'G', 'H', 'K']),
  ("BCEFIJKL", ['C', 'E', 'B', 'K', 'I', 'F', 'J', 'L']),
  ("BCEFHJKL", ['C', 'E', 'B', 'K', 'J', 'F', 'H', 'L']),
  ("BCEFHIKL", ['C', 'E', 'B', 'K', 'I', 'F', 'H', 'L']),
  ("BCEFHIJK", ['C', 'E', 'B', 'J', 'I', 'F', 'H', 'K']),
  ("BCEFGJKL", ['C', 'E', 'B', 'K', 'J', 'F', 'G', 'L']),
  ("BCEFGIKL", ['C', 'E', 'B', 'K', 'I', 'F', 'G', 'L']),
  ("BCEFGIJK", ['C', 'E', 'B', 'J', 'I', 'F', 'G', 'K']),
  ("BCEFGHKL", ['C', 'E', 'B', 'K', 'F', 'G', 'H', 'L']),
  ("BCEFGHJK", ['C', 'E', 'B', 'J', 'F', 'G', 'H', 'K']),
  ("BCEFGHIL", ['C', 'E', 'B', 'L', 'I', 'F', 'G', 'H']),
  ("BCEFGHIJ", ['C', 'E', 'B', 'J', 'I', 'F', 'G', 'H']),
  ("BCDHIJKL", ['C', 'D', 'B', 'K', 'I', 'H', 'J', 'L']),
  ("BCDGIJKL", ['C', 'D', 'B', 'K', 'I', 'G', 'J', 'L']),
  ("BCDGHJKL", ['C', 'D', 'B', 'K', 'J', 'G', 'H', 'L']),
  ("BCDGHIKL", ['C', 'D', 'B', 'K', 'I', 'G', 'H', 'L']),
  ("BCDGHIJK", ['C', 'D', 'B', 'J', 'I', 'G', 'H', 'K']),
  ("BCDFIJKL", ['C', 'D', 'B', 'K', 'I', 'F', 'J', 'L']),
  ("BCDFHJKL", ['C', 'D', 'B', 'K', 'J', 'F', 'H', 'L']),
  ("BCDFHIKL", ['C', 'D', 'B', 'K', 'I', 'F', 'H', 'L']),
  ("BCDFHIJK", ['C', 'D', 'B', 'J', 'I', 'F', 'H', 'K']),
  ("BCDFGJKL", ['C', 'D', 'B', 'K', 'J', 'F', 'G', 'L']),
  ("BCDFGIKL", ['C', 'D', 'B', 'K', 'I', 'F', 'G', 'L']),
  ("BCDFGIJK", ['C', 'D', 'B', 'J', 'I', 'F', 'G', 'K']),
  ("BCDFGHKL", ['C', 'D', 'B', 'K', 'F', 'G', 'H', 'L']),
  ("BCDFGHJK", ['C', 'D', 'B', 'J', 'F', 'G', 'H', 'K']),
  ("BCDFGHIL", ['C', 'D', 'B', 'L', 'I', 'F', 'G', 'H']),
  ("BCDFGHIJ", ['C', 'D', 'B', 'J', 'I', 'F', 'G', 'H']),
  ("BCDEIJKL", ['C', 'D', 'B', 'K', 'I', 'E', 'J', 'L']),
  ("BCDEHJKL", ['C', 'D', 'B', 'K', 'J', 'E', 'H', 'L']),
  ("BCDEHIKL", ['C', 'D', 'B', 'K', 'I', 'E', 'H', 'L']),
  ("BCDEHIJK", ['C', 'D', 'B', 'J', 'I', 'E', 'H', 'K']),
  ("BCDEGJKL", ['C', 'D', 'B', 'K', 'J', 'E', 'G', 'L']),
  ("BCDEGIKL", ['C', 'D', 'B', 'K', 'I', 'E', 'G', 'L']),
  ("BCDEGIJK", ['C', 'D', 'B', 'J', 'I', 'E', 'G', 'K']),
  ("BCDEGHKL", ['C', 'D', 'B', 'K', 'E', 'G', 'H', 'L']),
  ("BCDEGHJK", ['C', 'D', 'B', 'J', 'E', 'G', 'H', 'K']),
  ("BCDEGHIL", ['C', 'D', 'B', 'L', 'I', 'E', 'G', 'H']),
  ("BCDEGHIJ", ['C', 'D', 'B', 'J', 'I', 'E', 'G', 'H']),
  ("BCDEFJKL", ['C', 'D', 'B', 'K', 'J', 'E', 'F', 'L']),
  ("BCDEFIKL", ['C', 'D', 'B', 'K', 'I', 'E', 'F', 'L']),
  ("BCDEFIJK", ['C', 'D', 'B', 'J', 'I', 'E', 'F', 'K']),
  ("BCDEFHKL", ['C', 'D', 'B', 'K', 'E', 'F', 'H', 'L']),
  ("BCDEFHJK", ['C', 'D', 'B', 'J', 'E', 'F', 'H', 'K']),
  ("BCDEFHIL", ['C', 'D', 'B', 'L', 'I', 'E', 'F', 'H']),
  ("BCDEFHIJ", ['C', 'D', 'B', 'J', 'I', 'E', 'F', 'H']),
  ("BCDEFGKL", ['C', 'D', 'B', 'K', 'E', 'F', 'G', 'L']),
  ("BCDEFGJK", ['C', 'D', 'B', 'J', 'E', 'F', 'G', 'K']),
  ("BCDEFGIL", ['C', 'D', 'B', 'L', 'I', 'E', 'F', 'G']),
  ("BCDEFGIJ", ['C', 'D', 'B', 'J', 'I', 'E', 'F', 'G']),
  ("BCDEFGHL", ['C', 'D', 'B', 'L', 'E', 'F', 'G', 'H']),
  ("BCDEFGHK", ['C', 'D', 'B', 'K', 'E', 'F', 'G', 'H']),
  ("BCDEFGHJ", ['C', 'D', 'B', 'J', 'E', 'F', 'G', 'H']),
  ("BCDEFGHI", ['C', 'D', 'B', 'I', 'E', 'F', 'G', 'H']),
  ("AFGHIJKL", ['F', 'G', 'A', 'K', 'I', 'H', 'J', 'L']),
  ("AEGHIJKL", ['E', 'G', 'A', 'K', 'I', 'H', 'J', 'L']),
  ("AEFHIJKL", ['E', 'F', 'A', 'K', 'I', 'H', 'J', 'L']),
  ("AEFGIJKL", ['E', 'F', 'A', 'K', 'I', 'G', 'J', 'L']),
  ("AEFGHJKL", ['E', 'F', 'A', 'K', 'J', 'G', 'H', 'L']),
  ("AEFGHIKL", ['E', 'F', 'A', 'K', 'I', 'G', 'H', 'L']),
  ("AEFGHIJK", ['E', 'F', 'A', 'J', 'I', 'G', 'H', 'K']),
  ("ADGHIJKL", ['D', 'G', 'A', 'K', 'I', 'H', 'J', 'L']),
  ("ADFHIJKL", ['D', 'F', 'A', 'K', 'I', 'H', 'J', 'L']),
  ("ADFGIJKL", ['D', 'F', 'A', 'K', 'I', 'G', 'J', 'L']),
  ("ADFGHJKL", ['D', 'F', 'A', 'K', 'J', 'G', 'H', 'L']),
  ("ADFGHIKL", ['D', 'F', 'A', 'K', 'I', 'G', 'H', 'L']),
  ("ADFGHIJK", ['D', 'F', 'A', 'J', 'I', 'G', 'H', 'K']),
  ("ADEHIJKL", ['D', 'E', 'A', 'K', 'I', 'H', 'J', 'L']),
  ("ADEGIJKL", ['D', 'E', 'A', 'K', 'I', 'G', 'J', 'L']),
  ("ADEGHJKL", ['D', 'E', 'A', 'K', 'J', 'G', 'H', 'L']),
  ("ADEGHIKL", ['D', 'E', 'A', 'K', 'I', 'G', 'H', 'L']),
  ("ADEGHIJK", ['D', 'E', 'A', 'J', 'I', 'G', 'H', 'K']),
  ("ADEFIJKL", ['D', 'E', 'A', 'K', 'I', 'F', 'J', 'L']),
  ("ADEFHJKL", ['D', 'E', 'A', 'K', 'J', 'F', 'H', 'L']),
  ("ADEFHIKL", ['D', 'E', 'A', 'K', 'I', 'F', 'H', 'L']),
  ("ADEFHIJK", ['D', 'E', 'A', 'J', 'I', 'F', 'H', 'K']),
  ("ADEFGJKL", ['D', 'E', 'A', 'K', 'J', 'F', 'G', 'L']),
  ("ADEFGIKL", ['D', 'E', 'A', 'K', 'I', 'F', 'G', 'L']),
  ("ADEFGIJK", ['D', 'E', 'A', 'J', 'I', 'F', 'G', 'K']),
  ("ADEFGHKL", ['D', 'E', 'A', 'K', 'F', 'G', 'H', 'L']),
  ("ADEFGHJK", ['D', 'E', 'A', 'J', 'F', 'G', 'H', 'K']),
  ("ADEFGHIL", ['D', 'E', 'A', 'L', 'I', 'F', 'G', 'H']),
  ("ADEFGHIJ", ['D', 'E', 'A', 'J', 'I', 'F', 'G', 'H']),
  ("ACGHIJKL", ['C', 'G', 'A', 'K', 'I', 'H', 'J', 'L']),
  ("ACFHIJKL", ['C', 'F', 'A', 'K', 'I', 'H', 'J', 'L']),
  ("ACFGIJKL", ['C', 'F', 'A', 'K', 'I', 'G', 'J', 'L']),
  ("ACFGHJKL", ['C', 'F', 'A', 'K', 'J', 'G', 'H', 'L']),
  ("ACFGHIKL", ['C', 'F', 'A', 'K', 'I', 'G', 'H', 'L']),
  ("ACFGHIJK", ['C', 'F', 'A', 'J', 'I', 'G', 'H', 'K']),
  ("ACEHIJKL", ['C', 'E', 'A', 'K', 'I', 'H', 'J', 'L']),
  ("ACEGIJKL", ['C', 'E', 'A', 'K', 'I', 'G', 'J', 'L']),
  ("ACEGHJKL", ['C', 'E', 'A', 'K', 'J', 'G', 'H', 'L']),
  ("ACEGHIKL", ['C', 'E', 'A', 'K', 'I', 'G', 'H', 'L']),
  ("ACEGHIJK", ['C', 'E', 'A', 'J', 'I', 'G', 'H', 'K']),
  ("ACEFIJKL", ['C', 'E', 'A', 'K', 'I', 'F', 'J', 'L']),
  ("ACEFHJKL", ['C', 'E', 'A', 'K', 'J', 'F', 'H', 'L']),
  ("ACEFHIKL", ['C', 'E', 'A', 'K', 'I', 'F', 'H', 'L']),
  ("ACEFHIJK", ['C', 'E', 'A', 'J', 'I', 'F', 'H', 'K']),
  ("ACEFGJKL", ['C', 'E', 'A', 'K', 'J', 'F', 'G', 'L']),
  ("ACEFGIKL", ['C', 'E', 'A', 'K', 'I', 'F', 'G', 'L']),
  ("ACEFGIJK", ['C', 'E', 'A', 'J', 'I', 'F', 'G', 'K']),
  ("ACEFGHKL", ['C', 'E', 'A', 'K', 'F', 'G', 'H', 'L']),
  ("ACEFGHJK", ['C', 'E', 'A', 'J', 'F', 'G', 'H', 'K']),
  ("ACEFGHIL", ['C', 'E', 'A', 'L', 'I', 'F', 'G', 'H']),
  ("ACEFGHIJ", ['C', 'E', 'A', 'J', 'I', 'F', 'G', 'H']),
  ("ACDHIJKL", ['C', 'D', 'A', 'K', 'I', 'H', 'J', 'L']),
  ("ACDGIJKL", ['C', 'D', 'A', 'K', 'I', 'G', 'J', 'L']),
  ("ACDGHJKL", ['C', 'D', 'A', 'K', 'J', 'G', 'H', 'L']),
  ("ACDGHIKL", ['C', 'D', 'A', 'K', 'I', 'G', 'H', 'L']),
  ("ACDGHIJK", ['C', 'D', 'A', 'J', 'I', 'G', 'H', 'K']),
  ("ACDFIJKL", ['C', 'D', 'A', 'K', 'I', 'F', 'J', 'L']),
  ("ACDFHJKL", ['C', 'D', 'A', 'K', 'J', 'F', 'H', 'L']),
  ("ACDFHIKL", ['C', 'D', 'A', 'K', 'I', 'F', 'H', 'L']),
  ("ACDFHIJK", ['C', 'D', 'A', 'J', 'I', 'F', 'H', 'K']),
  ("ACDFGJKL", ['C', 'D', 'A', 'K', 'J', 'F', 'G', 'L']),
  ("ACDFGIKL", ['C', 'D', 'A', 'K', 'I', 'F', 'G', 'L']),
  ("ACDFGIJK", ['C', 'D', 'A', 'J', 'I', 'F', 'G', 'K']),
  ("ACDFGHKL", ['C', 'D', 'A', 'K', 'F', 'G', 'H', 'L']),
  ("ACDFGHJK", ['C', 'D', 'A', 'J', 'F', 'G', 'H', 'K']),
  ("ACDFGHIL", ['C', 'D', 'A', 'L', 'I', 'F', 'G', 'H']),
  ("ACDFGHIJ", ['C', 'D', 'A', 'J', 'I', 'F', 'G', 'H']),
  ("ACDEIJKL", ['C', 'D', 'A', 'K', 'I', 'E', 'J', 'L']),
  ("ACDEHJKL", ['C', 'D', 'A', 'K', 'J', 'E', 'H', 'L']),
  ("ACDEHIKL", ['C', 'D', 'A', 'K', 'I', 'E', 'H', 'L']),
  ("ACDEHIJK", ['C', 'D', 'A', 'J', 'I', 'E', 'H', 'K']),
  ("ACDEGJKL", ['C', 'D', 'A', 'K', 'J', 'E', 'G', 'L']),
  ("ACDEGIKL", ['C', 'D', 'A', 'K', 'I', 'E', 'G', 'L']),
  ("ACDEGIJK", ['C', 'D', 'A', 'J', 'I', 'E', 'G', 'K']),
  ("ACDEGHKL", ['C', 'D', 'A', 'K', 'E', 'G', 'H', 'L']),
  ("ACDEGHJK", ['C', 'D', 'A', 'J', 'E', 'G', 'H', 'K']),
  ("ACDEGHIL", ['C', 'D', 'A', 'L', 'I', 'E', 'G', 'H']),
  ("ACDEGHIJ", ['C', 'D', 'A', 'J', 'I', 'E', 'G', 'H']),
  ("ACDEFJKL", ['C', 'D', 'A', 'K', 'J', 'E', 'F', 'L']),
  ("ACDEFIKL", ['C', 'D', 'A', 'K', 'I', 'E', 'F', 'L']),
  ("ACDEFIJK", ['C', 'D', 'A', 'J', 'I', 'E', 'F', 'K']),
  ("ACDEFHKL", ['C', 'D', 'A', 'K', 'E', 'F', 'H', 'L']),
  ("ACDEFHJK", ['C', 'D', 'A', 'J', 'E', 'F', 'H', 'K']),
  ("ACDEFHIL", ['C', 'D', 'A', 'L', 'I', 'E', 'F', 'H']),
  ("ACDEFHIJ", ['C', 'D', 'A', 'J', 'I', 'E', 'F', 'H']),
  ("ACDEFGKL", ['C', 'D', 'A', 'K', 'E', 'F', 'G', 'L']),
  ("ACDEFGJK", ['C', 'D', 'A', 'J', 'E', 'F', 'G', 'K']),
  ("ACDEFGIL", ['C', 'D', 'A', 'L', 'I', 'E', 'F', 'G']),
  ("ACDEFGIJ", ['C', 'D', 'A', 'J', 'I', 'E', 'F', 'G']),
  ("ACDEFGHL", ['C', 'D', 'A', 'L', 'E', 'F', 'G', 'H']),
  ("ACDEFGHK", ['C', 'D', 'A', 'K', 'E', 'F', 'G', 'H']),
  ("ACDEFGHJ", ['C', 'D', 'A', 'J', 'E', 'F', 'G', 'H']),
  ("ACDEFGHI", ['C', 'D', 'A', 'I', 'E', 'F', 'G', 'H']),
  ("ABGHIJKL", ['B', 'G', 'A', 'K', 'I', 'H', 'J', 'L']),
  ("ABFHIJKL", ['B', 'F', 'A', 'K', 'I', 'H', 'J', 'L']),
  ("ABFGIJKL", ['B', 'F', 'A', 'K', 'I', 'G', 'J', 'L']),
  ("ABFGHJKL", ['B', 'F', 'A', 'K', 'J', 'G', 'H', 'L']),
  ("ABFGHIKL", ['B', 'F', 'A', 'K', 'I', 'G', 'H', 'L']),
  ("ABFGHIJK", ['B', 'F', 'A', 'J', 'I', 'G', 'H', 'K']),
  ("ABEHIJKL", ['B', 'E', 'A', 'K', 'I', 'H', 'J', 'L']),
  ("ABEGIJKL", ['B', 'E', 'A', 'K', 'I', 'G', 'J', 'L']),
  ("ABEGHJKL", ['B', 'E', 'A', 'K', 'J', 'G', 'H', 'L']),
  ("ABEGHIKL", ['B', 'E', 'A', 'K', 'I', 'G', 'H', 'L']),
  ("ABEGHIJK", ['B', 'E', 'A', 'J', 'I', 'G', 'H', 'K']),
  ("ABEFIJKL", ['B', 'E', 'A', 'K', 'I', 'F', 'J', 'L']),
  ("ABEFHJKL", ['B', 'E', 'A', 'K', 'J', 'F', 'H', 'L']),
  ("ABEFHIKL", ['B', 'E', 'A', 'K', 'I', 'F', 'H', 'L']),
  ("ABEFHIJK", ['B', 'E', 'A', 'J', 'I', 'F', 'H', 'K']),
  ("ABEFGJKL", ['B', 'E', 'A', 'K', 'J', 'F', 'G', 'L']),
  ("ABEFGIKL", ['B', 'E', 'A', 'K', 'I', 'F', 'G', 'L']),
  ("ABEFGIJK", ['B', 'E', 'A', 'J', 'I', 'F', 'G', 'K']),
  ("ABEFGHKL", ['B', 'E', 'A', 'K', 'F', 'G', 'H', 'L']),
  ("ABEFGHJK", ['B', 'E', 'A', 'J', 'F', 'G', 'H', 'K']),
  ("ABEFGHIL", ['B', 'E', 'A', 'L', 'I', 'F', 'G', 'H']),
  ("ABEFGHIJ", ['B', 'E', 'A', 'J', 'I', 'F', 'G', 'H']),
  ("ABDHIJKL", ['B', 'D', 'A', 'K', 'I', 'H', 'J', 'L']),
  ("ABDGIJKL", ['B', 'D', 'A', 'K', 'I', 'G', 'J', 'L']),
  ("ABDGHJKL", ['B', 'D', 'A', 'K', 'J', 'G', 'H', 'L']),
  ("ABDGHIKL", ['B', 'D', 'A', 'K', 'I', 'G', 'H', 'L']),
  ("ABDGHIJK", ['B', 'D', 'A', 'J', 'I', 'G', 'H', 'K']),
  ("ABDFIJKL", ['B', 'D', 'A', 'K', 'I', 'F', 'J', 'L']),
  ("ABDFHJKL", ['B', 'D', 'A', 'K', 'J', 'F', 'H', 'L']),
  ("ABDFHIKL", ['B', 'D', 'A', 'K', 'I', 'F', 'H', 'L']),
  ("ABDFHIJK", ['B', 'D', 'A', 'J', 'I', 'F', 'H', 'K']),
  ("ABDFGJKL", ['B', 'D', 'A', 'K', 'J', 'F', 'G', 'L']),
  ("ABDFGIKL", ['B', 'D', 'A', 'K', 'I', 'F', 'G', 'L']),
  ("ABDFGIJK", ['B', 'D', 'A', 'J', 'I', 'F', 'G', 'K']),
  ("ABDFGHKL", ['B', 'D', 'A', 'K', 'F', 'G', 'H', 'L']),
  ("ABDFGHJK", ['B', 'D', 'A', 'J', 'F', 'G', 'H', 'K']),
  ("ABDFGHIL", ['B', 'D', 'A', 'L', 'I', 'F', 'G', 'H']),
  ("ABDFGHIJ", ['B', 'D', 'A', 'J', 'I', 'F', 'G', 'H']),
  ("ABDEIJKL", ['B', 'D', 'A', 'K', 'I', 'E', 'J', 'L']),
  ("ABDEHJKL", ['B', 'D', 'A', 'K', 'J', 'E', 'H', 'L']),
  ("ABDEHIKL", ['B', 'D', 'A', 'K', 'I', 'E', 'H', 'L']),
  ("ABDEHIJK", ['B', 'D', 'A', 'J', 'I', 'E', 'H', 'K']),
  ("ABDEGJKL", ['B', 'D', 'A', 'K', 'J', 'E', 'G', 'L']),
  ("ABDEGIKL", ['B', 'D', 'A', 'K', 'I', 'E', 'G', 'L']),
  ("ABDEGIJK", ['B', 'D', 'A', 'J', 'I', 'E', 'G', 'K']),
  ("ABDEGHKL", ['B', 'D', 'A', 'K', 'E', 'G', 'H', 'L']),
  ("ABDEGHJK", ['B', 'D', 'A', 'J', 'E', 'G', 'H', 'K']),
  ("ABDEGHIL", ['B', 'D', 'A', 'L', 'I', 'E', 'G', 'H']),
  ("ABDEGHIJ", ['B', 'D', 'A', 'J', 'I', 'E', 'G', 'H']),
  ("ABDEFJKL", ['B', 'D', 'A', 'K', 'J', 'E', 'F', 'L']),
  ("ABDEFIKL", ['B', 'D', 'A', 'K', 'I', 'E', 'F', 'L']),
  ("ABDEFIJK", ['B', 'D', 'A', 'J', 'I', 'E', 'F', 'K']),
  ("ABDEFHKL", ['B', 'D', 'A', 'K', 'E', 'F', 'H', 'L']),
  ("ABDEFHJK", ['B', 'D', 'A', 'J', 'E', 'F', 'H', 'K']),
  ("ABDEFHIL", ['B', 'D', 'A', 'L', 'I', 'E', 'F', 'H']),
  ("ABDEFHIJ", ['B', 'D', 'A', 'J', 'I', 'E', 'F', 'H']),
  ("ABDEFGKL", ['B', 'D', 'A', 'K', 'E', 'F', 'G', 'L']),
  ("ABDEFGJK", ['B', 'D', 'A', 'J', 'E', 'F', 'G', 'K']),
  ("ABDEFGIL", ['B', 'D', 'A', 'L', 'I', 'E', 'F', 'G']),
  ("ABDEFGIJ", ['B', 'D', 'A', 'J', 'I', 'E', 'F', 'G']),
  ("ABDEFGHL", ['B', 'D', 'A', 'L', 'E', 'F', 'G', 'H']),
  ("ABDEFGHK", ['B', 'D', 'A', 'K', 'E', 'F', 'G', 'H']),
  ("ABDEFGHJ", ['B', 'D', 'A', 'J', 'E', 'F', 'G', 'H']),
  ("ABDEFGHI", ['B', 'D', 'A', 'I', 'E', 'F', 'G', 'H']),
  ("ABCGHIJK", ['B', 'C', 'A', 'J', 'I', 'G', 'H', 'K']),
  ("ABCGHIKL", ['B', 'C', 'A', 'K', 'I', 'G', 'H', 'L']),
  ("ABCGHJKL", ['B', 'C', 'A', 'K', 'J', 'G', 'H', 'L']),
  ("ABCGIJKL", ['B', 'C', 'A', 'K', 'I', 'G', 'J', 'L']),
  ("ABCHIJKL", ['B', 'C', 'A', 'K', 'I', 'H', 'J', 'L']),
  ("ABCFHIJK", ['B', 'C', 'A', 'J', 'I', 'F', 'H', 'K']),
  ("ABCFHIKL", ['B', 'C', 'A', 'K', 'I', 'F', 'H', 'L']),
  ("ABCFHJKL", ['B', 'C', 'A', 'K', 'J', 'F', 'H', 'L']),
  ("ABCFIJKL", ['B', 'C', 'A', 'K', 'I', 'F', 'J', 'L']),
  ("ABCFGHIJ", ['B', 'C', 'A', 'J', 'I', 'F', 'G', 'H']),
  ("ABCFGHIK", ['B', 'C', 'A', 'K', 'I', 'F', 'G', 'H']),
  ("ABCFGHJK", ['B', 'C', 'A', 'J', 'F', 'G', 'H', 'K']),
  ("ABCFGHIL", ['B', 'C', 'A', 'L', 'I', 'F', 'G', 'H']),
  ("ABCFGHKL", ['B', 'C', 'A', 'K', 'F', 'G', 'H', 'L']),
  ("ABCFGIJK", ['B', 'C', 'A', 'J', 'I', 'F', 'G', 'K']),
  ("ABCFGIKL", ['B', 'C', 'A', 'K', 'I', 'F', 'G', 'L']),
  ("ABCFGJKL", ['B', 'C', 'A', 'K', 'J', 'F', 'G', 'L']),
  ("ABCEHIJK", ['B', 'C', 'A', 'J', 'I', 'E', 'H', 'K']),
  ("ABCEHIKL", ['B', 'C', 'A', 'K', 'I', 'E', 'H', 'L']),
  ("ABCEHJKL", ['B', 'C', 'A', 'K', 'J', 'E', 'H', 'L']),
  ("ABCEIJKL", ['B', 'C', 'A', 'K', 'I', 'E', 'J', 'L']),
  ("ABCEGHIJ", ['B', 'C', 'A', 'J', 'I', 'E', 'G', 'H']),
  ("ABCEGHIK", ['B', 'C', 'A', 'K', 'I', 'E', 'G', 'H']),
  ("ABCEGHJK", ['B', 'C', 'A', 'J', 'E', 'G', 'H', 'K']),
  ("ABCEGHIL", ['B', 'C', 'A', 'L', 'I', 'E', 'G', 'H']),
  ("ABCEGHKL", ['B', 'C', 'A', 'K', 'E', 'G', 'H', 'L']),
  ("ABCEGIJK", ['B', 'C', 'A', 'J', 'I', 'E', 'G', 'K']),
  ("ABCEGIKL", ['B', 'C', 'A', 'K', 'I', 'E', 'G', 'L']),
  ("ABCEGJKL", ['B', 'C', 'A', 'K', 'J', 'E', 'G', 'L']),
  ("ABCEFHIJ", ['B', 'C', 'A', 'J', 'I', 'E', 'F', 'H']),
  ("ABCEFHIK", ['B', 'C', 'A', 'K', 'I', 'E', 'F', 'H']),
  ("ABCEFHJK", ['B', 'C', 'A', 'J', 'E', 'F', 'H', 'K']),
  ("ABCEFHIL", ['B', 'C', 'A', 'L', 'I', 'E', 'F', 'H']),
  ("ABCEFHKL", ['B', 'C', 'A', 'K', 'E', 'F', 'H', 'L']),
  ("ABCEFIJK", ['B', 'C', 'A', 'J', 'I', 'E', 'F', 'K']),
  ("ABCEFIKL", ['B', 'C', 'A', 'K', 'I', 'E', 'F', 'L']),
  ("ABCEFJKL", ['B', 'C', 'A', 'K', 'J', 'E', 'F', 'L']),
  ("ABCEFGHI", ['B', 'C', 'A', 'I', 'E', 'F', 'G', 'H']),
  ("ABCEFGHJ", ['B', 'C', 'A', 'J', 'E', 'F', 'G', 'H']),
  ("ABCEFGHK", ['B', 'C', 'A', 'K', 'E', 'F', 'G', 'H']),
  ("ABCEFGHL", ['B', 'C', 'A', 'L', 'E', 'F', 'G', 'H']),
  ("ABCEFGIJ", ['B', 'C', 'A', 'J', 'I', 'E', 'F', 'G']),
  ("ABCEFGIK", ['B', 'C', 'A', 'K', 'I', 'E', 'F', 'G']),
  ("ABCEFGIL", ['B', 'C', 'A', 'L', 'I', 'E', 'F', 'G']),
  ("ABCEFGJK", ['B', 'C', 'A', 'J', 'E', 'F', 'G', 'K']),
  ("ABCEFGKL", ['B', 'C', 'A', 'K', 'E', 'F', 'G', 'L']),
  ("ABCDHIJK", ['B', 'C', 'A', 'J', 'I', 'D', 'H', 'K']),
  ("ABCDHIKL", ['B', 'C', 'A', 'K', 'I', 'D', 'H', 'L']),
  ("ABCDHJKL", ['B', 'C', 'A', 'K', 'J', 'D', 'H', 'L']),
  ("ABCDIJKL", ['B', 'C', 'A', 'K', 'I', 'D', 'J', 'L']),
  ("ABCDGHIJ", ['B', 'C', 'A', 'J', 'I', 'D', 'G', 'H']),
  ("ABCDGHIK", ['B', 'C', 'A', 'K', 'I', 'D', 'G', 'H']),
  ("ABCDGHJK", ['B', 'C', 'A', 'J', 'D', 'G', 'H', 'K']),
  ("ABCDGHIL", ['B', 'C', 'A', 'L', 'I', 'D', 'G', 'H']),
  ("ABCDGHKL", ['B', 'C', 'A', 'K', 'D', 'G', 'H', 'L']),
  ("ABCDGIJK", ['B', 'C', 'A', 'J', 'I', 'D', 'G', 'K']),
  ("ABCDGIKL", ['B', 'C', 'A', 'K', 'I', 'D', 'G', 'L']),
  ("ABCDGJKL", ['B', 'C', 'A', 'K', 'J', 'D', 'G', 'L']),
  ("ABCDFHIJ", ['B', 'C', 'A', 'J', 'I', 'D', 'F', 'H']),
  ("ABCDFHIK", ['B', 'C', 'A', 'K', 'I', 'D', 'F', 'H']),
  ("ABCDFHJK", ['B', 'C', 'A', 'J', 'D', 'F', 'H', 'K']),
  ("ABCDFHIL", ['B', 'C', 'A', 'L', 'I', 'D', 'F', 'H']),
  ("ABCDFHKL", ['B', 'C', 'A', 'K', 'D', 'F', 'H', 'L']),
  ("ABCDFIJK", ['B', 'C', 'A', 'J', 'I', 'D', 'F', 'K']),
  ("ABCDFIKL", ['B', 'C', 'A', 'K', 'I', 'D', 'F', 'L']),
  ("ABCDFJKL", ['B', 'C', 'A', 'K', 'J', 'D', 'F', 'L']),
  ("ABCDFGHI", ['B', 'C', 'A', 'I', 'D', 'F', 'G', 'H']),
  ("ABCDFGHJ", ['B', 'C', 'A', 'J', 'D', 'F', 'G', 'H']),
  ("ABCDFGHK", ['B', 'C', 'A', 'K', 'D', 'F', 'G', 'H']),
  ("ABCDFGHL", ['B', 'C', 'A', 'L', 'D', 'F', 'G', 'H']),
  ("ABCDFGIJ", ['B', 'C', 'A', 'J', 'I', 'D', 'F', 'G']),
  ("ABCDFGIK", ['B', 'C', 'A', 'K', 'I', 'D', 'F', 'G']),
  ("ABCDFGIL", ['B', 'C', 'A', 'L', 'I', 'D', 'F', 'G']),
  ("ABCDFGJK", ['B', 'C', 'A', 'J', 'D', 'F', 'G', 'K']),
  ("ABCDFGKL", ['B', 'C', 'A', 'K', 'D', 'F', 'G', 'L']),
  ("ABCDEHIJ", ['B', 'C', 'A', 'J', 'I', 'D', 'E', 'H']),
  ("ABCDEHIK", ['B', 'C', 'A', 'K', 'I', 'D', 'E', 'H']),
  ("ABCDEHJK", ['B', 'C', 'A', 'J', 'D', 'E', 'H', 'K']),
  ("ABCDEHIL", ['B', 'C', 'A', 'L', 'I', 'D', 'E', 'H']),
  ("ABCDEHKL", ['B', 'C', 'A', 'K', 'D', 'E', 'H', 'L']),
  ("ABCDEIJK", ['B', 'C', 'A', 'J', 'I', 'D', 'E', 'K']),
  ("ABCDEIKL", ['B', 'C', 'A', 'K', 'I', 'D', 'E', 'L']),
  ("ABCDEJKL", ['B', 'C', 'A', 'K', 'J', 'D', 'E', 'L']),
  ("ABCDEGHI", ['B', 'C', 'A', 'I', 'D', 'E', 'G', 'H']),
  ("ABCDEGHJ", ['B', 'C', 'A', 'J', 'D', 'E', 'G', 'H']),
  ("ABCDEGHK", ['B', 'C', 'A', 'K', 'D', 'E', 'G', 'H']),
  ("ABCDEGHL", ['B', 'C', 'A', 'L', 'D', 'E', 'G', 'H']),
  ("ABCDEGIJ", ['B', 'C', 'A', 'J', 'I', 'D', 'E', 'G']),
  ("ABCDEGIK", ['B', 'C', 'A', 'K', 'I', 'D', 'E', 'G']),
  ("ABCDEGIL", ['B', 'C', 'A', 'L', 'I', 'D', 'E', 'G']),
  ("ABCDEGJK", ['B', 'C', 'A', 'J', 'D', 'E', 'G', 'K']),
  ("ABCDEGKL", ['B', 'C', 'A', 'K', 'D', 'E', 'G', 'L']),
  ("ABCDEFHI", ['B', 'C', 'A', 'I', 'D', 'E', 'F', 'H']),
  ("ABCDEFHJ", ['B', 'C', 'A', 'J', 'D', 'E', 'F', 'H']),
  ("ABCDEFHK", ['B', 'C', 'A', 'K', 'D', 'E', 'F', 'H']),
  ("ABCDEFHL", ['B', 'C', 'A', 'L', 'D', 'E', 'F', 'H']),
  ("ABCDEFIJ", ['B', 'C', 'A', 'J', 'I', 'D', 'E', 'F']),
  ("ABCDEFIK", ['B', 'C', 'A', 'K', 'I', 'D', 'E', 'F']),
  ("ABCDEFIL", ['B', 'C', 'A', 'L', 'I', 'D', 'E', 'F']),
  ("ABCDEFJK", ['B', 'C', 'A', 'J', 'D', 'E', 'F', 'K']),
  ("ABCDEFKL", ['B', 'C', 'A', 'K', 'D', 'E', 'F', 'L']),
  ("ABCDEFGH", ['B', 'C', 'A', 'H', 'D', 'E', 'F', 'G']),
  ("ABCDEFGI", ['B', 'C', 'A', 'I', 'D', 'E', 'F', 'G']),
  ("ABCDEFGJ", ['B', 'C', 'A', 'J', 'D', 'E', 'F', 'G']),
  ("ABCDEFGK", ['B', 'C', 'A', 'K', 'D', 'E', 'F', 'G']),
  ("ABCDEFGL", ['B', 'C', 'A', 'L', 'D', 'E', 'F', 'G'])
]

/-- `get_third_place_assignments` from `bracket.rs`: first consult the lookup
table, otherwise fall back to the backtracking search. -/
def get_third_place_assignments (qualifying_groups : String) : Option (List Char) :=
  match List.lookup qualifying_groups THIRD_PLACE_TABLE with
  | some assignments => some assignments
  | none => compute_third_place_assignments qualifying_groups

/-- `PenaltyResult` from `match_result.rs`; the `u8` counters are modelled as
`Nat` (shootout scores stay far below 256). -/
structure PenaltyResult where
  home_penalties : Nat
  away_penalties : Nat
deriving DecidableEq

/-- `PenaltyResult::winner`: the home side wins only with strictly more
converted penalties; the `else` branch awards everything else — ties
included — to the away side. -/
def PenaltyResult.winner (p : PenaltyResult) (home_team away_team : TeamId) : TeamId :=
  if p.home_penalties > p.away_penalties then home_team else away_team

/-- `MatchOutcome` from `match_result.rs`. -/
inductive MatchOutcome
  | HomeWin
  | Draw
  | AwayWin
deriving DecidableEq

/-- `MatchResult` from `match_result.rs`; goals are `u8` in the source and
`Nat` here (they are capped far below 256 by the sampler). -/
structure MatchResult where
  home_team : TeamId
  away_team : TeamId
  home_goals : Nat
  away_goals : Nat
  extra_time : Bool
  penalties : Option PenaltyResult
deriving DecidableEq

/-- `MatchResult::new`. -/
def MatchResult.mkNew (home_team away_team : TeamId) (home_goals away_goals : Nat) :
    MatchResult :=
  ⟨home_team, away_team, home_goals, away_goals, false, none⟩

/-- `MatchResult::outcome`: the `match` on `home_goals.cmp(&away_goals)`. -/
def MatchResult.outcome (m : MatchResult) : MatchOutcome :=
  if m.home_goals > m.away_goals then .HomeWin
  else if m.home_goals < m.away_goals then .AwayWin
  else .Draw

/-- `MatchResult::winner`: group-stage draws give `none`; knockout draws
defer to the penalty result when present. -/
def MatchResult.winner (m : MatchResult) : Option TeamId :=
  match m.outcome with
  | .HomeWin => some m.home_team
  | .AwayWin => some m.away_team
  | .Draw => m.penalties.map (fun p => p.winner m.home_team m.away_team)

/-- `MatchResult::loser`. -/
def MatchResult.loser (m : MatchResult) : Option TeamId :=
  m.winner.map (fun w => if w = m.home_team then m.away_team else m.home_team)

/-- `MatchResult::goal_difference` (an `i16` in the source). -/
def MatchResult.goal_difference (m : MatchResult) (team : TeamId) : Int :=
  if team = m.home_team then (m.home_goals : Int) - (m.away_goals : Int)
  else if team = m.away_team then (m.away_goals : Int) - (m.home_goals : Int)
  else 0

/-- `MatchResult::goals_for`. -/
def MatchResult.goals_for (m : MatchResult) (team : TeamId) : Nat :=
  if team = m.home_team then m.home_goals
  else if team = m.away_team then m.away_goals
  else 0

/-- `MatchResult::goals_against`. -/
def MatchResult.goals_against (m : MatchResult) (team : TeamId) : Nat :=
  if team = m.home_team then m.away_goals
  else if team = m.away_team then m.home_goals
  else 0

/-- `MatchResult::points_for`. -/
def MatchResult.points_for (m : MatchResult) (team : TeamId) : Nat :=
  if team = m.home_team then
    match m.outcome with
    | .HomeWin => 3
    | .Draw => 1
    | .AwayWin => 0
  else if team = m.away_team then
    match m.outcome with
    | .AwayWin => 3
    | .Draw => 1
    | .HomeWin => 0
  else 0

/-- `GroupPosition` from `bracket.rs`. -/
inductive GroupPosition
  | Winner
  | RunnerUp
  | Third
deriving DecidableEq

/-- `SlotSource` from `bracket.rs`; the pool slot index is `u8` in the source. -/
inductive SlotSource
  | GroupTeam (group : Char) (position : GroupPosition)
  | ThirdPlacePool (slot_index : Nat)
deriving DecidableEq

/-- `R32Match` from `bracket.rs`. -/
structure R32Match where
  match_num : Nat
  team_a : SlotSource
  team_b : SlotSource
deriving DecidableEq

/-- The official FIFA 2026 Round of 32 template (`R32_BRACKET` in
`bracket.rs`), ordered so that consecutive pairs feed Round-of-16 slots. -/
def R32_BRACKET : List R32Match := [
  ⟨74, .GroupTeam 'E' .Winner, .ThirdPlacePool 0⟩,
  ⟨77, .GroupTeam 'I' .Winner, .ThirdPlacePool 1⟩,
  ⟨75, .GroupTeam 'F' .Winner, .GroupTeam 'C' .RunnerUp⟩,
  ⟨76, .GroupTeam 'C' .Winner, .GroupTeam 'F' .RunnerUp⟩,
  ⟨79, .GroupTeam 'A' .Winner, .ThirdPlacePool 2⟩,
  ⟨80, .GroupTeam 'L' .Winner, .ThirdPlacePool 3⟩,
  ⟨73, .GroupTeam 'A' .RunnerUp, .GroupTeam 'B' .RunnerUp⟩,
  ⟨78, .GroupTeam 'E' .RunnerUp, .GroupTeam 'I' .RunnerUp⟩,
  ⟨81, .GroupTeam 'D' .Winner, .ThirdPlacePool 4⟩,
  ⟨82, .GroupTeam 'G' .Winner, .ThirdPlacePool 5⟩,
  ⟨84, .GroupTeam 'H' .Winner, .GroupTeam 'J' .RunnerUp⟩,
  ⟨86, .GroupTeam 'J' .Winner, .GroupTeam 'H' .RunnerUp⟩,
  ⟨85, .GroupTeam 'B' .Winner, .ThirdPlacePool 6⟩,
  ⟨87, .GroupTeam 'K' .Winner, .ThirdPlacePool 7⟩,
  ⟨83, .GroupTeam 'K' .RunnerUp, .GroupTeam 'L' .RunnerUp⟩,
  ⟨88, .GroupTeam 'D' .RunnerUp, .GroupTeam 'G' .RunnerUp⟩]

/-- `resolve_slot` from `bracket.rs`.  The winner and runner-up `HashMap`s are
modelled as total functions (the engine always populates all twelve letters);
the third-place map is the qualifying list itself looked up by group letter,
and the source's `.expect(..)` panics become `none`. -/
def resolve_slot (source : SlotSource) (winners runners_up : Char → TeamId)
    (third_assignments : List Char)
    (third_place_map : List (Char × TeamId)) : Option TeamId :=
  match source with
  | .GroupTeam group position =>
    match position with
    | .Winner => some (winners group)
    | .RunnerUp => some (runners_up group)
    | .Third => List.lookup group third_place_map
  | .ThirdPlacePool slot_index =>
    List.lookup (third_assignments.getD slot_index ' ') third_place_map

/-- Resolve both sides of every template match in order, propagating any
panic (`none`); this is the `.iter().map(..).collect()` at the end of
`build_r32_pairings`. -/
def resolvePairs (g : SlotSource → Option TeamId) : List R32Match → Option (List (TeamId × TeamId))
  | [] => some []
  | m :: rest =>
    match g m.team_a, g m.team_b, resolvePairs g rest with
    | some a, some b, some pairs => some ((a, b) :: pairs)
    | _, _, _ => none

/-- `build_r32_pairings` from `bracket.rs`: sort the qualifying groups'
letters into the lookup key, fetch the third-place assignment (the source
panics when this fails — modelled as `none`), then resolve all 16 template
matches. -/
def build_r32_pairings (winners runners_up : Char → TeamId)
    (qualifying_thirds : List (Char × TeamId)) : Option (List (TeamId × TeamId)) :=
  let key := String.mk ((qualifying_thirds.map Prod.fst).mergeSort (fun a b => decide (a ≤ b)))
  match get_third_place_assignments key with
  | none => none
  | some third_assignments =>
    resolvePairs
      (fun s => resolve_slot s winners runners_up third_assignments qualifying_thirds)
      R32_BRACKET

/-- Both sides of all 16 template matches, in template order. -/
def srcList : List SlotSource :=
  R32_BRACKET.flatMap (fun m => [m.team_a, m.team_b])

/-- Template sanity predicate used in proofs: a slot source is either the
winner or the runner-up of one of the twelve groups, or a third-place pool
slot with index below 8. -/
def srcOKb : SlotSource → Bool
  | .GroupTeam g .Winner => GROUP_LETTERS.contains g
  | .GroupTeam g .RunnerUp => GROUP_LETTERS.contains g
  | .GroupTeam _ .Third => false
  | .ThirdPlacePool i => decide (i < 8)

/-- `GroupStanding` from `tiebreaker.rs`; `u8`/`u16` counters as `Nat`. -/
structure GroupStanding where
  team_id : TeamId
  group_id : Char
  played : Nat
  wins : Nat
  draws : Nat
  losses : Nat
  goals_for : Nat
  goals_against : Nat
  points : Nat
deriving DecidableEq

/-- `GroupStanding::goal_difference` (an `i16` in the source). -/
def GroupStanding.goal_difference (s : GroupStanding) : Int :=
  (s.goals_for : Int) - (s.goals_against : Int)

/-- `compare_head_to_head` from `tiebreaker.rs`: walk the match list for the
mutual encounter of the two teams; on the first hit compare that match's
points, then its goal difference, then its goals scored, and return; `eq`
when no mutual match exists. -/
def compare_head_to_head (team_a team_b : GroupStanding) :
    List MatchResult → Ordering
  | [] => .eq
  | m :: ms =>
    if (m.home_team = team_a.team_id ∧ m.away_team = team_b.team_id) ∨
       (m.home_team = team_b.team_id ∧ m.away_team = team_a.team_id) then
      if m.points_for team_a.team_id ≠ m.points_for team_b.team_id then
        cmp (m.points_for team_b.team_id) (m.points_for team_a.team_id)
      else if m.goal_difference team_a.team_id ≠ m.goal_difference team_b.team_id then
        cmp (m.goal_difference team_b.team_id) (m.goal_difference team_a.team_id)
      else
        cmp (m.goals_for team_b.team_id) (m.goals_for team_a.team_id)
    else compare_head_to_head team_a team_b ms

/-- The comparator closure passed to `sort_by` in `resolve_standings`:
points, goal difference, goals scored (each descending), head-to-head, and
team id ascending as the last resort. -/
def cmpStandings (mlist : List MatchResult) (a b : GroupStanding) : Ordering :=
  (cmp b.points a.points).then
    ((cmp b.goal_difference a.goal_difference).then
      ((cmp b.goals_for a.goals_for).then
        ((compare_head_to_head a b mlist).then
          (cmp a.team_id b.team_id))))

/-- `resolve_standings` from `tiebreaker.rs`: Rust's stable `sort_by`,
modelled as the stable `mergeSort` with `comparator ≠ Greater` as the `le`
test. -/
def resolve_standings (standings : List GroupStanding) (mlist : List MatchResult) :
    List GroupStanding :=
  standings.mergeSort (fun a b => decide (cmpStandings mlist a b ≠ .gt))

/-- Proof-only comparator: the three global keys followed by an arbitrary
virtual id, a total preorder for any `vid`. -/
def cmpKeyVid (vid : GroupStanding → Nat) (a b : GroupStanding) : Ordering :=
  (cmp b.points a.points).then
    ((cmp b.goal_difference a.goal_difference).then
      ((cmp b.goals_for a.goals_for).then (cmp (vid a) (vid b))))

/-- `u64` arithmetic modulus for seed handling. -/
def U64_MOD : Nat := 2 ^ 64

/-- `u64::wrapping_add` on seeds. -/
def wrappingAdd64 (a b : Nat) : Nat := (a + b) % U64_MOD

/-- `SimulationConfig` from `runner.rs`: `iterations : u32`, optional
`seed : u64`, optional thread count. -/
structure SimulationConfig where
  iterations : Nat
  seed : Option Nat
  parallelism : Option Nat

/-- `SimulationRunner::run` from `runner.rs`, abstracted over the per-seed
simulation (`SimulationEngine::simulate` with a `ChaCha8Rng` seeded at the
worker's seed — the claim holds for every tournament and strategy, so the
engine enters as an opaque function of the seed) and over the aggregation
fold (`AggregatedResults::from_results`).  `now` stands for the wall-clock
nanosecond seed taken when no user seed is supplied.  Worker `i` uses
`base_seed.wrapping_add(i)`; rayon's indexed `into_par_iter().map().collect()`
yields the results in index order, which the `List.range`-map models.  The
thread-pool configuration (`parallelism`) cannot influence the collected
values. -/
def SimulationRunner.run {R A : Type} (simulate : Nat → R) (aggregate : List R → A)
    (config : SimulationConfig) (now : Nat) : A :=
  let base_seed := config.seed.getD now
  aggregate ((List.range config.iterations).map
    (fun i => simulate (wrappingAdd64 base_seed i)))

/-- `SimulationRunner::run_with_progress` from `runner.rs`: the sequential
loop pushing one result per iteration, with default seed 42 when none is
supplied.  The progress callback returns unit and cannot influence the
results, so it is not a parameter of the model. -/
def SimulationRunner.run_with_progress {R A : Type} (simulate : Nat → R)
    (aggregate : List R → A) (config : SimulationConfig) : A :=
  let base_seed := config.seed.getD 42
  aggregate ((List.range config.iterations).foldl
    (fun results i => results ++ [simulate (wrappingAdd64 base_seed i)]) [])

/-- `Team` from `team.rs`; `f64` fields over `ℝ`.  `sofascore_form` is read
by the form strategy (its declaration is missing from this snapshot's
`team.rs`; the spec lists it as the optional recent-form score in `[0, 3]`). -/
structure Team where
  id : TeamId
  name : String
  code : String
  elo_rating : ℝ
  market_value_millions : ℝ
  fifa_ranking : Nat
  world_cup_wins : Nat
  sofascore_form : ℝ

/-- `MatchContext` from `traits.rs`. -/
structure MatchContext where
  home_team : Team
  away_team : Team
  is_knockout : Bool
  round_importance : ℝ
  neutral_venue : Bool

/-- `MatchProbabilities` from `traits.rs` over `ℝ`. -/
structure MatchProbabilities where
  home_win : ℝ
  draw : ℝ
  away_win : ℝ

/-- `MatchProbabilities::new`: normalise by the total. -/
noncomputable def MatchProbabilities.new (home_win draw away_win : ℝ) : MatchProbabilities :=
  let total := home_win + draw + away_win
  ⟨home_win / total, draw / total, away_win / total⟩

/-- `GoalExpectation` from `traits.rs`. -/
structure GoalExpectation where
  home_lambda : ℝ
  away_lambda : ℝ

/-- `GoalExpectation::new`: floor both lambdas at 0.1. -/
noncomputable def GoalExpectation.new (home_lambda away_lambda : ℝ) : GoalExpectation :=
  ⟨max home_lambda 0.1, max away_lambda 0.1⟩

/-- `EloStrategy` from `elo.rs`. -/
structure EloStrategy where
  home_advantage : ℝ
  base_goals : ℝ

/-- `EloStrategy::win_expectancy`. -/
noncomputable def EloStrategy.win_expectancy (_s : EloStrategy) (rating_diff : ℝ) : ℝ :=
  1 / (1 + (10 : ℝ) ^ (-rating_diff / 400))

/-- `EloStrategy::draw_probability`. -/
noncomputable def EloStrategy.draw_probability (_s : EloStrategy) (rating_diff : ℝ) : ℝ :=
  0.28 * (1 - min (|rating_diff| / 400) 1)

/-- `EloStrategy::predict_probabilities`. -/
noncomputable def EloStrategy.predict_probabilities (s : EloStrategy)
    (ctx : MatchContext) : MatchProbabilities :=
  let rating_diff := ctx.home_team.elo_rating - ctx.away_team.elo_rating +
    (if ctx.neutral_venue then 0 else s.home_advantage)
  let home_we := s.win_expectancy rating_diff
  let away_we := 1 - home_we
  let draw_prob := if ctx.is_knockout then 0 else s.draw_probability rating_diff
  let remaining := 1 - draw_prob
  MatchProbabilities.new (home_we * remaining) draw_prob (away_we * remaining)

/-- `EloStrategy::predict_goals`. -/
noncomputable def EloStrategy.predict_goals (s : EloStrategy)
    (ctx : MatchContext) : GoalExpectation :=
  let probs := s.predict_probabilities ctx
  let home_strength := 1 + min (max (probs.home_win - 0.33) (-0.3)) 0.5
  let away_strength := 1 + min (max (probs.away_win - 0.33) (-0.3)) 0.5
  GoalExpectation.new (s.base_goals * home_strength) (s.base_goals * away_strength)

/-- `FifaRankingStrategy` from `fifa_ranking.rs`. -/
structure FifaRankingStrategy where
  base_goals : ℝ
  max_ranking : Nat

/-- `FifaRankingStrategy::ranking_to_strength`. -/
noncomputable def FifaRankingStrategy.ranking_to_strength (s : FifaRankingStrategy)
    (ranking : Nat) : ℝ :=
  1 - Real.sqrt ((min ranking s.max_ranking : ℕ) / (s.max_ranking : ℝ))

/-- `FifaRankingStrategy::strength_ratio`. -/
noncomputable def FifaRankingStrategy.strength_ratio (s : FifaRankingStrategy)
    (home_ranking away_ranking : Nat) : ℝ :=
  let home_strength := s.ranking_to_strength home_ranking
  let away_strength := s.ranking_to_strength away_ranking
  let total := home_strength + away_strength
  if total = 0 then 0.5 else home_strength / total

/-- The shared shape of `draw_probability` in the fifa / market / form
strategies. -/
noncomputable def ratioDrawProbability (ratio : ℝ) : ℝ :=
  0.28 * max (1 - |ratio - 0.5| * 2) 0

/-- `FifaRankingStrategy::predict_probabilities`. -/
noncomputable def FifaRankingStrategy.predict_probabilities (s : FifaRankingStrategy)
    (ctx : MatchContext) : MatchProbabilities :=
  let ratio := s.strength_ratio ctx.home_team.fifa_ranking ctx.away_team.fifa_ranking
  let draw_prob := if ctx.is_knockout then 0 else ratioDrawProbability ratio
  let remaining := 1 - draw_prob
  MatchProbabilities.new (ratio * remaining) draw_prob ((1 - ratio) * remaining)

/-- `FifaRankingStrategy::predict_goals`. -/
noncomputable def FifaRankingStrategy.predict_goals (s : FifaRankingStrategy)
    (ctx : MatchContext) : GoalExpectation :=
  let ratio := s.strength_ratio ctx.home_team.fifa_ranking ctx.away_team.fifa_ranking
  GoalExpectation.new (s.base_goals * (0.5 + ratio)) (s.base_goals * (1.5 - ratio))

/-- `MarketValueStrategy` from `market_value.rs`. -/
structure MarketValueStrategy where
  base_goals : ℝ

/-- `MarketValueStrategy::value_ratio`. -/
noncomputable def MarketValueStrategy.value_ratio (_s : MarketValueStrategy)
    (home_value away_value : ℝ) : ℝ :=
  let home_log := Real.log (home_value + 1)
  let away_log := Real.log (away_value + 1)
  if home_log + away_log = 0 then 0.5 else home_log / (home_log + away_log)

/-- `MarketValueStrategy::predict_probabilities`. -/
noncomputable def MarketValueStrategy.predict_probabilities (s : MarketValueStrategy)
    (ctx : MatchContext) : MatchProbabilities :=
  let ratio := s.value_ratio ctx.home_team.market_value_millions
    ctx.away_team.market_value_millions
  let draw_prob := if ctx.is_knockout then 0 else ratioDrawProbability ratio
  let remaining := 1 - draw_prob
  MatchProbabilities.new (ratio * remaining) draw_prob ((1 - ratio) * remaining)

/-- `MarketValueStrategy::predict_goals`. -/
noncomputable def MarketValueStrategy.predict_goals (s : MarketValueStrategy)
    (ctx : MatchContext) : GoalExpectation :=
  let ratio := s.value_ratio ctx.home_team.market_value_millions
    ctx.away_team.market_value_millions
  GoalExpectation.new (s.base_goals * (0.5 + ratio)) (s.base_goals * (1.5 - ratio))

/-- `FormStrategy` from `form.rs`. -/
structure FormStrategy where
  base_goals : ℝ

/-- `FormStrategy::strength_ratio`: clamp both forms to `[0, 3]`, add the
0.5 base, and take the home share. -/
noncomputable def FormStrategy.strength_ratio (_s : FormStrategy)
    (home_form away_form : ℝ) : ℝ :=
  let home := min (max home_form 0) 3
  let away := min (max away_form 0) 3
  let home_strength := home + 0.5
  let away_strength := away + 0.5
  home_strength / (home_strength + away_strength)

/-- `FormStrategy::predict_probabilities`. -/
noncomputable def FormStrategy.predict_probabilities (s : FormStrategy)
    (ctx : MatchContext) : MatchProbabilities :=
  let ratio := s.strength_ratio ctx.home_team.sofascore_form ctx.away_team.sofascore_form
  let draw_prob := if ctx.is_knockout then 0 else ratioDrawProbability ratio
  let remaining := 1 - draw_prob
  MatchProbabilities.new (ratio * remaining) draw_prob ((1 - ratio) * remaining)

/-- `FormStrategy::predict_goals`. -/
noncomputable def FormStrategy.predict_goals (s : FormStrategy)
    (ctx : MatchContext) : GoalExpectation :=
  let ratio := s.strength_ratio ctx.home_team.sofascore_form ctx.away_team.sofascore_form
  GoalExpectation.new (s.base_goals * (0.5 + ratio)) (s.base_goals * (1.5 - ratio))

/-- One of the four concrete base strategies. -/
inductive BaseStrategy
  | elo (s : EloStrategy)
  | fifa (s : FifaRankingStrategy)
  | market (s : MarketValueStrategy)
  | form (s : FormStrategy)

/-- Dispatch of `predict_probabilities` over the base strategies. -/
noncomputable def BaseStrategy.predict_probabilities :
    BaseStrategy → MatchContext → MatchProbabilities
  | .elo s, ctx => s.predict_probabilities ctx
  | .fifa s, ctx => s.predict_probabilities ctx
  | .market s, ctx => s.predict_probabilities ctx
  | .form s, ctx => s.predict_probabilities ctx

/-- Dispatch of `predict_goals` over the base strategies. -/
noncomputable def BaseStrategy.predict_goals :
    BaseStrategy → MatchContext → GoalExpectation
  | .elo s, ctx => s.predict_goals ctx
  | .fifa s, ctx => s.predict_goals ctx
  | .market s, ctx => s.predict_goals ctx
  | .form s, ctx => s.predict_goals ctx

/-- `CompositeStrategy` from `composite.rs`: weighted base strategies.  (The
repository only ever builds composites of the four base strategies.) -/
structure CompositeStrategy where
  strategies : List (BaseStrategy × ℝ)

/-- `CompositeStrategy::normalized_weights`. -/
noncomputable def CompositeStrategy.normalized_weights (c : CompositeStrategy) : List ℝ :=
  let total := (c.strategies.map Prod.snd).sum
  if total = 0 then
    List.replicate c.strategies.length (1 / (c.strategies.length : ℝ))
  else c.strategies.map (fun p => p.2 / total)

/-- `CompositeStrategy::predict_probabilities`: the empty composite returns
the fixed neutral probabilities; otherwise the weighted sums of the
components' probabilities are renormalised. -/
noncomputable def CompositeStrategy.predict_probabilities (c : CompositeStrategy)
    (ctx : MatchContext) : MatchProbabilities :=
  if c.strategies.isEmpty then MatchProbabilities.new 0.33 0.34 0.33
  else
    let weights := c.normalized_weights
    let pairs := c.strategies.zip weights
    MatchProbabilities.new
      ((pairs.map (fun p => (p.1.1.predict_probabilities ctx).home_win * p.2)).sum)
      ((pairs.map (fun p => (p.1.1.predict_probabilities ctx).draw * p.2)).sum)
      ((pairs.map (fun p => (p.1.1.predict_probabilities ctx).away_win * p.2)).sum)

/-- `CompositeStrategy::predict_goals`. -/
noncomputable def CompositeStrategy.predict_goals (c : CompositeStrategy)
    (ctx : MatchContext) : GoalExpectation :=
  if c.strategies.isEmpty then GoalExpectation.new 1.3 1.3
  else
    let weights := c.normalized_weights
    let pairs := c.strategies.zip weights
    GoalExpectation.new
      ((pairs.map (fun p => (p.1.1.predict_goals ctx).home_lambda * p.2)).sum)
      ((pairs.map (fun p => (p.1.1.predict_goals ctx).away_lambda * p.2)).sum)

/-- The five strategy variants behind the `PredictionStrategy` trait. -/
inductive Strategy
  | base (s : BaseStrategy)
  | composite (c : CompositeStrategy)

/-- `predict_probabilities` over all variants. -/
noncomputable def Strategy.predict_probabilities :
    Strategy → MatchContext → MatchProbabilities
  | .base s, ctx => s.predict_probabilities ctx
  | .composite c, ctx => c.predict_probabilities ctx

/-- `predict_goals` over all variants. -/
noncomputable def Strategy.predict_goals : Strategy → MatchContext → GoalExpectation
  | .base s, ctx => s.predict_goals ctx
  | .composite c, ctx => c.predict_goals ctx

/-- Well-formedness of a strategy as the repository constructs them: every
fifa variant has a positive ranking cap and every composite weight is
non-negative (true of all defaults and of every composite the CLI, WASM, or
tests build). -/
def BaseStrategy.wf : BaseStrategy → Prop
  | .fifa s => 0 < s.max_ranking
  | _ => True

/-- Well-formedness over all variants. -/
def Strategy.wf : Strategy → Prop
  | .base s => s.wf
  | .composite c => ∀ p ∈ c.strategies, p.1.wf ∧ 0 ≤ p.2

/-- The RNG of the model: an arbitrary `u64` word stream plus a cursor.  The
claims quantify over every RNG stream, so `ChaCha8Rng` enters only through
its `next_u64` interface. -/
structure RngState where
  stream : Nat → Nat
  pos : Nat

/-- `RngCore::next_u64`: one word from the stream (reduced into `u64` range). -/
def next_u64 (r : RngState) : Nat × RngState :=
  ((r.stream r.pos) % U64_MOD, ⟨r.stream, r.pos + 1⟩)

/-- `gen_f64` from `traits.rs`: the top 53 bits of a word, scaled to `[0,1)`. -/
noncomputable def gen_f64 (r : RngState) : ℝ × RngState :=
  let n := next_u64 r
  (((n.1 >>> 11 : Nat) : ℝ) * (1 / 2 ^ 53), n.2)

/-- The loop of `sample_poisson` (Knuth), with the running count `k` and
product `p`; the count is capped at 15. -/
noncomputable def poissonLoop (l : ℝ) (k : Nat) (p : ℝ) (r : RngState) :
    Nat × RngState :=
  let g := gen_f64 r
  let p' := p * g.1
  if p' ≤ l then (k, g.2)
  else if k + 1 ≥ 15 then (k + 1, g.2)
  else poissonLoop l (k + 1) p' g.2
termination_by 15 - k

/-- `sample_poisson` from `traits.rs`. -/
noncomputable def sample_poisson (r : RngState) (lambda : ℝ) : Nat × RngState :=
  poissonLoop (Real.exp (-lambda)) 0 1 r

/-- The first five rounds of `simulate_penalties`, with the early
termination when one side cannot be caught. -/
noncomputable def penaltyFirstFive (rate : ℝ) (round home away : Nat) (r : RngState) :
    Nat × Nat × RngState :=
  if round ≥ 5 then (home, away, r)
  else
    let g1 := gen_f64 r
    let home' := if g1.1 < rate then home + 1 else home
    let g2 := gen_f64 g1.2
    let away' := if g2.1 < rate then away + 1 else away
    let remaining := 4 - round
    if home' > away' + remaining ∨ away' > home' + remaining then (home', away', g2.2)
    else penaltyFirstFive rate (round + 1) home' away' g2.2
termination_by 5 - round

/-- The sudden-death loop of `simulate_penalties`.  The Rust `while` loop has
no termination guarantee (a stream on which both sides always convert spins
forever), so the model carries fuel and returns `none` when the loop is still
running after `fuel` rounds. -/
noncomputable def suddenDeath (rate : ℝ) :
    Nat → Nat → Nat → RngState → Option (Nat × Nat × RngState)
  | fuel, home, away, r =>
    if home ≠ away then some (home, away, r)
    else
      match fuel with
      | 0 => none
      | fuel + 1 =>
        let g1 := gen_f64 r
        let g2 := gen_f64 g1.2
        let home' := if g1.1 < rate then home + 1 else home
        let away' := if g2.1 < rate then away + 1 else away
        suddenDeath rate fuel home' away' g2.2

/-- `simulate_penalties` from `traits.rs` (0.75 conversion rate). -/
noncomputable def simulate_penalties (fuel : Nat) (r : RngState) :
    Option (PenaltyResult × RngState) :=
  let t := penaltyFirstFive 0.75 0 0 0 r
  (suddenDeath 0.75 fuel t.1 t.2.1 t.2.2).map
    (fun u => (⟨u.1, u.2.1⟩, u.2.2))

/-- The default `PredictionStrategy::simulate_match` from `traits.rs`
(`CompositeStrategy` overrides it with a verbatim copy, so one function
models all variants): sample regulation goals, then extra time at 30% of the
lambdas for tied knockout games, then penalties if still level.  A `none`
result means the penalty shootout ran out of fuel — the only way the source
can fail to return. -/
noncomputable def simulate_match (s : Strategy) (ctx : MatchContext) (fuel : Nat)
    (r : RngState) : Option (MatchResult × RngState) :=
  let goals := s.predict_goals ctx
  let h := sample_poisson r goals.home_lambda
  let a := sample_poisson h.2 goals.away_lambda
  if ctx.is_knockout ∧ h.1 = a.1 then
    let eh := sample_poisson a.2 (goals.home_lambda * 0.3)
    let ea := sample_poisson eh.2 (goals.away_lambda * 0.3)
    if h.1 + eh.1 = a.1 + ea.1 then
      (simulate_penalties fuel ea.2).map
        (fun t => (⟨ctx.home_team.id, ctx.away_team.id, h.1 + eh.1, a.1 + ea.1,
          true, some t.1⟩, t.2))
    else some (⟨ctx.home_team.id, ctx.away_team.id, h.1 + eh.1, a.1 + ea.1,
      true, none⟩, ea.2)
  else some (⟨ctx.home_team.id, ctx.away_team.id, h.1, a.1, false, none⟩, a.2)

/-- `MatchProbabilities::is_valid`: the probabilities sum to 1 within the
1e-4 tolerance. -/
def MatchProbabilities.is_valid (p : MatchProbabilities) : Prop :=
  |p.home_win + p.draw + p.away_win - 1| < 0.0001

/-- The validity bundle the spec asserts for every strategy and context:
non-negative components summing to exactly 1. -/
def probsValid (p : MatchProbabilities) : Prop :=
  0 ≤ p.home_win ∧ 0 ≤ p.draw ∧ 0 ≤ p.away_win ∧
    p.home_win + p.draw + p.away_win = 1

/-- The value `gen_f64` produces from an all-ones `u64` word: the largest
output of the generator, `(2^53 - 1) / 2^53`. -/
noncomputable def UMAX_F : ℝ := ((2 ^ 53 - 1 : ℕ) : ℝ) * (1 / 2 ^ 53)

/-- A sample team used in concrete evaluations. -/
noncomputable def teamA : Team := ⟨0, "Alpha", "ALP", 1800, 500, 5, 2, 2.5⟩

/-- A second sample team. -/
noncomputable def teamB : Team := ⟨1, "Beta", "BET", 1700, 300, 10, 0, 1.5⟩

/-- A knockout context between the sample teams. -/
noncomputable def ctxKO : MatchContext := ⟨teamA, teamB, true, 1, true⟩

/-- A group-stage context between the sample teams. -/
noncomputable def ctxGS : MatchContext := ⟨teamA, teamB, false, 1, true⟩

/-- The composite the CLI builds: elo 0.4, fifa 0.3, market 0.3. -/
noncomputable def compCLI : CompositeStrategy :=
  ⟨[(.elo ⟨100, 1.3⟩, 0.4), (.fifa ⟨1.3, 100⟩, 0.3), (.market ⟨1.3⟩, 0.3)]⟩

/-- `BracketSlotStats` and `BracketSlotWinStats` from `path_tracker.rs`,
flattened: each per-round `HashMap<u8, u32>` is modelled as a total function
(an absent key reads as 0, matching every `unwrap_or(0)` in
`optimal_bracket.rs`).  `r32part` is the participation map of
`BracketSlotStats`; the rest are the win maps of `BracketSlotWinStats`. -/
structure SlotStats where
  r32part : TeamId → Nat → Nat
  r32win : TeamId → Nat → Nat
  r16win : TeamId → Nat → Nat
  qfwin : TeamId → Nat → Nat
  sfwin : TeamId → Nat → Nat
  finwin : TeamId → Nat

/-- The `THIRD_PLACE_POOLS` constant redeclared in `optimal_bracket.rs`. -/
def OB_THIRD_PLACE_POOLS : List (List Char) := [
  ['A', 'B', 'C', 'D', 'F'],
  ['C', 'D', 'F', 'G', 'H'],
  ['C', 'E', 'F', 'H', 'I'],
  ['E', 'H', 'I', 'J', 'K'],
  ['B', 'E', 'F', 'I', 'J'],
  ['A', 'E', 'H', 'I', 'J'],
  ['E', 'F', 'G', 'I', 'J'],
  ['D', 'E', 'I', 'J', 'L']]

/-- `team_can_be_at_source` from `optimal_bracket.rs`. -/
def team_can_be_at_source (team_group : Char) : SlotSource → Bool
  | .GroupTeam group _ => team_group == group
  | .ThirdPlacePool slot_index =>
    (OB_THIRD_PLACE_POOLS.getD slot_index []).contains team_group

/-- The valid R32 positions `build_eligibility_map` collects for a team of
the given group: for each template slot in order, side 0 then side 1. -/
def valid_positions (team_group : Char) : List (Nat × Nat) :=
  (List.range 16).flatMap (fun slot =>
    (if team_can_be_at_source team_group
        ((R32_BRACKET.getD slot ⟨0, .ThirdPlacePool 0, .ThirdPlacePool 0⟩).team_a)
      then [(slot, 0)] else []) ++
    (if team_can_be_at_source team_group
        ((R32_BRACKET.getD slot ⟨0, .ThirdPlacePool 0, .ThirdPlacePool 0⟩).team_b)
      then [(slot, 1)] else []))

/-- One entry of `build_eligibility_map`: teams without a group, or with no
valid position, are left out of the map (`none`).  The group map built by
`build_team_to_group_map` is modelled as the function `tg`. -/
def build_eligibility (tg : TeamId → Option Char) (t : TeamId) :
    Option (List (Nat × Nat)) :=
  match tg t with
  | none => none
  | some g => if (valid_positions g).isEmpty then none else some (valid_positions g)

/-- The `eligible_teams` filter of `compute_optimal_bracket`. -/
def eligible_teams (teams : List TeamId) (tg : TeamId → Option Char) :
    List TeamId :=
  teams.filter (fun t => (build_eligibility tg t).isSome)

/-- `get_participation_count` from `optimal_bracket.rs`: the win count when
positive, the participation count otherwise. -/
def get_participation_count (stats : SlotStats) (t : TeamId) (slot : Nat) : Nat :=
  if stats.r32win t slot > 0 then stats.r32win t slot else stats.r32part t slot

/-- `position_to_index` from `optimal_bracket.rs`. -/
def position_to_index (slot side : Nat) : Nat := slot * 2 + side

/-- `index_to_position` from `optimal_bracket.rs`. -/
def index_to_position (idx : Nat) : Nat × Nat := (idx / 2, idx % 2)

/-- One entry of the weight matrix `compute_optimal_bracket` hands to the
Hungarian algorithm: the team's participation count at each of its valid
positions, 0 everywhere else (including all padding rows and columns). -/
def obWeight (et : List TeamId) (tg : TeamId → Option Char) (stats : SlotStats)
    (ti pi : Nat) : Nat :=
  if ti < et.length then
    match build_eligibility tg (et.getD ti 0) with
    | some vp =>
      if vp.contains (index_to_position pi) then
        get_participation_count stats (et.getD ti 0) (pi / 2)
      else 0
    | none => 0
  else 0

/-- Modelled from the spec: the contract of the external
`pathfinding::kuhn_munkres` call — on a square weight matrix it returns a
row-to-column assignment that is a permutation (columns in range, pairwise
distinct) of maximal total weight.  The model passes the returned assignment
in as a parameter constrained by this predicate. -/
def KuhnMunkresResult (size : Nat) (w : Nat → Nat → Nat) (asg : Nat → Nat) :
    Prop :=
  (∀ i, i < size → asg i < size) ∧
  (∀ i j, i < size → j < size → i ≠ j → asg i ≠ asg j) ∧
  (∀ asg' : Nat → Nat, (∀ i, i < size → asg' i < size) →
    (∀ i j, i < size → j < size → i ≠ j → asg' i ≠ asg' j) →
    ((List.range size).map (fun i => w i (asg' i))).sum ≤
      ((List.range size).map (fun i => w i (asg i))).sum)

/-- The `position_assignments` extraction loop of `compute_optimal_bracket`:
position `pos` receives the eligible team whose row the assignment maps to
`pos`, re-validated against that team's eligibility; a position failing the
bounds or the re-validation stays empty.  (The assignment is injective, so
at most one row maps to `pos` and taking the first such row models the
`HashMap` insert.) -/
def position_assignments (et : List TeamId) (tg : TeamId → Option Char)
    (asg : Nat → Nat) (pos : Nat) : Option TeamId :=
  ((List.range et.length).find? (fun i => asg i == pos)).bind (fun i =>
    if pos < 32 then
      match build_eligibility tg (et.getD i 0) with
      | some vp =>
        if vp.contains (index_to_position pos) then some (et.getD i 0) else none
      | none => none
    else none)

/-- `OptimalR32Match` from `path_tracker.rs`, reduced to the team ids and
the predicted winner (counts and probabilities are display-only
decorations computed from the same stats). -/
structure OptimalR32Match where
  slot : Nat
  team_a : TeamId
  team_b : TeamId
  winner : TeamId
deriving DecidableEq

/-- The Round-of-32 list `compute_optimal_bracket` builds: slots whose two
positions both resolved, in slot order; a slot with a missing side is
skipped (`_ => {}` in the source).  The match winner is the side with the
larger win count at the slot, ties to `team_a`. -/
def build_r32_matches (et : List TeamId) (tg : TeamId → Option Char)
    (asg : Nat → Nat) (stats : SlotStats) : List OptimalR32Match :=
  (List.range 16).flatMap (fun slot =>
    match position_assignments et tg asg (position_to_index slot 0),
        position_assignments et tg asg (position_to_index slot 1) with
    | some a, some b =>
      [⟨slot, a, b, if stats.r32win a slot ≥ stats.r32win b slot then a else b⟩]
    | _, _ => [])

/-- `pick_winner_for_slot` from `optimal_bracket.rs`: the candidate with the
largest win count; `max_by_key` keeps the last of equally-counted
candidates, and an empty candidate list gives `none`. -/
def pick_winner_for_slot (candidates : List TeamId) (wins : TeamId → Nat) :
    Option TeamId :=
  candidates.foldl
    (fun acc t =>
      match acc with
      | none => some t
      | some best => if wins t ≥ wins best then some t else some best)
    none

/-- The R16 stage of `propagate_winners`: slot `k < 8` picks among the
winners of the Round-of-32 list entries at vector indices `2k` and `2k+1`
(when present). -/
def r16_of (r32 : List OptimalR32Match) (stats : SlotStats) (slot : Nat) :
    Option TeamId :=
  if slot < 8 then
    pick_winner_for_slot
      ((if slot * 2 < r32.length then
          [(r32.getD (slot * 2) ⟨0, 0, 0, 0⟩).winner] else []) ++
        (if slot * 2 + 1 < r32.length then
          [(r32.getD (slot * 2 + 1) ⟨0, 0, 0, 0⟩).winner] else []))
      (fun t => stats.r16win t slot)
  else none

/-- The QF stage of `propagate_winners`: slot `k < 4` picks among the R16
winners of slots `2k` and `2k+1` (when present). -/
def qf_of (r16 : Nat → Option TeamId) (stats : SlotStats) (slot : Nat) :
    Option TeamId :=
  if slot < 4 then
    pick_winner_for_slot
      ((match r16 (slot * 2) with | some t => [t] | none => []) ++
        (match r16 (slot * 2 + 1) with | some t => [t] | none => []))
      (fun t => stats.qfwin t slot)
  else none

/-- The SF stage of `propagate_winners`. -/
def sf_of (qf : Nat → Option TeamId) (stats : SlotStats) (slot : Nat) :
    Option TeamId :=
  if slot < 2 then
    pick_winner_for_slot
      ((match qf (slot * 2) with | some t => [t] | none => []) ++
        (match qf (slot * 2 + 1) with | some t => [t] | none => []))
      (fun t => stats.sfwin t slot)
  else none

/-- The final of `propagate_winners`: the champion picked among the two SF
winners by final-match win count. -/
def champion_of (sf : Nat → Option TeamId) (stats : SlotStats) : Option TeamId :=
  pick_winner_for_slot
    ((match sf 0 with | some t => [t] | none => []) ++
      (match sf 1 with | some t => [t] | none => []))
    (fun t => stats.finwin t)

/-- `OptimalBracket` from `path_tracker.rs`, reduced to the fields the
bracket-shape properties speak about (joint and log probabilities are `f64`
decorations of the same data). -/
structure OptimalBracket where
  round_of_32 : List OptimalR32Match
  round_of_16 : Nat → Option TeamId
  quarter_finals : Nat → Option TeamId
  semi_finals : Nat → Option TeamId
  champion : Option TeamId

/-- `compute_optimal_bracket` from `optimal_bracket.rs`, parametrised by the
group map `tg` (for `build_team_to_group_map`) and by the assignment the
external `kuhn_munkres` call returned (see `KuhnMunkresResult`). -/
def compute_optimal_bracket (teams : List TeamId) (tg : TeamId → Option Char)
    (asg : Nat → Nat) (stats : SlotStats) : OptimalBracket :=
  let et := eligible_teams teams tg
  let r32 := build_r32_matches et tg asg stats
  let r16 := r16_of r32 stats
  let qf := qf_of r16 stats
  let sf := sf_of qf stats
  ⟨r32, r16, qf, sf, champion_of sf stats⟩

/-- The 48 team ids of a full tournament, for concrete runs. -/
def teams48 : List TeamId := List.range 48

/-- The canonical group map: teams `4g .. 4g+3` belong to group letter `g`
(A through L). -/
def tg48 : TeamId → Option Char :=
  fun t => if t < 48 then some (Char.ofNat (65 + t / 4)) else none

/-- All-zero slot statistics. -/
def zeroStats : SlotStats :=
  ⟨fun _ _ => 0, fun _ _ => 0, fun _ _ => 0, fun _ _ => 0, fun _ _ => 0,
    fun _ => 0⟩

-- ### Theorems about the third-place assignment search

theorem availOf_subset : ∀ (q : List Char) (u : List Bool), availOf q u ⊆ q
  | [], _ => by simp [availOf]
  | _ :: _, [] => by simp [availOf]
  | c :: q, b :: u => by
    cases b with
    | true =>
      simp only [availOf, if_pos rfl]
      exact fun x hx => List.mem_cons_of_mem _ (availOf_subset q u hx)
    | false =>
      simp only [availOf, if_neg Bool.false_ne_true]
      intro x hx
      rcases List.mem_cons.mp hx with h | h
      · exact h ▸ List.mem_cons_self _ _
      · exact List.mem_cons_of_mem _ (availOf_subset q u h)

theorem availOf_replicate_false :
    ∀ (q : List Char), availOf q (List.replicate q.length false) = q
  | [] => rfl
  | c :: q => by
    simp only [List.length_cons, List.replicate_succ, availOf,
      if_neg Bool.false_ne_true, availOf_replicate_false q]

theorem position_eq_none (g : Char) : ∀ q : List Char, position g q = none ↔ g ∉ q
  | [] => by simp [position]
  | c :: q => by
    by_cases h : c = g
    · subst h
      simp [position]
    · have hb : (c == g) = false := beq_eq_false_iff_ne.mpr h
      simp [position, hb, position_eq_none g q, Ne.symm h]

theorem position_cons_self {c : Char} (q : List Char) (h : (c == g) = true) :
    position g (c :: q) = some 0 := by
  simp [position, h]

theorem position_cons_ne {c : Char} (q : List Char) (h : (c == g) = false) :
    position g (c :: q) = (position g q).map (· + 1) := by
  simp [position, h]

theorem position_lt (g : Char) :
    ∀ (q : List Char) (i : Nat), position g q = some i → i < q.length
  | [], i => by simp [position]
  | c :: q, i => by
    by_cases h : c = g
    · rw [position_cons_self q (beq_iff_eq.mpr h)]
      intro hi
      cases hi
      simp
    · rw [position_cons_ne q (beq_eq_false_iff_ne.mpr h)]
      intro hi
      rcases Option.map_eq_some'.mp hi with ⟨j, hj, hji⟩
      subst hji
      have := position_lt g q j hj
      simpa using Nat.succ_lt_succ this

theorem mem_availOf_iff :
    ∀ (q : List Char) (u : List Bool) (g : Char) (qi : Nat),
      q.Nodup → u.length = q.length → position g q = some qi →
      (g ∈ availOf q u ↔ u.getD qi true = false)
  | [], _, g, qi => by simp [position]
  | c :: q, u, g, qi => by
    intro hnd hlen hpos
    match u with
    | [] => simp at hlen
    | b :: u =>
      simp only [List.length_cons, Nat.succ.injEq] at hlen
      by_cases h : c = g
      · subst h
        rw [position_cons_self q (beq_self_eq_true c)] at hpos
        cases hpos
        have hcq : c ∉ q := (List.nodup_cons.mp hnd).1
        cases b with
        | true =>
          simp only [availOf, if_pos rfl, List.getD_cons_zero]
          constructor
          · intro hmem
            exact absurd (availOf_subset q u hmem) hcq
          · intro hfalse
            cases hfalse
        | false =>
          simp [availOf]
      · have hb : (c == g) = false := beq_eq_false_iff_ne.mpr h
        rw [position_cons_ne q hb] at hpos
        rcases Option.map_eq_some'.mp hpos with ⟨j, hj, hji⟩
        subst hji
        have ih := mem_availOf_iff q u g j (List.nodup_cons.mp hnd).2 hlen hj
        cases b with
        | true =>
          simpa [availOf] using ih
        | false =>
          simp only [availOf, if_neg Bool.false_ne_true, List.mem_cons,
            List.getD_cons_succ]
          constructor
          · rintro (rfl | hmem)
            · exact absurd rfl h
            · exact ih.mp hmem
          · intro hfalse
            exact Or.inr (ih.mpr hfalse)

theorem availOf_set :
    ∀ (q : List Char) (u : List Bool) (g : Char) (qi : Nat),
      q.Nodup → u.length = q.length → position g q = some qi →
      u.getD qi true = false →
      availOf q (u.set qi true) = (availOf q u).erase g
  | [], _, g, qi => by simp [position]
  | c :: q, u, g, qi => by
    intro hnd hlen hpos hfree
    match u with
    | [] => simp at hlen
    | b :: u =>
      simp only [List.length_cons, Nat.succ.injEq] at hlen
      by_cases h : c = g
      · subst h
        rw [position_cons_self q (beq_self_eq_true c)] at hpos
        cases hpos
        simp only [List.getD_cons_zero] at hfree
        subst hfree
        simp [availOf, List.erase_cons_head]
      · have hb : (c == g) = false := beq_eq_false_iff_ne.mpr h
        rw [position_cons_ne q hb] at hpos
        rcases Option.map_eq_some'.mp hpos with ⟨j, hj, hji⟩
        subst hji
        simp only [List.getD_cons_succ] at hfree
        have ih := availOf_set q u g j (List.nodup_cons.mp hnd).2 hlen hj hfree
        cases b with
        | true =>
          simpa [availOf, List.set] using ih
        | false =>
          simp only [availOf, List.set, if_neg Bool.false_ne_true, ih,
            List.erase_cons, hb]

theorem backtrack_eq_btSet :
    ∀ (pools : List (List Char)) (q : List Char) (u : List Bool),
      q.Nodup → u.length = q.length →
      backtrack_assign q pools u = btSet pools (availOf q u)
  | [], q, u, _, _ => rfl
  | pool :: pools, q, u, hnd, hlen => by
    show List.foldr _ none pool = List.foldr _ none pool
    induction pool with
    | nil => rfl
    | cons g rest ih =>
      simp only [List.foldr_cons, ih]
      cases hpos : position g q with
      | none =>
        have hg : g ∉ q := (position_eq_none g q).mp hpos
        have hga : g ∉ availOf q u := fun hmem => hg (availOf_subset q u hmem)
        simp [hga]
      | some qi =>
        cases hfree : u.getD qi true with
        | true =>
          have hga : g ∉ availOf q u := fun hmem => by
            have := (mem_availOf_iff q u g qi hnd hlen hpos).mp hmem
            rw [this] at hfree
            cases hfree
          have hcon : ¬((availOf q u).contains g = true) := by simp [hga]
          simp only [hpos]
          rw [if_pos hfree, if_neg hcon]
        | false =>
          have hga : g ∈ availOf q u :=
            (mem_availOf_iff q u g qi hnd hlen hpos).mpr hfree
          have hcon : (availOf q u).contains g = true := by simp [hga]
          have hneg : ¬(u.getD qi true = true) := by
            intro hco
            rw [hco] at hfree
            cases hfree
          have hrec := backtrack_eq_btSet pools q (u.set qi true) hnd
            (by simpa using hlen)
          rw [availOf_set q u g qi hnd hlen hpos hfree] at hrec
          simp only [hpos]
          rw [if_neg hneg, hrec, if_pos hcon]

theorem btSet_perm :
    ∀ (pools : List (List Char)) {a b : List Char},
      a.Nodup → a.Perm b → btSet pools a = btSet pools b
  | [], _, _, _, _ => rfl
  | pool :: pools, a, b, hnd, hperm => by
    show List.foldr _ none pool = List.foldr _ none pool
    induction pool with
    | nil => rfl
    | cons g rest ih =>
      simp only [List.foldr_cons, ih]
      by_cases hg : g ∈ a
      · have hgb : g ∈ b := hperm.mem_iff.mp hg
        have hca : a.contains g = true := by simpa using hg
        have hcb : b.contains g = true := by simpa using hgb
        have hrec := @btSet_perm pools (a.erase g) (b.erase g)
          (hnd.erase g) (hperm.erase g)
        rw [if_pos hca, if_pos hcb, hrec]
      · have hgb : g ∉ b := fun hmem => hg (hperm.mem_iff.mpr hmem)
        have hca : ¬(a.contains g = true) := by simpa using hg
        have hcb : ¬(b.contains g = true) := by simpa using hgb
        rw [if_neg hca, if_neg hcb]

theorem btSet_cons_inv (pools : List (List Char)) (avail : List Char) :
    ∀ (pool : List Char) (a : List Char),
      List.foldr (fun g acc =>
        if avail.contains g then
          match btSet pools (avail.erase g) with
          | some tail => some (g :: tail)
          | none => acc
        else acc) none pool = some a →
      ∃ g tail, g ∈ pool ∧ g ∈ avail ∧
        btSet pools (avail.erase g) = some tail ∧ a = g :: tail
  | [], a => by simp
  | g :: rest, a => by
    simp only [List.foldr_cons]
    by_cases hg : avail.contains g = true
    · rw [if_pos hg]
      cases hbt : btSet pools (avail.erase g) with
      | some tail =>
        intro hsome
        cases hsome
        exact ⟨g, tail, List.mem_cons_self g rest, by simpa using hg, hbt, rfl⟩
      | none =>
        intro hsome
        obtain ⟨g', tail, hmem, hav, hbt', ha⟩ := btSet_cons_inv pools avail rest a hsome
        exact ⟨g', tail, List.mem_cons_of_mem g hmem, hav, hbt', ha⟩
    · rw [if_neg hg]
      intro hsome
      obtain ⟨g', tail, hmem, hav, hbt', ha⟩ := btSet_cons_inv pools avail rest a hsome
      exact ⟨g', tail, List.mem_cons_of_mem g hmem, hav, hbt', ha⟩

theorem btSet_sound :
    ∀ (pools : List (List Char)) (avail a : List Char),
      avail.Nodup → btSet pools avail = some a →
      List.Forall₂ (fun g pool => g ∈ pool) a pools ∧ a.Nodup ∧ ∀ c ∈ a, c ∈ avail
  | [], avail, a, _, hsome => by
    cases hsome
    exact ⟨List.Forall₂.nil, List.nodup_nil, by simp⟩
  | pool :: pools, avail, a, hnd, hsome => by
    obtain ⟨g, tail, hmem, hav, hbt, ha⟩ := btSet_cons_inv pools avail pool a hsome
    subst ha
    obtain ⟨hf2, htnd, htsub⟩ := btSet_sound pools (avail.erase g) tail (hnd.erase g) hbt
    refine ⟨List.Forall₂.cons hmem hf2, ?_, ?_⟩
    · refine List.nodup_cons.mpr ⟨fun hgt => ?_, htnd⟩
      exact hnd.not_mem_erase (htsub g hgt)
    · intro c hc
      rcases List.mem_cons.mp hc with rfl | hc
      · exact hav
      · exact (avail.erase_subset g) (htsub c hc)

set_option maxRecDepth 10000 in
theorem btSet_total_on_keys :
    ∀ s ∈ List.sublistsLen 8 GROUP_LETTERS, (btSet THIRD_PLACE_POOLS s).isSome := by
  decide

theorem exists_perm_sublistLen (q : List Char) (hnd : q.Nodup)
    (hsub : ∀ c ∈ q, c ∈ GROUP_LETTERS) :
    ∃ s ∈ List.sublistsLen q.length GROUP_LETTERS, q.Perm s := by
  have hLnd : GROUP_LETTERS.Nodup := by decide
  set s := GROUP_LETTERS.filter (fun c => q.contains c) with hs
  have hsl : s.Sublist GROUP_LETTERS := List.filter_sublist GROUP_LETTERS
  have hsnd : s.Nodup := hsl.nodup hLnd
  have hmem : ∀ c, c ∈ s ↔ c ∈ q := by
    intro c
    rw [hs, List.mem_filter]
    constructor
    · intro hc
      simpa using hc.2
    · intro hc
      exact ⟨hsub c hc, by simpa using hc⟩
  have hperm : q.Perm s := by
    refine List.Subperm.antisymm ?_ ?_
    · exact hnd.subperm (fun c hc => (hmem c).mpr hc)
    · exact hsnd.subperm (fun c hc => (hmem c).mp hc)
  refine ⟨s, ?_, hperm⟩
  rw [List.mem_sublistsLen]
  exact ⟨hsl, (hperm.length_eq).symm⟩

theorem forall2_getD {R : Char → List Char → Prop} :
    ∀ {a : List Char} {ps : List (List Char)}, List.Forall₂ R a ps →
      ∀ i, i < a.length → R (a.getD i ' ') (ps.getD i [])
  | _, _, List.Forall₂.nil => by simp
  | _, _, List.Forall₂.cons hR hf2 => by
    intro i hi
    cases i with
    | zero => simpa using hR
    | succ j =>
      simp only [List.getD_cons_succ]
      exact forall2_getD hf2 j (by simpa using hi)

/-- The backtracking fallback succeeds on every list of 8 distinct group
letters, and its result is a valid assignment: 8 distinct letters taken from
the input, each lying in its slot's pool. -/
theorem compute_assignments_spec (q : List Char) (hlen : q.length = 8)
    (hnd : q.Nodup) (hsub : ∀ c ∈ q, c ∈ GROUP_LETTERS) :
    ∃ a, compute_third_place_assignments (String.mk q) = some a ∧
      a.length = 8 ∧ a.Nodup ∧ (∀ c ∈ a, c ∈ q) ∧
      ∀ i, i < 8 → a.getD i ' ' ∈ THIRD_PLACE_POOLS.getD i [] := by
  obtain ⟨s, hsmem, hperm⟩ := exists_perm_sublistLen q hnd hsub
  rw [hlen] at hsmem
  have htot := btSet_total_on_keys s hsmem
  obtain ⟨a, hsome⟩ := Option.isSome_iff_exists.mp htot
  have hq : btSet THIRD_PLACE_POOLS q = some a := by
    rw [btSet_perm THIRD_PLACE_POOLS hnd hperm, hsome]
  have hbridge : backtrack_assign q THIRD_PLACE_POOLS (List.replicate 8 false) =
      btSet THIRD_PLACE_POOLS q := by
    have := backtrack_eq_btSet THIRD_PLACE_POOLS q (List.replicate 8 false) hnd
      (by simp [hlen])
    rw [this]
    congr 1
    rw [← hlen]
    exact availOf_replicate_false q
  have hcompute : compute_third_place_assignments (String.mk q) = some a := by
    unfold compute_third_place_assignments
    have hq8 : (String.mk q).toList = q := rfl
    rw [hq8]
    simp only [hlen, if_neg (by omega : ¬(8 ≠ 8))]
    rw [hbridge, hq]
  obtain ⟨hf2, hand, hasub⟩ := btSet_sound THIRD_PLACE_POOLS q a hnd hq
  have halen : a.length = 8 := by
    have := List.Forall₂.length_eq hf2
    simpa using this
  refine ⟨a, hcompute, halen, hand, hasub, ?_⟩
  intro i hi
  exact forall2_getD hf2 i (by omega)

/-- Claim C1: for every sorted 8-letter key of qualifying third-place groups,
the assignment returned by `get_third_place_assignments` satisfies the pool
constraint at every one of the 8 pool indices.  This is FALSE on the code: at
the key "DEFGIJKL" the lookup table supplies the assignment
`[D, F, E, K, I, G, J, L]`, whose letter at pool index 5 is `G`, while pool 5
is `{A, E, H, I, J}` — the table entry is returned unchecked and violates the
pool constraint the surrounding code documents. -/
theorem C1_table_entry_violates_pool :
    get_third_place_assignments (String.mk ['D', 'E', 'F', 'G', 'I', 'J', 'K', 'L']) =
      some ['D', 'F', 'E', 'K', 'I', 'G', 'J', 'L'] ∧
    ['D', 'F', 'E', 'K', 'I', 'G', 'J', 'L'].getD 5 ' ' = 'G' ∧
    'G' ∉ THIRD_PLACE_POOLS.getD 5 [] := by
  refine ⟨?_, rfl, by decide⟩
  rfl

/-- Claim C2: for every legal input to the backtracking fallback — a string of
exactly 8 distinct group letters drawn from A..L — the fallback
`compute_third_place_assignments` returns some assignment of 8 distinct
letters taken from that input, each letter lying in the pool of its index; it
never returns `none`. -/
theorem C2_backtracking_total (q : List Char) (hlen : q.length = 8)
    (hnd : q.Nodup) (hsub : ∀ c ∈ q, c ∈ GROUP_LETTERS) :
    ∃ a, compute_third_place_assignments (String.mk q) = some a ∧
      a.length = 8 ∧ a.Nodup ∧ (∀ c ∈ a, c ∈ q) ∧
      ∀ i, i < 8 → a.getD i ' ' ∈ THIRD_PLACE_POOLS.getD i [] :=
  compute_assignments_spec q hlen hnd hsub

/-- Witness for C2 at the concrete legal input "ABCGHIJK". -/
theorem C2_backtracking_total_witness :
    ∃ a, compute_third_place_assignments
        (String.mk ['A', 'B', 'C', 'G', 'H', 'I', 'J', 'K']) = some a ∧
      a.length = 8 ∧ a.Nodup ∧
      (∀ c ∈ a, c ∈ ['A', 'B', 'C', 'G', 'H', 'I', 'J', 'K']) ∧
      ∀ i, i < 8 → a.getD i ' ' ∈ THIRD_PLACE_POOLS.getD i [] :=
  C2_backtracking_total ['A', 'B', 'C', 'G', 'H', 'I', 'J', 'K']
    (by decide) (by decide) (by decide)

-- ### Match result theorems

/-- Claim C10: for every `MatchResult` whose goals are level and whose penalty
result has `home_penalties = away_penalties`, `winner()` returns the away
team: `PenaltyResult::winner` awards ties to the away side. -/
theorem C10_tied_shootout_goes_to_away (m : MatchResult) (p : PenaltyResult)
    (hgoals : m.home_goals = m.away_goals) (hp : m.penalties = some p)
    (heq : p.home_penalties = p.away_penalties) :
    m.winner = some m.away_team := by
  have hout : m.outcome = .Draw := by
    unfold MatchResult.outcome
    rw [if_neg (by omega), if_neg (by omega)]
  simp only [MatchResult.winner, hout, hp, Option.map_some', PenaltyResult.winner]
  rw [if_neg (by omega)]

/-- Witness for C10 at a concrete drawn match with a 3–3 shootout. -/
theorem C10_tied_shootout_goes_to_away_witness :
    (⟨0, 1, 2, 2, true, some ⟨3, 3⟩⟩ : MatchResult).winner = some 1 :=
  C10_tied_shootout_goes_to_away ⟨0, 1, 2, 2, true, some ⟨3, 3⟩⟩ ⟨3, 3⟩ rfl rfl rfl

-- ### R32 pairing theorems

theorem lookupMemOfEq {α β : Type} [BEq α] [LawfulBEq α] :
    ∀ (l : List (α × β)) (k : α) (v : β),
      List.lookup k l = some v → (k, v) ∈ l
  | [], k, v => by simp [List.lookup]
  | (a, b) :: rest, k, v => by
    by_cases h : k = a
    · subst h
      simp only [List.lookup, beq_self_eq_true, List.mem_cons]
      intro hv
      injection hv with hv
      exact Or.inl (by rw [hv])
    · have hb : (k == a) = false := beq_eq_false_iff_ne.mpr h
      simp only [List.lookup, hb]
      intro hv
      exact List.mem_cons_of_mem _ (lookupMemOfEq rest k v hv)

theorem lookupIsSomeOfMemKeys {α β : Type} [BEq α] [LawfulBEq α] :
    ∀ (l : List (α × β)) (k : α),
      k ∈ l.map Prod.fst → (List.lookup k l).isSome
  | [], k => by simp
  | (a, b) :: rest, k => by
    by_cases h : k = a
    · subst h
      simp [List.lookup]
    · have hb : (k == a) = false := beq_eq_false_iff_ne.mpr h
      simp only [List.map_cons, List.mem_cons, List.lookup, hb]
      intro hmem
      rcases hmem with hka | hmem
      · exact absurd hka h
      · exact lookupIsSomeOfMemKeys rest k hmem

set_option maxRecDepth 10000 in
theorem table_rows_perm_key : ∀ p ∈ THIRD_PLACE_TABLE, p.2.Perm p.1.toList := by
  decide

theorem get_assignments_isSome (key : String)
    (hnd : key.toList.Nodup) (hlen : key.toList.length = 8)
    (hsub : ∀ c ∈ key.toList, c ∈ GROUP_LETTERS) :
    (get_third_place_assignments key).isSome := by
  unfold get_third_place_assignments
  cases htab : List.lookup key THIRD_PLACE_TABLE with
  | some row => simp
  | none =>
    obtain ⟨a, hsome, _⟩ := compute_assignments_spec key.toList hlen hnd hsub
    rw [show String.mk key.toList = key from rfl] at hsome
    simp [hsome]

theorem get_assignments_perm (key : String) (a : List Char)
    (hnd : key.toList.Nodup) (hlen : key.toList.length = 8)
    (hsub : ∀ c ∈ key.toList, c ∈ GROUP_LETTERS)
    (h : get_third_place_assignments key = some a) :
    a.Perm key.toList := by
  unfold get_third_place_assignments at h
  cases htab : List.lookup key THIRD_PLACE_TABLE with
  | some row =>
    rw [htab] at h
    injection h with h'
    rw [← h']
    exact table_rows_perm_key (key, row) (lookupMemOfEq _ _ _ htab)
  | none =>
    rw [htab] at h
    obtain ⟨a', hsome, hlen', hnd', hsub', _⟩ :=
      compute_assignments_spec key.toList hlen hnd hsub
    rw [show String.mk key.toList = key from rfl] at hsome
    rw [hsome] at h
    injection h with h'
    rw [← h']
    have hsubperm : List.Subperm a' key.toList :=
      hnd'.subperm (fun c hc => hsub' c hc)
    exact hsubperm.perm_of_length_le (by omega)

theorem resolvePairs_eq_map (g : SlotSource → Option TeamId) :
    ∀ l : List R32Match,
      (∀ m ∈ l, (g m.team_a).isSome ∧ (g m.team_b).isSome) →
      resolvePairs g l =
        some (l.map (fun m => ((g m.team_a).getD 0, (g m.team_b).getD 0)))
  | [], _ => rfl
  | m :: rest, hsome => by
    obtain ⟨ha, hb⟩ := hsome m (List.mem_cons_self m rest)
    obtain ⟨a, ha'⟩ := Option.isSome_iff_exists.mp ha
    obtain ⟨b, hb'⟩ := Option.isSome_iff_exists.mp hb
    have hrest := resolvePairs_eq_map g rest
      (fun m' hm' => hsome m' (List.mem_cons_of_mem m hm'))
    unfold resolvePairs
    rw [ha', hb', hrest]
    simp [ha', hb']

theorem flatMapPairsEqMap (F : SlotSource → TeamId) :
    ∀ l : List R32Match,
      ((l.map (fun m => (F m.team_a, F m.team_b))).flatMap (fun p => [p.1, p.2])) =
        (l.flatMap (fun m => [m.team_a, m.team_b])).map F
  | [] => rfl
  | m :: rest => by
    simp only [List.map_cons, List.flatMap_cons, flatMapPairsEqMap F rest]
    rfl

theorem srcList_ok : ∀ s ∈ srcList, srcOKb s = true := by decide

theorem srcList_shape :
    ∀ s ∈ srcList,
      (∃ g, (s = .GroupTeam g .Winner ∨ s = .GroupTeam g .RunnerUp) ∧
        g ∈ GROUP_LETTERS) ∨
      (∃ i, s = .ThirdPlacePool i ∧ i < 8) := by
  intro s hs
  have h := srcList_ok s hs
  cases s with
  | GroupTeam g p =>
    cases p with
    | Winner => exact Or.inl ⟨g, Or.inl rfl, by simpa [srcOKb] using h⟩
    | RunnerUp => exact Or.inl ⟨g, Or.inr rfl, by simpa [srcOKb] using h⟩
    | Third => simp [srcOKb] at h
  | ThirdPlacePool i =>
    exact Or.inr ⟨i, rfl, by simpa [srcOKb] using h⟩

theorem srcList_nodup : srcList.Nodup := by decide

theorem getD_mem_of_lt {l : List Char} {i : Nat} (h : i < l.length) (d : Char) :
    l.getD i d ∈ l := by
  rw [List.getD_eq_getElem l d h]
  exact List.getElem_mem h

theorem getD_inj_of_nodup {l : List Char} (hnd : l.Nodup) {i j : Nat}
    (hi : i < l.length) (hj : j < l.length) (d : Char)
    (h : l.getD i d = l.getD j d) : i = j := by
  rw [List.getD_eq_getElem l d hi, List.getD_eq_getElem l d hj] at h
  exact List.Nodup.getElem_inj_iff hnd |>.mp h

/-- Distinctness of all 32 resolved slot occupants, given globally distinct
winner / runner-up / third ids and an 8-letter duplicate-free assignment whose
letters are keys of the qualifying list. -/
theorem resolvedNodup (winners runners_up : Char → TeamId)
    (thirds : List (Char × TeamId)) (asg : List Char)
    (hids : (GROUP_LETTERS.map winners ++ (GROUP_LETTERS.map runners_up ++
      thirds.map Prod.snd)).Nodup)
    (hasg_len : asg.length = 8) (hasg_nd : asg.Nodup)
    (hkeys : ∀ i, i < 8 → asg.getD i ' ' ∈ thirds.map Prod.fst) :
    (srcList.map
      (fun s => (resolve_slot s winners runners_up asg thirds).getD 0)).Nodup := by
  rw [List.nodup_append] at hids
  obtain ⟨hWnd, hRT, hdisjW⟩ := hids
  rw [List.nodup_append] at hRT
  obtain ⟨hRnd, hTnd, hdisjRT⟩ := hRT
  have hvalue : ∀ i, i < 8 → ∃ v, List.lookup (asg.getD i ' ') thirds = some v := by
    intro i hi
    exact Option.isSome_iff_exists.mp (lookupIsSomeOfMemKeys thirds _ (hkeys i hi))
  apply List.Nodup.map_on ?_ srcList_nodup
  intro s1 hs1 s2 hs2 heq
  rcases srcList_shape s1 hs1 with ⟨g1, hgt1, hgl1⟩ | ⟨i1, hp1, hi1⟩ <;>
    rcases srcList_shape s2 hs2 with ⟨g2, hgt2, hgl2⟩ | ⟨i2, hp2, hi2⟩
  · -- both group-team sources
    rcases hgt1 with rfl | rfl <;> rcases hgt2 with rfl | rfl
    · simp only [resolve_slot, Option.getD_some] at heq
      rw [List.inj_on_of_nodup_map hWnd hgl1 hgl2 heq]
    · simp only [resolve_slot, Option.getD_some] at heq
      refine ((hdisjW (List.mem_map_of_mem winners hgl1) ?_)).elim
      refine List.mem_append_left _ ?_
      rw [heq]
      exact List.mem_map_of_mem runners_up hgl2
    · simp only [resolve_slot, Option.getD_some] at heq
      refine ((hdisjW (List.mem_map_of_mem winners hgl2) ?_)).elim
      refine List.mem_append_left _ ?_
      rw [← heq]
      exact List.mem_map_of_mem runners_up hgl1
    · simp only [resolve_slot, Option.getD_some] at heq
      rw [List.inj_on_of_nodup_map hRnd hgl1 hgl2 heq]
  · -- group team vs pool slot
    subst hp2
    obtain ⟨v2, hv2⟩ := hvalue i2 hi2
    have hv2T : v2 ∈ thirds.map Prod.snd :=
      List.mem_map.mpr ⟨_, lookupMemOfEq _ _ _ hv2, rfl⟩
    rcases hgt1 with rfl | rfl
    · simp only [resolve_slot, Option.getD_some, hv2] at heq
      refine ((hdisjW (List.mem_map_of_mem winners hgl1) ?_)).elim
      refine List.mem_append_right _ ?_
      rw [heq]
      exact hv2T
    · simp only [resolve_slot, Option.getD_some, hv2] at heq
      refine ((hdisjRT (List.mem_map_of_mem runners_up hgl1) ?_)).elim
      rw [heq]
      exact hv2T
  · -- pool slot vs group team
    subst hp1
    obtain ⟨v1, hv1⟩ := hvalue i1 hi1
    have hv1T : v1 ∈ thirds.map Prod.snd :=
      List.mem_map.mpr ⟨_, lookupMemOfEq _ _ _ hv1, rfl⟩
    rcases hgt2 with rfl | rfl
    · simp only [resolve_slot, Option.getD_some, hv1] at heq
      refine ((hdisjW (List.mem_map_of_mem winners hgl2) ?_)).elim
      refine List.mem_append_right _ ?_
      rw [← heq]
      exact hv1T
    · simp only [resolve_slot, Option.getD_some, hv1] at heq
      refine ((hdisjRT (List.mem_map_of_mem runners_up hgl2) ?_)).elim
      rw [← heq]
      exact hv1T
  · -- both pool slots
    subst hp1
    subst hp2
    obtain ⟨v1, hv1⟩ := hvalue i1 hi1
    obtain ⟨v2, hv2⟩ := hvalue i2 hi2
    simp only [resolve_slot, hv1, hv2, Option.getD_some] at heq
    subst heq
    have hpair := List.inj_on_of_nodup_map hTnd
      (lookupMemOfEq _ _ _ hv1) (lookupMemOfEq _ _ _ hv2) rfl
    have hkeyeq : asg.getD i1 ' ' = asg.getD i2 ' ' := by
      have := congrArg Prod.fst hpair
      simpa using this
    have : i1 = i2 :=
      getD_inj_of_nodup hasg_nd (by omega) (by omega) ' ' hkeyeq
    rw [this]

/-- Claim C4: for every set of group results with globally distinct winner,
runner-up, and qualifying-third team ids and a ranking of 8 qualifying
thirds, `build_r32_pairings` succeeds and its 16 pairs contain exactly 32
distinct team ids. -/
theorem C4_r32_pairings_distinct (winners runners_up : Char → TeamId)
    (qualifying_thirds : List (Char × TeamId))
    (hlen : qualifying_thirds.length = 8)
    (hknd : (qualifying_thirds.map Prod.fst).Nodup)
    (hksub : ∀ c ∈ qualifying_thirds.map Prod.fst, c ∈ GROUP_LETTERS)
    (hids : (GROUP_LETTERS.map winners ++ (GROUP_LETTERS.map runners_up ++
      qualifying_thirds.map Prod.snd)).Nodup) :
    ∃ pairs, build_r32_pairings winners runners_up qualifying_thirds = some pairs ∧
      pairs.length = 16 ∧
      (pairs.flatMap (fun p => [p.1, p.2])).Nodup := by
  have hsperm : ((qualifying_thirds.map Prod.fst).mergeSort
      (fun a b => decide (a ≤ b))).Perm (qualifying_thirds.map Prod.fst) :=
    List.mergeSort_perm _ _
  have hknd' : (String.mk ((qualifying_thirds.map Prod.fst).mergeSort
      (fun a b => decide (a ≤ b)))).toList.Nodup := (hsperm.nodup_iff).mpr hknd
  have hklen : (String.mk ((qualifying_thirds.map Prod.fst).mergeSort
      (fun a b => decide (a ≤ b)))).toList.length = 8 := by
    show ((qualifying_thirds.map Prod.fst).mergeSort
      (fun a b => decide (a ≤ b))).length = 8
    rw [hsperm.length_eq, List.length_map, hlen]
  have hksub' : ∀ c ∈ (String.mk ((qualifying_thirds.map Prod.fst).mergeSort
      (fun a b => decide (a ≤ b)))).toList, c ∈ GROUP_LETTERS := by
    intro c hc
    exact hksub c (hsperm.subset hc)
  obtain ⟨asg, hasg⟩ := Option.isSome_iff_exists.mp
    (get_assignments_isSome _ hknd' hklen hksub')
  have hasg_perm : asg.Perm (qualifying_thirds.map Prod.fst) :=
    (get_assignments_perm _ asg hknd' hklen hksub' hasg).trans hsperm
  have hasg_len : asg.length = 8 := by
    rw [hasg_perm.length_eq, List.length_map, hlen]
  have hasg_nd : asg.Nodup := hasg_perm.nodup_iff.mpr hknd
  have hkeys : ∀ i, i < 8 → asg.getD i ' ' ∈ qualifying_thirds.map Prod.fst := by
    intro i hi
    exact hasg_perm.subset (getD_mem_of_lt (by omega) ' ')
  have hsome_src : ∀ s ∈ srcList,
      (resolve_slot s winners runners_up asg qualifying_thirds).isSome := by
    intro s hs
    rcases srcList_shape s hs with ⟨g, hgt, hgl⟩ | ⟨i, hpool, hi⟩
    · rcases hgt with rfl | rfl <;> simp [resolve_slot]
    · subst hpool
      simp only [resolve_slot]
      exact lookupIsSomeOfMemKeys _ _ (hkeys i hi)
  have hres := resolvePairs_eq_map
    (fun s => resolve_slot s winners runners_up asg qualifying_thirds) R32_BRACKET
    (fun m hm => ⟨hsome_src m.team_a (List.mem_flatMap.mpr ⟨m, hm, by simp⟩),
      hsome_src m.team_b (List.mem_flatMap.mpr ⟨m, hm, by simp⟩)⟩)
  refine ⟨R32_BRACKET.map (fun m =>
    ((resolve_slot m.team_a winners runners_up asg qualifying_thirds).getD 0,
     (resolve_slot m.team_b winners runners_up asg qualifying_thirds).getD 0)), ?_, ?_, ?_⟩
  · unfold build_r32_pairings
    dsimp only
    rw [hasg]
    exact hres
  · simp [R32_BRACKET]
  · rw [flatMapPairsEqMap
      (fun s => (resolve_slot s winners runners_up asg qualifying_thirds).getD 0)
      R32_BRACKET]
    exact resolvedNodup winners runners_up qualifying_thirds asg hids
      hasg_len hasg_nd hkeys

/-- Witness for C4: uniform groups (ids 4g, 4g+1, 4g+2 for winner, runner-up,
third of group g) with the thirds of groups A..H qualifying. -/
theorem C4_r32_pairings_distinct_witness :
    ∃ pairs, build_r32_pairings (fun c => (c.toNat - 65) * 4)
        (fun c => (c.toNat - 65) * 4 + 1)
        [('A', 2), ('B', 6), ('C', 10), ('D', 14),
         ('E', 18), ('F', 22), ('G', 26), ('H', 30)] = some pairs ∧
      pairs.length = 16 ∧
      (pairs.flatMap (fun p => [p.1, p.2])).Nodup :=
  C4_r32_pairings_distinct (fun c => (c.toNat - 65) * 4)
    (fun c => (c.toNat - 65) * 4 + 1)
    [('A', 2), ('B', 6), ('C', 10), ('D', 14),
     ('E', 18), ('F', 22), ('G', 26), ('H', 30)]
    (by decide) (by decide) (by decide) (by decide)

-- ### Tiebreaker theorems

theorem merge_congr {α : Type} {le le' : α → α → Bool} :
    ∀ (l₁ l₂ : List α), (∀ x ∈ l₁, ∀ y ∈ l₂, le x y = le' x y) →
      List.merge l₁ l₂ le = List.merge l₁ l₂ le'
  | [], l₂, _ => by simp
  | a :: l₁, [], _ => by simp
  | a :: l₁, b :: l₂, h => by
    rw [List.merge, List.merge,
      ← h a (List.mem_cons_self a l₁) b (List.mem_cons_self b l₂)]
    by_cases hab : le a b = true
    · rw [if_pos hab, if_pos hab,
        merge_congr l₁ (b :: l₂) (fun x hx y hy => h x (List.mem_cons_of_mem a hx) y hy)]
    · rw [if_neg hab, if_neg hab,
        merge_congr (a :: l₁) l₂ (fun x hx y hy => h x hx y (List.mem_cons_of_mem b hy))]

theorem mergeSort_congr {α : Type} {le le' : α → α → Bool} :
    ∀ (l : List α), (∀ x ∈ l, ∀ y ∈ l, le x y = le' x y) →
      l.mergeSort le = l.mergeSort le'
  | [], _ => by simp
  | [a], _ => by simp
  | a :: b :: xs, h => by
    have hl1 : (List.splitInTwo ⟨a :: b :: xs, rfl⟩).1.1.length < xs.length + 1 + 1 := by
      simp [List.splitInTwo_fst]
      omega
    have hl2 : (List.splitInTwo ⟨a :: b :: xs, rfl⟩).2.1.length < xs.length + 1 + 1 := by
      simp [List.splitInTwo_snd]
      omega
    have hsub1 : ∀ x ∈ (List.splitInTwo ⟨a :: b :: xs, rfl⟩).1.1, x ∈ a :: b :: xs := by
      intro x hx
      rw [List.splitInTwo_fst] at hx
      exact List.take_subset _ _ hx
    have hsub2 : ∀ x ∈ (List.splitInTwo ⟨a :: b :: xs, rfl⟩).2.1, x ∈ a :: b :: xs := by
      intro x hx
      rw [List.splitInTwo_snd] at hx
      exact List.drop_subset _ _ hx
    rw [List.mergeSort, List.mergeSort]
    rw [mergeSort_congr (List.splitInTwo ⟨a :: b :: xs, rfl⟩).1.1
      (fun x hx y hy => h x (hsub1 x hx) y (hsub1 y hy))]
    rw [mergeSort_congr (List.splitInTwo ⟨a :: b :: xs, rfl⟩).2.1
      (fun x hx y hy => h x (hsub2 x hx) y (hsub2 y hy))]
    apply merge_congr
    intro x hx y hy
    exact h x (hsub1 x ((List.mergeSort_perm _ _).mem_iff.mp hx))
      y (hsub2 y ((List.mergeSort_perm _ _).mem_iff.mp hy))
termination_by l => l.length

theorem oeq_then (o : Ordering) : Ordering.eq.then o = o := rfl

theorem olt_then (o : Ordering) : Ordering.lt.then o = .lt := rfl

theorem ogt_then (o : Ordering) : Ordering.gt.then o = .gt := rfl

theorem then_swap (o p : Ordering) : (o.then p).swap = o.swap.then p.swap := by
  cases o <;> rfl

theorem h2h_swap (a b : GroupStanding) :
    ∀ ms : List MatchResult,
      compare_head_to_head b a ms = (compare_head_to_head a b ms).swap
  | [] => rfl
  | m :: ms => by
    simp only [compare_head_to_head]
    by_cases hcond : (m.home_team = a.team_id ∧ m.away_team = b.team_id) ∨
        (m.home_team = b.team_id ∧ m.away_team = a.team_id)
    · have hcond' : (m.home_team = b.team_id ∧ m.away_team = a.team_id) ∨
          (m.home_team = a.team_id ∧ m.away_team = b.team_id) := hcond.symm
      rw [if_pos hcond', if_pos hcond]
      by_cases hpts : m.points_for a.team_id = m.points_for b.team_id
      · have h1 : ¬(m.points_for a.team_id ≠ m.points_for b.team_id) := by omega
        have h2 : ¬(m.points_for b.team_id ≠ m.points_for a.team_id) := by omega
        rw [if_neg h2, if_neg h1]
        by_cases hgd : m.goal_difference a.team_id = m.goal_difference b.team_id
        · have h3 : ¬(m.goal_difference a.team_id ≠ m.goal_difference b.team_id) := by
            omega
          have h4 : ¬(m.goal_difference b.team_id ≠ m.goal_difference a.team_id) := by
            omega
          rw [if_neg h4, if_neg h3]
          exact (cmp_swap _ _).symm
        · have h3 : m.goal_difference a.team_id ≠ m.goal_difference b.team_id := hgd
          have h4 : m.goal_difference b.team_id ≠ m.goal_difference a.team_id :=
            fun hh => hgd hh.symm
          rw [if_pos h4, if_pos h3]
          exact (cmp_swap _ _).symm
      · have h1 : m.points_for a.team_id ≠ m.points_for b.team_id := hpts
        have h2 : m.points_for b.team_id ≠ m.points_for a.team_id :=
          fun hh => hpts hh.symm
        rw [if_pos h2, if_pos h1]
        exact (cmp_swap _ _).symm
    · have hcond' : ¬((m.home_team = b.team_id ∧ m.away_team = a.team_id) ∨
          (m.home_team = a.team_id ∧ m.away_team = b.team_id)) :=
        fun hco => hcond hco.symm
      rw [if_neg hcond', if_neg hcond]
      exact h2h_swap a b ms

theorem h2h_self (x : GroupStanding) :
    ∀ ms : List MatchResult, (∀ m ∈ ms, m.home_team ≠ m.away_team) →
      compare_head_to_head x x ms = .eq
  | [], _ => rfl
  | m :: ms, hm => by
    have hne := hm m (List.mem_cons_self m ms)
    simp only [compare_head_to_head]
    rw [if_neg (by rintro (⟨h1, h2⟩ | ⟨h1, h2⟩) <;> exact hne (h1.trans h2.symm))]
    exact h2h_self x ms (fun m' hm' => hm m' (List.mem_cons_of_mem m hm'))

theorem cmpKeyVid_ne_gt_iff (vid : GroupStanding → Nat) (a b : GroupStanding) :
    cmpKeyVid vid a b ≠ .gt ↔
      (b.points < a.points ∨
        (a.points = b.points ∧ (b.goal_difference < a.goal_difference ∨
          (a.goal_difference = b.goal_difference ∧ (b.goals_for < a.goals_for ∨
            (a.goals_for = b.goals_for ∧ vid a ≤ vid b)))))) := by
  unfold cmpKeyVid
  rcases Nat.lt_trichotomy a.points b.points with h | h | h
  · rw [(cmp_eq_gt_iff _ _).mpr h, ogt_then]
    exact iff_of_false (by simp) (by omega)
  · rw [h, cmp_self_eq_eq, oeq_then]
    rcases Int.lt_trichotomy a.goal_difference b.goal_difference with h2 | h2 | h2
    · rw [(cmp_eq_gt_iff _ _).mpr h2, ogt_then]
      exact iff_of_false (by simp) (by omega)
    · rw [h2, cmp_self_eq_eq, oeq_then]
      rcases Nat.lt_trichotomy a.goals_for b.goals_for with h3 | h3 | h3
      · rw [(cmp_eq_gt_iff _ _).mpr h3, ogt_then]
        exact iff_of_false (by simp) (by omega)
      · rw [h3, cmp_self_eq_eq, oeq_then]
        simp only [ne_eq, cmp_eq_gt_iff]
        constructor
        · intro hle
          exact Or.inr ⟨by trivial, Or.inr ⟨by trivial, Or.inr ⟨by trivial, not_lt.mp hle⟩⟩⟩
        · intro hrhs
          rcases hrhs with hlt | ⟨-, hrhs⟩
          · exact absurd hlt (by simp)
          rcases hrhs with hlt | ⟨-, hrhs⟩
          · exact absurd hlt (by simp)
          rcases hrhs with hlt | ⟨-, hle⟩
          · exact absurd hlt (by simp)
          exact not_lt.mpr hle
      · rw [(cmp_eq_lt_iff _ _).mpr h3, olt_then]
        exact iff_of_true (by simp) (by omega)
    · rw [(cmp_eq_lt_iff _ _).mpr h2, olt_then]
      exact iff_of_true (by simp) (by omega)
  · rw [(cmp_eq_lt_iff _ _).mpr h, olt_then]
    exact iff_of_true (by simp) (by omega)

theorem cmpStandings_of_key_eq (mlist : List MatchResult) {x y : GroupStanding}
    (hp : x.points = y.points) (hgd : x.goal_difference = y.goal_difference)
    (hgf : x.goals_for = y.goals_for) :
    cmpStandings mlist x y =
      (compare_head_to_head x y mlist).then (cmp x.team_id y.team_id) := by
  unfold cmpStandings
  rw [hp, hgd, hgf, cmp_self_eq_eq, cmp_self_eq_eq, cmp_self_eq_eq]
  simp only [oeq_then]

theorem cmpKeyVid_of_key_eq (vid : GroupStanding → Nat) {x y : GroupStanding}
    (hp : x.points = y.points) (hgd : x.goal_difference = y.goal_difference)
    (hgf : x.goals_for = y.goals_for) :
    cmpKeyVid vid x y = cmp (vid x) (vid y) := by
  unfold cmpKeyVid
  rw [hp, hgd, hgf, cmp_self_eq_eq, cmp_self_eq_eq, cmp_self_eq_eq]
  simp only [oeq_then]

theorem cmpStandings_eq_cmpKeyVid_of_key_ne (mlist : List MatchResult)
    (vid : GroupStanding → Nat) {x y : GroupStanding}
    (h : ¬(x.points = y.points ∧ x.goal_difference = y.goal_difference ∧
      x.goals_for = y.goals_for)) :
    cmpStandings mlist x y = cmpKeyVid vid x y := by
  unfold cmpStandings cmpKeyVid
  by_cases hp : x.points = y.points
  · rw [hp, cmp_self_eq_eq]
    simp only [oeq_then]
    by_cases hgd : x.goal_difference = y.goal_difference
    · rw [hgd, cmp_self_eq_eq]
      simp only [oeq_then]
      by_cases hgf : x.goals_for = y.goals_for
      · exact absurd ⟨hp, hgd, hgf⟩ h
      · cases hcmp : cmp y.goals_for x.goals_for with
        | lt => simp only [olt_then]
        | eq => exact absurd ((cmp_eq_eq_iff _ _).mp hcmp).symm hgf
        | gt => simp only [ogt_then]
    · cases hcmp : cmp y.goal_difference x.goal_difference with
      | lt => simp only [olt_then]
      | eq => exact absurd ((cmp_eq_eq_iff _ _).mp hcmp).symm hgd
      | gt => simp only [ogt_then]
  · cases hcmp : cmp y.points x.points with
    | lt => simp only [olt_then]
    | eq => exact absurd ((cmp_eq_eq_iff _ _).mp hcmp).symm hp
    | gt => simp only [ogt_then]

/-- Claim C9: in the standings returned by `resolve_standings`, whenever
exactly two teams of the group are tied on points, goal difference, and goals
scored, they are ordered by their mutual match's points, then its goal
difference, then its goals scored, and only if still tied by lower team id
first: whenever that head-to-head cascade (ending in the id tiebreak) favours
`a` over `b`, `a` appears strictly before `b` in the output. -/
theorem C9_two_way_tie_head_to_head
    (standings : List GroupStanding) (mlist : List MatchResult)
    (a b : GroupStanding)
    (ha : a ∈ standings) (hb : b ∈ standings)
    (hab : a.team_id ≠ b.team_id)
    (hm : ∀ m ∈ mlist, m.home_team ≠ m.away_team)
    (hp : a.points = b.points) (hgd : a.goal_difference = b.goal_difference)
    (hgf : a.goals_for = b.goals_for)
    (honly : ∀ x ∈ standings, ∀ y ∈ standings,
      x.points = y.points → x.goal_difference = y.goal_difference →
      x.goals_for = y.goals_for →
      x = y ∨ (x = a ∧ y = b) ∨ (x = b ∧ y = a))
    (hcascade : (compare_head_to_head a b mlist).then (cmp a.team_id b.team_id) =
      Ordering.lt) :
    ∃ i j : Fin (resolve_standings standings mlist).length,
      i.val < j.val ∧ (resolve_standings standings mlist).get i = a ∧
        (resolve_standings standings mlist).get j = b := by
  classical
  have hne : a ≠ b := fun hh => hab (by rw [hh])
  let vid : GroupStanding → Nat :=
    fun x => if x = a then 0 else if x = b then 1 else x.team_id + 2
  have hvid_a : vid a = 0 := by simp [vid]
  have hvid_b : vid b = 1 := by simp [vid, Ne.symm hne]
  have hagree : ∀ x ∈ standings, ∀ y ∈ standings,
      (fun u v => decide (cmpStandings mlist u v ≠ Ordering.gt)) x y =
        (fun u v => decide (cmpKeyVid vid u v ≠ Ordering.gt)) x y := by
    intro x hx y hy
    have hcore : cmpStandings mlist x y = cmpKeyVid vid x y := by
      by_cases hkey : x.points = y.points ∧ x.goal_difference = y.goal_difference ∧
          x.goals_for = y.goals_for
      · obtain ⟨hp', hgd', hgf'⟩ := hkey
        rcases honly x hx y hy hp' hgd' hgf' with rfl | ⟨hxa, hyb⟩ | ⟨hxb, hya⟩
        · rw [cmpStandings_of_key_eq mlist rfl rfl rfl,
            cmpKeyVid_of_key_eq vid rfl rfl rfl,
            h2h_self x mlist hm, oeq_then, cmp_self_eq_eq, cmp_self_eq_eq]
        · rw [hxa, hyb, cmpStandings_of_key_eq mlist hp hgd hgf,
            cmpKeyVid_of_key_eq vid hp hgd hgf, hcascade, hvid_a, hvid_b]
          decide
        · rw [hxb, hya, cmpStandings_of_key_eq mlist hp.symm hgd.symm hgf.symm,
            cmpKeyVid_of_key_eq vid hp.symm hgd.symm hgf.symm,
            h2h_swap a b mlist, ← cmp_swap a.team_id b.team_id, ← then_swap,
            hcascade, hvid_a, hvid_b]
          decide
      · exact cmpStandings_eq_cmpKeyVid_of_key_ne mlist vid hkey
    simp only [hcore]
  have hout : resolve_standings standings mlist =
      standings.mergeSort (fun u v => decide (cmpKeyVid vid u v ≠ Ordering.gt)) := by
    unfold resolve_standings
    exact mergeSort_congr standings hagree
  have htrans : ∀ x y z : GroupStanding,
      decide (cmpKeyVid vid x y ≠ Ordering.gt) = true →
      decide (cmpKeyVid vid y z ≠ Ordering.gt) = true →
      decide (cmpKeyVid vid x z ≠ Ordering.gt) = true := by
    intro x y z hxy hyz
    rw [decide_eq_true_iff, cmpKeyVid_ne_gt_iff] at hxy hyz ⊢
    omega
  have htotal : ∀ x y : GroupStanding,
      (decide (cmpKeyVid vid x y ≠ Ordering.gt) ||
        decide (cmpKeyVid vid y x ≠ Ordering.gt)) = true := by
    intro x y
    rw [Bool.or_eq_true, decide_eq_true_iff, decide_eq_true_iff,
      cmpKeyVid_ne_gt_iff, cmpKeyVid_ne_gt_iff]
    omega
  have hpw := @List.sorted_mergeSort _
    (fun u v => decide (cmpKeyVid vid u v ≠ Ordering.gt))
    htrans htotal standings
  have hma : a ∈ standings.mergeSort
      (fun u v => decide (cmpKeyVid vid u v ≠ Ordering.gt)) :=
    (List.mergeSort_perm standings _).mem_iff.mpr ha
  have hmb : b ∈ standings.mergeSort
      (fun u v => decide (cmpKeyVid vid u v ≠ Ordering.gt)) :=
    (List.mergeSort_perm standings _).mem_iff.mpr hb
  rw [hout]
  obtain ⟨ia, hia⟩ := List.mem_iff_get.mp hma
  obtain ⟨ib, hib⟩ := List.mem_iff_get.mp hmb
  have hineq : ia.val < ib.val := by
    rcases Nat.lt_trichotomy ia.val ib.val with hlt | heqq | hgt
    · exact hlt
    · exact absurd (by rw [← hia, ← hib]; exact congrArg _ (Fin.ext heqq)) hne
    · exfalso
      have hrel := List.pairwise_iff_get.mp hpw ib ia hgt
      rw [hia, hib] at hrel
      have hrel' : cmpKeyVid vid b a ≠ Ordering.gt := by
        simpa using hrel
      apply hrel'
      rw [cmpKeyVid_of_key_eq vid hp.symm hgd.symm hgf.symm, hvid_a, hvid_b]
      decide
  exact ⟨ia, ib, hineq, hia, hib⟩

/-- Witness for C9: a four-team group where teams 0 and 1 are tied on all
three global keys and team 1 won the mutual match. -/
theorem C9_two_way_tie_head_to_head_witness :
    ∃ i j : Fin (resolve_standings
        [⟨0, 'A', 3, 2, 0, 1, 5, 3, 6⟩, ⟨1, 'A', 3, 2, 0, 1, 5, 3, 6⟩,
         ⟨2, 'A', 3, 1, 1, 1, 4, 4, 4⟩, ⟨3, 'A', 3, 0, 1, 2, 2, 6, 1⟩]
        [⟨0, 1, 0, 1, false, none⟩]).length,
      i.val < j.val ∧
        (resolve_standings
          [⟨0, 'A', 3, 2, 0, 1, 5, 3, 6⟩, ⟨1, 'A', 3, 2, 0, 1, 5, 3, 6⟩,
           ⟨2, 'A', 3, 1, 1, 1, 4, 4, 4⟩, ⟨3, 'A', 3, 0, 1, 2, 2, 6, 1⟩]
          [⟨0, 1, 0, 1, false, none⟩]).get i = ⟨1, 'A', 3, 2, 0, 1, 5, 3, 6⟩ ∧
        (resolve_standings
          [⟨0, 'A', 3, 2, 0, 1, 5, 3, 6⟩, ⟨1, 'A', 3, 2, 0, 1, 5, 3, 6⟩,
           ⟨2, 'A', 3, 1, 1, 1, 4, 4, 4⟩, ⟨3, 'A', 3, 0, 1, 2, 2, 6, 1⟩]
          [⟨0, 1, 0, 1, false, none⟩]).get j = ⟨0, 'A', 3, 2, 0, 1, 5, 3, 6⟩ :=
  C9_two_way_tie_head_to_head
    [⟨0, 'A', 3, 2, 0, 1, 5, 3, 6⟩, ⟨1, 'A', 3, 2, 0, 1, 5, 3, 6⟩,
     ⟨2, 'A', 3, 1, 1, 1, 4, 4, 4⟩, ⟨3, 'A', 3, 0, 1, 2, 2, 6, 1⟩]
    [⟨0, 1, 0, 1, false, none⟩]
    ⟨1, 'A', 3, 2, 0, 1, 5, 3, 6⟩ ⟨0, 'A', 3, 2, 0, 1, 5, 3, 6⟩
    (by decide) (by decide) (by decide) (by decide) (by decide) (by decide)
    (by decide) (by decide) (by decide)

-- ### Runner theorems

theorem foldl_push_eq_map {R : Type} (f : Nat → R) :
    ∀ (l : List Nat) (acc : List R),
      l.foldl (fun results i => results ++ [f i]) acc = acc ++ l.map f
  | [], acc => by simp
  | i :: l, acc => by
    simp only [List.foldl_cons, List.map_cons, foldl_push_eq_map f l]
    simp

/-- Claim C7: with a user-supplied seed, the parallel `run` and the
sequential `run_with_progress` produce identical aggregated results (worker
`i` of both modes uses seed `base + i` wrapping, and the fold over results is
the same), and two sequential runs with the same inputs produce bit-equal
aggregated results. -/
theorem C7_parallel_eq_sequential {R A : Type} (simulate : Nat → R)
    (aggregate : List R → A) (iterations : Nat) (seed : Nat)
    (par : Option Nat) (now : Nat) :
    SimulationRunner.run simulate aggregate ⟨iterations, some seed, par⟩ now =
      SimulationRunner.run_with_progress simulate aggregate
        ⟨iterations, some seed, par⟩ ∧
    SimulationRunner.run_with_progress simulate aggregate
        ⟨iterations, some seed, par⟩ =
      SimulationRunner.run_with_progress simulate aggregate
        ⟨iterations, some seed, par⟩ := by
  refine ⟨?_, rfl⟩
  unfold SimulationRunner.run SimulationRunner.run_with_progress
  simp only [Option.getD_some]
  rw [foldl_push_eq_map]
  simp

-- ### Theorems about the prediction strategies' probabilities

/-- When the raw components already sum to 1, normalisation is the identity. -/
theorem new_of_sum_one (h d a : ℝ) (hs : h + d + a = 1) :
    MatchProbabilities.new h d a = ⟨h, d, a⟩ := by
  unfold MatchProbabilities.new
  rw [hs]
  simp

/-- The normalised triple `(r·(1-dp), dp, (1-r)·(1-dp))` is valid whenever
`r` and `dp` lie in `[0, 1]`. -/
theorem probsValid_new_ratio (ratio dp : ℝ) (h0 : 0 ≤ ratio) (h1 : ratio ≤ 1)
    (hd0 : 0 ≤ dp) (hd1 : dp ≤ 1) :
    probsValid
      (MatchProbabilities.new (ratio * (1 - dp)) dp ((1 - ratio) * (1 - dp))) := by
  have hs : ratio * (1 - dp) + dp + (1 - ratio) * (1 - dp) = 1 := by ring
  rw [new_of_sum_one _ _ _ hs]
  exact ⟨mul_nonneg h0 (by linarith), hd0,
    mul_nonneg (by linarith) (by linarith), hs⟩

/-- The guarded share `x / (x + y)` (0.5 when the total vanishes) lies in
`[0, 1]` for non-negative `x`, `y`. -/
theorem shareRatio_mem (x y : ℝ) (hx : 0 ≤ x) (hy : 0 ≤ y) :
    0 ≤ (if x + y = 0 then (0.5 : ℝ) else x / (x + y)) ∧
      (if x + y = 0 then (0.5 : ℝ) else x / (x + y)) ≤ 1 := by
  by_cases h : x + y = 0
  · rw [if_pos h]
    norm_num
  · rw [if_neg h]
    have hpos : 0 < x + y := lt_of_le_of_ne (by linarith) (Ne.symm h)
    exact ⟨div_nonneg hx hpos.le, (div_le_one hpos).2 (by linarith)⟩

/-- The shared draw-probability shape lies in `[0, 1]`. -/
theorem ratioDrawProbability_mem (r : ℝ) :
    0 ≤ ratioDrawProbability r ∧ ratioDrawProbability r ≤ 1 := by
  unfold ratioDrawProbability
  constructor
  · exact mul_nonneg (by norm_num) (le_max_right _ _)
  · have h1 : max (1 - |r - 0.5| * 2) 0 ≤ 1 := by
      apply max_le
      · have := abs_nonneg (r - 0.5)
        linarith
      · norm_num
    have h2 : (0.28 : ℝ) * max (1 - |r - 0.5| * 2) 0 ≤ 0.28 * 1 :=
      mul_le_mul_of_nonneg_left h1 (by norm_num)
    linarith

/-- The draw probability after the knockout guard lies in `[0, 1]` whenever
the group-stage value does. -/
theorem ite_dp_mem (b : Bool) (dp : ℝ) (h : 0 ≤ dp ∧ dp ≤ 1) :
    0 ≤ (if b then (0 : ℝ) else dp) ∧ (if b then (0 : ℝ) else dp) ≤ 1 := by
  cases b
  · simpa using h
  · norm_num

/-- The elo win expectancy lies in `[0, 1]`. -/
theorem elo_we_mem (s : EloStrategy) (d : ℝ) :
    0 ≤ s.win_expectancy d ∧ s.win_expectancy d ≤ 1 := by
  unfold EloStrategy.win_expectancy
  have hp : (0 : ℝ) < (10 : ℝ) ^ (-d / 400) := Real.rpow_pos_of_pos (by norm_num) _
  have hd : (0 : ℝ) < 1 + (10 : ℝ) ^ (-d / 400) := by linarith
  constructor
  · exact (div_pos one_pos hd).le
  · rw [div_le_one hd]
    linarith

/-- The elo draw probability lies in `[0, 1]`. -/
theorem elo_dp_mem (s : EloStrategy) (d : ℝ) :
    0 ≤ s.draw_probability d ∧ s.draw_probability d ≤ 1 := by
  unfold EloStrategy.draw_probability
  have h1 : min (|d| / 400) 1 ≤ 1 := min_le_right _ _
  have h0 : 0 ≤ min (|d| / 400) 1 :=
    le_min (div_nonneg (abs_nonneg d) (by norm_num)) (by norm_num)
  constructor
  · apply mul_nonneg (by norm_num)
    linarith
  · have h2 : (0.28 : ℝ) * (1 - min (|d| / 400) 1) ≤ 0.28 * 1 :=
      mul_le_mul_of_nonneg_left (by linarith) (by norm_num)
    linarith

/-- The fifa strength score lies in `[0, 1]` when the ranking cap is
positive. -/
theorem ranking_to_strength_mem (s : FifaRankingStrategy) (hmax : 0 < s.max_ranking)
    (r : Nat) : 0 ≤ s.ranking_to_strength r ∧ s.ranking_to_strength r ≤ 1 := by
  unfold FifaRankingStrategy.ranking_to_strength
  have hm : (0 : ℝ) < (s.max_ranking : ℝ) := by exact_mod_cast hmax
  have hx1 : ((min r s.max_ranking : ℕ) : ℝ) / (s.max_ranking : ℝ) ≤ 1 := by
    rw [div_le_one hm]
    exact_mod_cast Nat.min_le_right r s.max_ranking
  constructor
  · have h := Real.sqrt_le_sqrt hx1
    rw [Real.sqrt_one] at h
    linarith
  · have := Real.sqrt_nonneg (((min r s.max_ranking : ℕ) : ℝ) / (s.max_ranking : ℝ))
    linarith

/-- The fifa strength ratio lies in `[0, 1]` when the ranking cap is
positive. -/
theorem fifa_ratio_mem (s : FifaRankingStrategy) (hmax : 0 < s.max_ranking)
    (h a : Nat) : 0 ≤ s.strength_ratio h a ∧ s.strength_ratio h a ≤ 1 := by
  unfold FifaRankingStrategy.strength_ratio
  exact shareRatio_mem _ _ (ranking_to_strength_mem s hmax h).1
    (ranking_to_strength_mem s hmax a).1

/-- The market-value ratio lies in `[0, 1]` for non-negative squad values. -/
theorem market_ratio_mem (s : MarketValueStrategy) (hv av : ℝ)
    (hh : 0 ≤ hv) (ha : 0 ≤ av) :
    0 ≤ s.value_ratio hv av ∧ s.value_ratio hv av ≤ 1 := by
  unfold MarketValueStrategy.value_ratio
  exact shareRatio_mem _ _ (Real.log_nonneg (by linarith))
    (Real.log_nonneg (by linarith))

/-- The form ratio lies in `[0, 1]` (forms are clamped first). -/
theorem form_ratio_mem (s : FormStrategy) (hf af : ℝ) :
    0 ≤ s.strength_ratio hf af ∧ s.strength_ratio hf af ≤ 1 := by
  unfold FormStrategy.strength_ratio
  have hh : (0 : ℝ) ≤ min (max hf 0) 3 := le_min (le_max_right _ _) (by norm_num)
  have ha : (0 : ℝ) ≤ min (max af 0) 3 := le_min (le_max_right _ _) (by norm_num)
  have hpos : (0 : ℝ) < min (max hf 0) 3 + 0.5 + (min (max af 0) 3 + 0.5) := by
    linarith
  constructor
  · exact div_nonneg (by linarith) hpos.le
  · rw [div_le_one hpos]
    linarith

/-- Elo probabilities are valid for every context. -/
theorem elo_probs_valid (s : EloStrategy) (ctx : MatchContext) :
    probsValid (s.predict_probabilities ctx) := by
  unfold EloStrategy.predict_probabilities
  dsimp only
  refine probsValid_new_ratio _ _ (elo_we_mem s _).1 (elo_we_mem s _).2 ?_ ?_
  · exact (ite_dp_mem ctx.is_knockout _ (elo_dp_mem s _)).1
  · exact (ite_dp_mem ctx.is_knockout _ (elo_dp_mem s _)).2

/-- Probabilities of every base strategy are valid, given the documented
parameter and data domains (positive fifa cap, non-negative market values). -/
theorem base_probs_valid (s : BaseStrategy) (ctx : MatchContext) (hwf : s.wf)
    (hmv : 0 ≤ ctx.home_team.market_value_millions ∧
      0 ≤ ctx.away_team.market_value_millions) :
    probsValid (s.predict_probabilities ctx) := by
  cases s with
  | elo s => exact elo_probs_valid s ctx
  | fifa s =>
    have hr := fifa_ratio_mem s hwf ctx.home_team.fifa_ranking
      ctx.away_team.fifa_ranking
    show probsValid (s.predict_probabilities ctx)
    unfold FifaRankingStrategy.predict_probabilities
    dsimp only
    refine probsValid_new_ratio _ _ hr.1 hr.2 ?_ ?_
    · exact (ite_dp_mem ctx.is_knockout _ (ratioDrawProbability_mem _)).1
    · exact (ite_dp_mem ctx.is_knockout _ (ratioDrawProbability_mem _)).2
  | market s =>
    have hr := market_ratio_mem s _ _ hmv.1 hmv.2
    show probsValid (s.predict_probabilities ctx)
    unfold MarketValueStrategy.predict_probabilities
    dsimp only
    refine probsValid_new_ratio _ _ hr.1 hr.2 ?_ ?_
    · exact (ite_dp_mem ctx.is_knockout _ (ratioDrawProbability_mem _)).1
    · exact (ite_dp_mem ctx.is_knockout _ (ratioDrawProbability_mem _)).2
  | form s =>
    have hr := form_ratio_mem s ctx.home_team.sofascore_form
      ctx.away_team.sofascore_form
    show probsValid (s.predict_probabilities ctx)
    unfold FormStrategy.predict_probabilities
    dsimp only
    refine probsValid_new_ratio _ _ hr.1 hr.2 ?_ ?_
    · exact (ite_dp_mem ctx.is_knockout _ (ratioDrawProbability_mem _)).1
    · exact (ite_dp_mem ctx.is_knockout _ (ratioDrawProbability_mem _)).2

/-- Summing after dividing each element equals dividing the sum. -/
theorem sum_map_div (l : List ℝ) (d : ℝ) :
    (l.map (fun x => x / d)).sum = l.sum / d := by
  induction l with
  | nil => simp
  | cons x xs ih => simp [ih, add_div]

/-- `normalized_weights` keeps the length of the strategy list. -/
theorem normalized_weights_length (c : CompositeStrategy) :
    c.normalized_weights.length = c.strategies.length := by
  unfold CompositeStrategy.normalized_weights
  dsimp only
  by_cases htot : (c.strategies.map Prod.snd).sum = 0
  · rw [if_pos htot]
    simp
  · rw [if_neg htot]
    simp

/-- `normalized_weights` of a non-empty composite sum to 1. -/
theorem normalized_weights_sum (c : CompositeStrategy) (hne : c.strategies ≠ []) :
    c.normalized_weights.sum = 1 := by
  unfold CompositeStrategy.normalized_weights
  dsimp only
  by_cases htot : (c.strategies.map Prod.snd).sum = 0
  · rw [if_pos htot]
    rw [List.sum_replicate, nsmul_eq_mul]
    have hn : (c.strategies.length : ℝ) ≠ 0 := by
      have h0 : c.strategies.length ≠ 0 := by
        intro h
        exact hne (List.eq_nil_of_length_eq_zero h)
      exact_mod_cast h0
    field_simp
  · rw [if_neg htot]
    have hmm : c.strategies.map (fun p => p.2 / (c.strategies.map Prod.snd).sum) =
        (c.strategies.map Prod.snd).map
          (fun x => x / (c.strategies.map Prod.snd).sum) := by
      rw [List.map_map]
      rfl
    rw [hmm, sum_map_div, div_self htot]

/-- `normalized_weights` are non-negative when the raw weights are. -/
theorem normalized_weights_nonneg (c : CompositeStrategy)
    (hw : ∀ p ∈ c.strategies, 0 ≤ p.2) :
    ∀ w ∈ c.normalized_weights, 0 ≤ w := by
  intro w hwmem
  unfold CompositeStrategy.normalized_weights at hwmem
  dsimp only at hwmem
  by_cases htot : (c.strategies.map Prod.snd).sum = 0
  · rw [if_pos htot] at hwmem
    rw [List.eq_of_mem_replicate hwmem]
    positivity
  · rw [if_neg htot] at hwmem
    obtain ⟨p, hp, rfl⟩ := List.mem_map.1 hwmem
    have htot0 : 0 ≤ (c.strategies.map Prod.snd).sum := by
      apply List.sum_nonneg
      intro x hx
      obtain ⟨q, hq, rfl⟩ := List.mem_map.1 hx
      exact hw q hq
    exact div_nonneg (hw p hp) htot0

/-- Zipping then projecting the second components recovers the (shorter)
second list. -/
theorem map_snd_zip_eq {α β : Type} :
    ∀ (l₁ : List α) (l₂ : List β), l₂.length ≤ l₁.length →
      (l₁.zip l₂).map Prod.snd = l₂
  | _, [], _ => by simp
  | [], b :: l₂, h => by simp at h
  | a :: l₁, b :: l₂, h => by
    simp only [List.zip_cons_cons, List.map_cons]
    rw [map_snd_zip_eq l₁ l₂ (by simpa using h)]

/-- Three map-sums over one list merge into one map-sum. -/
theorem sum_map_add3 {α : Type} (l : List α) (f g h : α → ℝ) :
    (l.map f).sum + (l.map g).sum + (l.map h).sum =
      (l.map (fun x => f x + g x + h x)).sum := by
  induction l with
  | nil => simp
  | cons x xs ih =>
    simp only [List.map_cons, List.sum_cons]
    linarith

/-- Composite probabilities are valid for well-formed components and
weights. -/
theorem composite_probs_valid (c : CompositeStrategy) (ctx : MatchContext)
    (hwf : ∀ p ∈ c.strategies, p.1.wf ∧ 0 ≤ p.2)
    (hmv : 0 ≤ ctx.home_team.market_value_millions ∧
      0 ≤ ctx.away_team.market_value_millions) :
    probsValid (c.predict_probabilities ctx) := by
  unfold CompositeStrategy.predict_probabilities
  by_cases hemp : c.strategies.isEmpty
  · rw [if_pos hemp]
    rw [new_of_sum_one _ _ _ (by norm_num)]
    refine ⟨by norm_num, by norm_num, by norm_num, by norm_num⟩
  · rw [if_neg hemp]
    dsimp only
    have hne : c.strategies ≠ [] := by
      simpa [List.isEmpty_iff] using hemp
    have hlen : c.normalized_weights.length ≤ c.strategies.length :=
      (normalized_weights_length c).le
    have hzip : (c.strategies.zip c.normalized_weights).map Prod.snd =
        c.normalized_weights := map_snd_zip_eq _ _ hlen
    have hmem : ∀ p ∈ c.strategies.zip c.normalized_weights,
        probsValid (p.1.1.predict_probabilities ctx) ∧ 0 ≤ p.2 := by
      intro p hp
      obtain ⟨hp1, hp2⟩ := List.of_mem_zip hp
      exact ⟨base_probs_valid p.1.1 ctx (hwf p.1 hp1).1 hmv,
        normalized_weights_nonneg c (fun q hq => (hwf q hq).2) p.2 hp2⟩
    have hsum :
        ((c.strategies.zip c.normalized_weights).map
            (fun p => (p.1.1.predict_probabilities ctx).home_win * p.2)).sum +
          ((c.strategies.zip c.normalized_weights).map
            (fun p => (p.1.1.predict_probabilities ctx).draw * p.2)).sum +
          ((c.strategies.zip c.normalized_weights).map
            (fun p => (p.1.1.predict_probabilities ctx).away_win * p.2)).sum = 1 := by
      rw [sum_map_add3]
      have hcong : (c.strategies.zip c.normalized_weights).map
          (fun p => (p.1.1.predict_probabilities ctx).home_win * p.2 +
            (p.1.1.predict_probabilities ctx).draw * p.2 +
            (p.1.1.predict_probabilities ctx).away_win * p.2) =
          (c.strategies.zip c.normalized_weights).map Prod.snd := by
        apply List.map_congr_left
        intro p hp
        obtain ⟨⟨_, _, _, hs⟩, _⟩ := hmem p hp
        rw [← add_mul, ← add_mul, hs, one_mul]
      rw [hcong, hzip, normalized_weights_sum c hne]
    have hnn : ∀ proj : MatchProbabilities → ℝ,
        (∀ q, probsValid q → 0 ≤ proj q) →
        0 ≤ ((c.strategies.zip c.normalized_weights).map
          (fun p => proj (p.1.1.predict_probabilities ctx) * p.2)).sum := by
      intro proj hproj
      apply List.sum_nonneg
      intro x hx
      obtain ⟨p, hp, rfl⟩ := List.mem_map.1 hx
      obtain ⟨hv, hw'⟩ := hmem p hp
      exact mul_nonneg (hproj _ hv) hw'
    rw [new_of_sum_one _ _ _ hsum]
    exact ⟨hnn (fun q => q.home_win) (fun q hq => hq.1),
      hnn (fun q => q.draw) (fun q hq => hq.2.1),
      hnn (fun q => q.away_win) (fun q hq => hq.2.2.1), hsum⟩

/-- Claim C8: for every strategy variant (elo, fifa ranking, market value,
form, composite — including the empty composite) with parameters in the
documented domain (positive fifa ranking cap, non-negative composite
weights) and every match context whose squad market values are non-negative,
the returned probabilities are non-negative and sum to exactly 1, hence in
particular to 1 within the 1e-4 tolerance of `is_valid`. -/
theorem C8_probabilities_valid (s : Strategy) (ctx : MatchContext)
    (hwf : s.wf)
    (hmv : 0 ≤ ctx.home_team.market_value_millions ∧
      0 ≤ ctx.away_team.market_value_millions) :
    probsValid (s.predict_probabilities ctx) ∧
      (s.predict_probabilities ctx).is_valid := by
  have hv : probsValid (s.predict_probabilities ctx) := by
    cases s with
    | base b => exact base_probs_valid b ctx hwf hmv
    | composite c => exact composite_probs_valid c ctx hwf hmv
  refine ⟨hv, ?_⟩
  obtain ⟨_, _, _, hs⟩ := hv
  unfold MatchProbabilities.is_valid
  rw [hs]
  norm_num

/-- Witness for C8 at the CLI composite and the sample knockout context. -/
theorem C8_probabilities_valid_witness :
    ((Strategy.composite compCLI).wf ∧
      (0 ≤ ctxKO.home_team.market_value_millions ∧
        0 ≤ ctxKO.away_team.market_value_millions)) ∧
    (probsValid ((Strategy.composite compCLI).predict_probabilities ctxKO) ∧
      ((Strategy.composite compCLI).predict_probabilities ctxKO).is_valid) := by
  have hwf : (Strategy.composite compCLI).wf := by
    intro p hp
    simp only [compCLI, List.mem_cons, List.not_mem_nil, or_false] at hp
    rcases hp with hp | hp | hp <;> rw [hp]
    · exact ⟨trivial, by norm_num⟩
    · exact ⟨(by norm_num : (0 : ℕ) < 100), by norm_num⟩
    · exact ⟨trivial, by norm_num⟩
  have hmv : 0 ≤ ctxKO.home_team.market_value_millions ∧
      0 ≤ ctxKO.away_team.market_value_millions := by
    constructor <;> norm_num [ctxKO, teamA, teamB]
  exact ⟨⟨hwf, hmv⟩, C8_probabilities_valid _ _ hwf hmv⟩

-- ### Theorems about knockout simulation: draws and winners

/-- Normalisation keeps a zero draw component at zero (`0 / total = 0` even
for a vanishing total). -/
theorem new_draw_zero (h a : ℝ) : (MatchProbabilities.new h 0 a).draw = 0 := by
  unfold MatchProbabilities.new
  dsimp only
  exact zero_div _

/-- Every base strategy predicts a zero draw probability in knockout
contexts. -/
theorem base_knockout_draw_zero (b : BaseStrategy) (ctx : MatchContext)
    (hko : ctx.is_knockout = true) :
    (b.predict_probabilities ctx).draw = 0 := by
  cases b with
  | elo s =>
    show (s.predict_probabilities ctx).draw = 0
    unfold EloStrategy.predict_probabilities
    dsimp only
    rw [hko, if_pos rfl]
    exact new_draw_zero _ _
  | fifa s =>
    show (s.predict_probabilities ctx).draw = 0
    unfold FifaRankingStrategy.predict_probabilities
    dsimp only
    rw [hko, if_pos rfl]
    exact new_draw_zero _ _
  | market s =>
    show (s.predict_probabilities ctx).draw = 0
    unfold MarketValueStrategy.predict_probabilities
    dsimp only
    rw [hko, if_pos rfl]
    exact new_draw_zero _ _
  | form s =>
    show (s.predict_probabilities ctx).draw = 0
    unfold FormStrategy.predict_probabilities
    dsimp only
    rw [hko, if_pos rfl]
    exact new_draw_zero _ _

/-- A non-empty composite also predicts a zero draw probability in knockout
contexts (the weighted sum of zeros). -/
theorem composite_knockout_draw_zero (c : CompositeStrategy) (ctx : MatchContext)
    (hko : ctx.is_knockout = true) (hne : c.strategies ≠ []) :
    (c.predict_probabilities ctx).draw = 0 := by
  unfold CompositeStrategy.predict_probabilities
  rw [if_neg (by simpa [List.isEmpty_iff] using hne)]
  dsimp only
  have hz : (c.strategies.zip c.normalized_weights).map
      (fun p => (p.1.1.predict_probabilities ctx).draw * p.2) =
      (c.strategies.zip c.normalized_weights).map (fun _ => (0 : ℝ)) := by
    apply List.map_congr_left
    intro p _
    rw [base_knockout_draw_zero p.1.1 ctx hko, zero_mul]
  rw [hz]
  have hzs : ((c.strategies.zip c.normalized_weights).map
      (fun _ => (0 : ℝ))).sum = 0 := by simp
  rw [hzs]
  exact new_draw_zero _ _

/-- The sudden-death loop only returns scores that differ. -/
theorem suddenDeath_some_ne (rate : ℝ) :
    ∀ (fuel home away : Nat) (r : RngState) (h' a' : Nat) (r' : RngState),
      suddenDeath rate fuel home away r = some (h', a', r') → h' ≠ a' := by
  intro fuel
  induction fuel with
  | zero =>
    intro home away r h' a' r' heq
    unfold suddenDeath at heq
    by_cases hne : home ≠ away
    · rw [if_pos hne] at heq
      simp only [Option.some.injEq, Prod.mk.injEq] at heq
      obtain ⟨h1, h2, _⟩ := heq
      rw [← h1, ← h2]
      exact hne
    · rw [if_neg hne] at heq
      exact Option.noConfusion heq
  | succ fuel ih =>
    intro home away r h' a' r' heq
    unfold suddenDeath at heq
    by_cases hne : home ≠ away
    · rw [if_pos hne] at heq
      simp only [Option.some.injEq, Prod.mk.injEq] at heq
      obtain ⟨h1, h2, _⟩ := heq
      rw [← h1, ← h2]
      exact hne
    · rw [if_neg hne] at heq
      exact ih _ _ _ _ _ _ heq

/-- Whenever the penalty shootout returns, its two scores are unequal. -/
theorem simulate_penalties_some_ne (fuel : Nat) (r : RngState) (p : PenaltyResult)
    (r' : RngState) (h : simulate_penalties fuel r = some (p, r')) :
    p.home_penalties ≠ p.away_penalties := by
  unfold simulate_penalties at h
  obtain ⟨u, hsd, hf⟩ := Option.map_eq_some'.1 h
  have hne := suddenDeath_some_ne 0.75 fuel _ _ _ u.1 u.2.1 u.2.2 hsd
  have hp : (⟨u.1, u.2.1⟩ : PenaltyResult) = p := congrArg Prod.fst hf
  rw [← hp]
  exact hne

/-- A result with unequal goals always names a winner. -/
theorem winner_of_ne (m : MatchResult) (h : m.home_goals ≠ m.away_goals) :
    ∃ w, m.winner = some w := by
  unfold MatchResult.winner MatchResult.outcome
  rcases Nat.lt_trichotomy m.home_goals m.away_goals with hlt | heq | hgt
  · rw [if_neg (by omega), if_pos hlt]
    exact ⟨_, rfl⟩
  · exact absurd heq h
  · rw [if_pos hgt]
    exact ⟨_, rfl⟩

/-- A drawn result with a penalty shootout attached always names a winner. -/
theorem winner_of_draw_pen (m : MatchResult) (heq : m.home_goals = m.away_goals)
    (p : PenaltyResult) (hp : m.penalties = some p) :
    ∃ w, m.winner = some w := by
  unfold MatchResult.winner MatchResult.outcome
  rw [if_neg (by omega), if_neg (by omega), hp]
  exact ⟨_, rfl⟩

/-- Claim C5 (amended): in a knockout context the four base strategies and
every non-empty composite predict a zero draw probability — the empty
composite instead yields 0.34, see the counterexample — and for every
strategy variant, whenever `simulate_match` returns a result (the sudden
death loop is the one source of non-termination), that result names a
winner; if its goals are level the attached penalty result has unequal
scores. -/
theorem C5_knockout_draw_zero_and_winner (s : Strategy) (ctx : MatchContext)
    (hko : ctx.is_knockout = true) :
    (((∃ b, s = Strategy.base b) ∨
        (∃ c, s = Strategy.composite c ∧ c.strategies ≠ [])) →
      (s.predict_probabilities ctx).draw = 0) ∧
    (∀ fuel r m r', simulate_match s ctx fuel r = some (m, r') →
      (∃ w, m.winner = some w) ∧
      (m.home_goals = m.away_goals →
        ∃ p, m.penalties = some p ∧ p.home_penalties ≠ p.away_penalties)) := by
  constructor
  · rintro (⟨b, rfl⟩ | ⟨c, rfl, hne⟩)
    · exact base_knockout_draw_zero b ctx hko
    · exact composite_knockout_draw_zero c ctx hko hne
  · intro fuel r m r' h
    unfold simulate_match at h
    dsimp only at h
    set A := sample_poisson r (s.predict_goals ctx).home_lambda with hA
    set B := sample_poisson A.2 (s.predict_goals ctx).away_lambda with hB
    by_cases htie : A.1 = B.1
    · rw [if_pos ⟨hko, htie⟩] at h
      set C := sample_poisson B.2 ((s.predict_goals ctx).home_lambda * 0.3) with hC
      set D := sample_poisson C.2 ((s.predict_goals ctx).away_lambda * 0.3) with hD
      by_cases htie2 : A.1 + C.1 = B.1 + D.1
      · rw [if_pos htie2] at h
        obtain ⟨u, hpen, hf⟩ := Option.map_eq_some'.1 h
        have hm : (⟨ctx.home_team.id, ctx.away_team.id, A.1 + C.1, B.1 + D.1,
            true, some u.1⟩ : MatchResult) = m := congrArg Prod.fst hf
        have hne := simulate_penalties_some_ne fuel D.2 u.1 u.2 hpen
        rw [← hm]
        constructor
        · exact winner_of_draw_pen _ htie2 u.1 rfl
        · intro _
          exact ⟨u.1, rfl, hne⟩
      · rw [if_neg htie2] at h
        simp only [Option.some.injEq, Prod.mk.injEq] at h
        obtain ⟨hm, _⟩ := h
        rw [← hm]
        exact ⟨winner_of_ne _ htie2, fun habs => absurd habs htie2⟩
    · rw [if_neg (fun hand => htie hand.2)] at h
      simp only [Option.some.injEq, Prod.mk.injEq] at h
      obtain ⟨hm, _⟩ := h
      rw [← hm]
      exact ⟨winner_of_ne _ htie, fun habs => absurd habs htie⟩

/-- Witness for C5 at the default elo strategy and the sample knockout
context. -/
theorem C5_knockout_draw_zero_and_winner_witness :
    ctxKO.is_knockout = true ∧
    ((((∃ b, Strategy.base (BaseStrategy.elo ⟨100, 1.3⟩) = Strategy.base b) ∨
        (∃ c, Strategy.base (BaseStrategy.elo ⟨100, 1.3⟩) = Strategy.composite c ∧
          c.strategies ≠ [])) →
      ((Strategy.base (BaseStrategy.elo ⟨100, 1.3⟩)).predict_probabilities
        ctxKO).draw = 0) ∧
    (∀ fuel r m r',
      simulate_match (Strategy.base (BaseStrategy.elo ⟨100, 1.3⟩)) ctxKO fuel r =
        some (m, r') →
      (∃ w, m.winner = some w) ∧
      (m.home_goals = m.away_goals →
        ∃ p, m.penalties = some p ∧ p.home_penalties ≠ p.away_penalties))) :=
  ⟨rfl, C5_knockout_draw_zero_and_winner _ _ rfl⟩

/-- Counterexample to the unamended C5: the empty composite is a strategy,
and in a knockout context it predicts a draw probability of 0.34, not 0. -/
theorem C5_empty_composite_knockout_draw :
    ctxKO.is_knockout = true ∧
    ((Strategy.composite ⟨[]⟩).predict_probabilities ctxKO).draw = 0.34 ∧
    ((Strategy.composite ⟨[]⟩).predict_probabilities ctxKO).draw ≠ 0 := by
  have h : ((Strategy.composite ⟨[]⟩).predict_probabilities ctxKO).draw = 0.34 := by
    have he : (Strategy.composite ⟨[]⟩).predict_probabilities ctxKO =
        MatchProbabilities.new 0.33 0.34 0.33 := rfl
    rw [he, new_of_sum_one _ _ _ (by norm_num)]
  refine ⟨rfl, h, ?_⟩
  rw [h]
  norm_num

-- ### Theorems about the Poisson goal cap

/-- The Poisson loop never returns more than 15, by induction on the
remaining budget `15 - k`. -/
theorem poissonLoop_le (l : ℝ) :
    ∀ (n k : Nat) (p : ℝ) (r : RngState), 15 - k ≤ n → k ≤ 14 →
      (poissonLoop l k p r).1 ≤ 15 := by
  intro n
  induction n with
  | zero =>
    intro k p r hn hk
    exact absurd hn (by omega)
  | succ n ih =>
    intro k p r hn hk
    unfold poissonLoop
    by_cases h1 : p * (gen_f64 r).1 ≤ l
    · rw [if_pos h1]
      exact (by omega : k ≤ 15)
    · rw [if_neg h1]
      by_cases h2 : k + 1 ≥ 15
      · rw [if_pos h2]
        exact (by omega : k + 1 ≤ 15)
      · rw [if_neg h2]
        exact ih (k + 1) _ _ (by omega) (by omega)

/-- `sample_poisson` is capped at 15. -/
theorem sample_poisson_le (r : RngState) (lam : ℝ) :
    (sample_poisson r lam).1 ≤ 15 := by
  unfold sample_poisson
  exact poissonLoop_le _ 15 0 1 r (by omega) (by omega)

/-- Claim C6 (amended): every goal count `simulate_match` returns is at most
15 when the game ended in regulation, but a tied knockout game adds a second
capped Poisson sample in extra time, so the true bound on a returned result
is 30, not 15; see the counterexample for a knockout run reaching 16. -/
theorem C6_goals_bounded (s : Strategy) (ctx : MatchContext) (fuel : Nat)
    (r : RngState) (m : MatchResult) (r' : RngState)
    (h : simulate_match s ctx fuel r = some (m, r')) :
    m.home_goals ≤ 30 ∧ m.away_goals ≤ 30 ∧
      (m.extra_time = false → m.home_goals ≤ 15 ∧ m.away_goals ≤ 15) := by
  unfold simulate_match at h
  set A := sample_poisson r (s.predict_goals ctx).home_lambda with hA
  set B := sample_poisson A.2 (s.predict_goals ctx).away_lambda with hB
  have hA15 : A.1 ≤ 15 := by rw [hA]; exact sample_poisson_le _ _
  have hB15 : B.1 ≤ 15 := by rw [hB]; exact sample_poisson_le _ _
  by_cases htie : ctx.is_knockout = true ∧ A.1 = B.1
  · rw [if_pos htie] at h
    set C := sample_poisson B.2 ((s.predict_goals ctx).home_lambda * 0.3) with hC
    set D := sample_poisson C.2 ((s.predict_goals ctx).away_lambda * 0.3) with hD
    have hC15 : C.1 ≤ 15 := by rw [hC]; exact sample_poisson_le _ _
    have hD15 : D.1 ≤ 15 := by rw [hD]; exact sample_poisson_le _ _
    by_cases htie2 : A.1 + C.1 = B.1 + D.1
    · rw [if_pos htie2] at h
      obtain ⟨u, _, hf⟩ := Option.map_eq_some'.1 h
      have hm : (⟨ctx.home_team.id, ctx.away_team.id, A.1 + C.1, B.1 + D.1,
          true, some u.1⟩ : MatchResult) = m := congrArg Prod.fst hf
      rw [← hm]
      refine ⟨?_, ?_, ?_⟩
      · show A.1 + C.1 ≤ 30
        omega
      · show B.1 + D.1 ≤ 30
        omega
      · intro het
        exact Bool.noConfusion het
    · rw [if_neg htie2] at h
      simp only [Option.some.injEq, Prod.mk.injEq] at h
      obtain ⟨hm, _⟩ := h
      rw [← hm]
      refine ⟨?_, ?_, ?_⟩
      · show A.1 + C.1 ≤ 30
        omega
      · show B.1 + D.1 ≤ 30
        omega
      · intro het
        exact Bool.noConfusion het
  · rw [if_neg htie] at h
    simp only [Option.some.injEq, Prod.mk.injEq] at h
    obtain ⟨hm, _⟩ := h
    rw [← hm]
    refine ⟨?_, ?_, fun _ => ⟨?_, ?_⟩⟩
    · show A.1 ≤ 30
      omega
    · show B.1 ≤ 30
      omega
    · show A.1 ≤ 15
      omega
    · show B.1 ≤ 15
      omega

-- ### Concrete runs of the sampler, for the C6 witness and counterexample

/-- `gen_f64` on a zero word yields 0 and advances the cursor. -/
theorem gen_f64_zero (s : Nat → Nat) (pos : Nat) (hz : s pos = 0) :
    gen_f64 ⟨s, pos⟩ = (0, ⟨s, pos + 1⟩) := by
  unfold gen_f64 next_u64
  dsimp only
  rw [hz]
  simp

/-- `gen_f64` on an all-ones word yields the maximal value `UMAX_F`. -/
theorem gen_f64_ones (s : Nat → Nat) (pos : Nat) (hz : s pos = 2 ^ 64 - 1) :
    gen_f64 ⟨s, pos⟩ = (UMAX_F, ⟨s, pos + 1⟩) := by
  unfold gen_f64 next_u64 UMAX_F
  dsimp only
  rw [hz]
  have h1 : (2 ^ 64 - 1) % U64_MOD = 2 ^ 64 - 1 := by norm_num [U64_MOD]
  rw [h1]
  have h2 : (2 ^ 64 - 1 : ℕ) >>> 11 = 2 ^ 53 - 1 := by
    norm_num [Nat.shiftRight_eq_div_pow]
  rw [h2]

/-- The Poisson loop breaks immediately on a zero word. -/
theorem poissonLoop_zero_word (l : ℝ) (hl : 0 ≤ l) (s : Nat → Nat) (k : Nat)
    (p : ℝ) (pos : Nat) (hz : s pos = 0) :
    poissonLoop l k p ⟨s, pos⟩ = (k, ⟨s, pos + 1⟩) := by
  unfold poissonLoop
  rw [gen_f64_zero s pos hz]
  dsimp only
  rw [if_pos (by rw [mul_zero]; exact hl)]

/-- `UMAX_F` in closed form. -/
theorem UMAX_F_eq : UMAX_F = 1 - (1 / 2 ^ 53 : ℝ) := by
  unfold UMAX_F
  rw [Nat.cast_sub (by norm_num : (1 : ℕ) ≤ 2 ^ 53)]
  push_cast
  ring

/-- `UMAX_F` is positive. -/
theorem UMAX_F_pos : 0 < UMAX_F := by
  rw [UMAX_F_eq]
  norm_num

/-- `UMAX_F` is below one. -/
theorem UMAX_F_lt_one : UMAX_F < 1 := by
  rw [UMAX_F_eq]
  norm_num

/-- `exp (-1.3)` is smaller than the 15th power of `UMAX_F`, so fifteen
maximal words keep the Knuth product above the threshold for λ = 1.3. -/
theorem exp_neg_13_lt : Real.exp (-(1.3 : ℝ)) < UMAX_F ^ (15 : ℕ) := by
  have h2 : (2.3 : ℝ) ≤ Real.exp 1.3 := by
    have := Real.add_one_le_exp (1.3 : ℝ)
    linarith
  have h1 : Real.exp (-(1.3 : ℝ)) ≤ 1 / 2.3 := by
    rw [Real.exp_neg, inv_eq_one_div]
    exact one_div_le_one_div_of_le (by norm_num) h2
  have h3 : (1 : ℝ) - 15 / 2 ^ 53 ≤ UMAX_F ^ (15 : ℕ) := by
    rw [UMAX_F_eq]
    have hb := one_add_mul_le_pow
      (show (-2 : ℝ) ≤ -(1 / 2 ^ 53) by norm_num) 15
    have heq : (1 + -(1 / 2 ^ 53 : ℝ)) = 1 - 1 / 2 ^ 53 := by ring
    rw [heq] at hb
    push_cast at hb
    linarith
  have h4 : (1 / 2.3 : ℝ) < 1 - 15 / 2 ^ 53 := by norm_num
  linarith

/-- `exp (-0.39)` is smaller than `UMAX_F`, so one maximal word keeps the
Knuth product above the threshold for λ = 0.39. -/
theorem exp_neg_039_lt : Real.exp (-(0.39 : ℝ)) < UMAX_F := by
  have h2 : (1.39 : ℝ) ≤ Real.exp 0.39 := by
    have := Real.add_one_le_exp (0.39 : ℝ)
    linarith
  have h1 : Real.exp (-(0.39 : ℝ)) ≤ 1 / 1.39 := by
    rw [Real.exp_neg, inv_eq_one_div]
    exact one_div_le_one_div_of_le (by norm_num) h2
  have h3 : (1 / 1.39 : ℝ) < UMAX_F := by
    rw [UMAX_F_eq]
    norm_num
  linarith

/-- On a stream of `n` all-ones words the Poisson loop runs to the cap,
provided the threshold is below the product the run builds. -/
theorem poissonLoop_maxed (l : ℝ) (s : Nat → Nat) :
    ∀ (n k : Nat) (p : ℝ) (pos : Nat), n + k = 15 → 1 ≤ n → 0 < p →
      (∀ t, t < n → s (pos + t) = 2 ^ 64 - 1) →
      l < p * UMAX_F ^ n →
      poissonLoop l k p ⟨s, pos⟩ = (15, ⟨s, pos + n⟩) := by
  intro n
  induction n with
  | zero =>
    intro k p pos hnk h1 hp hs hl
    exact absurd h1 (by omega)
  | succ n ih =>
    intro k p pos hnk h1 hp hs hl
    unfold poissonLoop
    rw [gen_f64_ones s pos (by simpa using hs 0 (by omega))]
    dsimp only
    have hp' : 0 < p * UMAX_F := mul_pos hp UMAX_F_pos
    have hgt : l < p * UMAX_F := by
      have hpow : UMAX_F ^ (n + 1) ≤ UMAX_F := by
        calc UMAX_F ^ (n + 1) ≤ UMAX_F ^ 1 :=
              pow_le_pow_of_le_one UMAX_F_pos.le UMAX_F_lt_one.le (by omega)
          _ = UMAX_F := pow_one _
      calc l < p * UMAX_F ^ (n + 1) := hl
        _ ≤ p * UMAX_F := mul_le_mul_of_nonneg_left hpow hp.le
    rw [if_neg (not_le.mpr hgt)]
    by_cases hk : k + 1 ≥ 15
    · rw [if_pos hk]
      have hn0 : n = 0 := by omega
      have hk14 : k + 1 = 15 := by omega
      subst hn0
      rw [hk14]
    · rw [if_neg hk]
      have hrec := ih (k + 1) (p * UMAX_F) (pos + 1) (by omega) (by omega) hp'
        (fun t ht => by
          have hst := hs (t + 1) (by omega)
          rw [show pos + 1 + t = pos + (t + 1) from by omega]
          exact hst)
        (by
          calc l < p * UMAX_F ^ (n + 1) := hl
            _ = p * UMAX_F * UMAX_F ^ n := by ring)
      rw [hrec]
      rw [show pos + 1 + n = pos + (n + 1) from by omega]

/-- One all-ones word then a zero word gives a Poisson sample of exactly 1,
provided the threshold is below `UMAX_F`. -/
theorem poissonLoop_one_then_zero (l : ℝ) (hl0 : 0 ≤ l) (s : Nat → Nat)
    (pos : Nat) (h1 : s pos = 2 ^ 64 - 1) (h2 : s (pos + 1) = 0)
    (hlt : l < UMAX_F) :
    poissonLoop l 0 1 ⟨s, pos⟩ = (1, ⟨s, pos + 2⟩) := by
  unfold poissonLoop
  rw [gen_f64_ones s pos h1]
  dsimp only
  rw [if_neg (not_le.mpr (by rw [one_mul]; exact hlt))]
  rw [if_neg (by omega : ¬0 + 1 ≥ 15)]
  rw [one_mul]
  rw [poissonLoop_zero_word l hl0 s 1 UMAX_F (pos + 1) h2]

/-- The empty composite expects λ = 1.3 for both sides in every context. -/
theorem empty_composite_goals (ctx : MatchContext) :
    (Strategy.composite ⟨[]⟩).predict_goals ctx = ⟨1.3, 1.3⟩ := by
  have he : (Strategy.composite ⟨[]⟩).predict_goals ctx =
      GoalExpectation.new 1.3 1.3 := rfl
  rw [he]
  unfold GoalExpectation.new
  have hm : max (1.3 : ℝ) 0.1 = 1.3 := max_eq_left (by norm_num)
  rw [hm]

/-- Counterexample to the unamended C6: on the stream of thirty-one all-ones
words followed by zeros, the empty composite's tied knockout game (15 : 15
after regulation) gains an extra-time goal and ends with 16 home goals,
above the claimed cap of 15. -/
theorem C6_extra_time_exceeds_15 :
    ∃ m r', simulate_match (Strategy.composite ⟨[]⟩) ctxKO 0
        ⟨fun i => if i < 31 then 2 ^ 64 - 1 else 0, 0⟩ = some (m, r') ∧
      m.home_goals = 16 ∧ 15 < m.home_goals := by
  set s6 : Nat → Nat := fun i => if i < 31 then 2 ^ 64 - 1 else 0 with hs6
  have hsv : ∀ i, i < 31 → s6 i = 2 ^ 64 - 1 := by
    intro i hi
    simp only [hs6]
    rw [if_pos hi]
  have hsz : ∀ i, 31 ≤ i → s6 i = 0 := by
    intro i hi
    simp only [hs6]
    rw [if_neg (by omega)]
  have h1 : sample_poisson ⟨s6, 0⟩ 1.3 = (15, ⟨s6, 15⟩) := by
    unfold sample_poisson
    exact poissonLoop_maxed _ s6 15 0 1 0 (by omega) (by omega) one_pos
      (fun t ht => by simpa using hsv t (by omega))
      (by rw [one_mul]; exact exp_neg_13_lt)
  have h2 : sample_poisson ⟨s6, 15⟩ 1.3 = (15, ⟨s6, 30⟩) := by
    unfold sample_poisson
    exact poissonLoop_maxed _ s6 15 0 1 15 (by omega) (by omega) one_pos
      (fun t ht => hsv (15 + t) (by omega))
      (by rw [one_mul]; exact exp_neg_13_lt)
  have h039 : (1.3 : ℝ) * 0.3 = 0.39 := by norm_num
  have h3 : sample_poisson ⟨s6, 30⟩ (1.3 * 0.3) = (1, ⟨s6, 32⟩) := by
    unfold sample_poisson
    rw [h039]
    exact poissonLoop_one_then_zero _ (Real.exp_pos _).le s6 30
      (hsv 30 (by omega)) (hsz 31 (by omega)) exp_neg_039_lt
  have h4 : sample_poisson ⟨s6, 32⟩ (1.3 * 0.3) = (0, ⟨s6, 33⟩) := by
    unfold sample_poisson
    rw [h039]
    exact poissonLoop_zero_word _ (Real.exp_pos _).le s6 0 1 32 (hsz 32 (by omega))
  unfold simulate_match
  rw [empty_composite_goals]
  dsimp only
  rw [h1]
  dsimp only
  rw [h2]
  dsimp only
  rw [if_pos ⟨rfl, rfl⟩]
  rw [h3]
  dsimp only
  rw [h4]
  dsimp only
  rw [if_neg (by omega : ¬15 + 1 = 15 + 0)]
  exact ⟨_, _, rfl, by norm_num, by norm_num⟩

/-- Witness for C6 at the empty composite, the sample group-stage context,
and the all-zeros stream. -/
theorem C6_goals_bounded_witness :
    simulate_match (Strategy.composite ⟨[]⟩) ctxGS 0 ⟨fun _ => 0, 0⟩ =
        some (⟨ctxGS.home_team.id, ctxGS.away_team.id, 0, 0, false, none⟩,
          ⟨fun _ => 0, 2⟩) ∧
    ((⟨ctxGS.home_team.id, ctxGS.away_team.id, 0, 0, false, none⟩ :
        MatchResult).home_goals ≤ 30 ∧
      (⟨ctxGS.home_team.id, ctxGS.away_team.id, 0, 0, false, none⟩ :
        MatchResult).away_goals ≤ 30 ∧
      ((⟨ctxGS.home_team.id, ctxGS.away_team.id, 0, 0, false, none⟩ :
          MatchResult).extra_time = false →
        (⟨ctxGS.home_team.id, ctxGS.away_team.id, 0, 0, false, none⟩ :
          MatchResult).home_goals ≤ 15 ∧
        (⟨ctxGS.home_team.id, ctxGS.away_team.id, 0, 0, false, none⟩ :
          MatchResult).away_goals ≤ 15)) := by
  have h1 : sample_poisson ⟨(fun _ => 0 : Nat → Nat), 0⟩ 1.3 =
      (0, ⟨fun _ => 0, 1⟩) := by
    unfold sample_poisson
    exact poissonLoop_zero_word _ (Real.exp_pos _).le _ 0 1 0 rfl
  have h2 : sample_poisson ⟨(fun _ => 0 : Nat → Nat), 1⟩ 1.3 =
      (0, ⟨fun _ => 0, 2⟩) := by
    unfold sample_poisson
    exact poissonLoop_zero_word _ (Real.exp_pos _).le _ 0 1 1 rfl
  have hrun : simulate_match (Strategy.composite ⟨[]⟩) ctxGS 0 ⟨fun _ => 0, 0⟩ =
      some (⟨ctxGS.home_team.id, ctxGS.away_team.id, 0, 0, false, none⟩,
        ⟨fun _ => 0, 2⟩) := by
    unfold simulate_match
    rw [empty_composite_goals]
    dsimp only
    rw [h1]
    dsimp only
    rw [h2]
    dsimp only
    rw [if_neg (fun hand => Bool.noConfusion hand.1)]
  exact ⟨hrun, C6_goals_bounded _ _ _ _ _ _ hrun⟩

-- ### Theorems about the optimal bracket

/-- `getD` at distinct indices of a duplicate-free list (any element type)
gives distinct values. -/
theorem getD_inj_of_nodup' {α : Type} {l : List α} (hnd : l.Nodup) {i j : Nat}
    (hi : i < l.length) (hj : j < l.length) (d : α)
    (h : l.getD i d = l.getD j d) : i = j := by
  rw [List.getD_eq_getElem l d hi, List.getD_eq_getElem l d hj] at h
  exact List.Nodup.getElem_inj_iff hnd |>.mp h

/-- The `max_by_key` fold only produces the accumulator or a list element. -/
theorem pick_fold_mem (wins : TeamId → Nat) :
    ∀ (l : List TeamId) (acc : Option TeamId) (w : TeamId),
      l.foldl
        (fun acc t =>
          match acc with
          | none => some t
          | some best => if wins t ≥ wins best then some t else some best)
        acc = some w →
      acc = some w ∨ w ∈ l := by
  intro l
  induction l with
  | nil =>
    intro acc w h
    exact Or.inl h
  | cons t ts ih =>
    intro acc w h
    rw [List.foldl_cons] at h
    rcases ih _ w h with hstep | hmem
    · cases acc with
      | none =>
        dsimp only at hstep
        injection hstep with hw
        exact Or.inr (hw ▸ List.mem_cons_self t ts)
      | some best =>
        dsimp only at hstep
        by_cases hw : wins t ≥ wins best
        · rw [if_pos hw] at hstep
          injection hstep with hw'
          exact Or.inr (hw' ▸ List.mem_cons_self t ts)
        · rw [if_neg hw] at hstep
          exact Or.inl hstep
    · exact Or.inr (List.mem_cons_of_mem _ hmem)

/-- A picked winner is one of the candidates. -/
theorem pick_winner_mem (candidates : List TeamId) (wins : TeamId → Nat)
    (w : TeamId) (h : pick_winner_for_slot candidates wins = some w) :
    w ∈ candidates := by
  unfold pick_winner_for_slot at h
  rcases pick_fold_mem wins candidates none w h with habs | hmem
  · exact Option.noConfusion habs
  · exact hmem

/-- Inversion of a filled position: the row behind it, in range, mapped onto
the position, holding the team, and the position in range. -/
theorem position_assignments_some (et : List TeamId) (tg : TeamId → Option Char)
    (asg : Nat → Nat) (pos : Nat) (t : TeamId)
    (h : position_assignments et tg asg pos = some t) :
    ∃ i, i < et.length ∧ asg i = pos ∧ et.getD i 0 = t ∧ pos < 32 := by
  unfold position_assignments at h
  obtain ⟨i, hfind, hbind⟩ := Option.bind_eq_some.1 h
  have hi : i < et.length := by
    have := List.mem_of_find?_eq_some hfind
    simpa using this
  have hpred : asg i = pos := by
    have := List.find?_some hfind
    simpa using this
  by_cases hpos : pos < 32
  · rw [if_pos hpos] at hbind
    cases heb : build_eligibility tg (et.getD i 0) with
    | none =>
      rw [heb] at hbind
      exact Option.noConfusion hbind
    | some vp =>
      rw [heb] at hbind
      dsimp only at hbind
      by_cases hcon : vp.contains (index_to_position pos) = true
      · rw [if_pos hcon] at hbind
        injection hbind with ht
        exact ⟨i, hi, hpred, ht, hpos⟩
      · rw [if_neg hcon] at hbind
        exact Option.noConfusion hbind
  · rw [if_neg hpos] at hbind
    exact Option.noConfusion hbind

/-- Distinct filled positions hold distinct teams over a duplicate-free
team list — the extraction map is keyed by position, so even an assignment
violating the `kuhn_munkres` contract cannot place one team twice. -/
theorem position_assignments_inj (et : List TeamId) (tg : TeamId → Option Char)
    (asg : Nat → Nat) (hnodup : et.Nodup)
    (p q : Nat) (tp tq : TeamId) (hne : p ≠ q)
    (hp : position_assignments et tg asg p = some tp)
    (hq : position_assignments et tg asg q = some tq) : tp ≠ tq := by
  obtain ⟨i, hi, hai, hti, _⟩ := position_assignments_some _ _ _ _ _ hp
  obtain ⟨j, hj, haj, htj, _⟩ := position_assignments_some _ _ _ _ _ hq
  have hij : i ≠ j := by
    intro hEq
    subst hEq
    exact hne (hai ▸ haj)
  intro hEq
  exact hij (getD_inj_of_nodup' hnodup hi hj 0 (by rw [hti, htj, hEq]))

/-- Membership in the two-feeder candidate list of `qf_of`-style stages. -/
theorem mem_opt_pair {s1 s2 : Option TeamId} {w : TeamId}
    (h : w ∈ (match s1 with | some t => [t] | none => []) ++
      (match s2 with | some t => [t] | none => [])) :
    s1 = some w ∨ s2 = some w := by
  rcases List.mem_append.1 h with h1 | h2
  · left
    cases s1 with
    | none => exact absurd h1 (List.not_mem_nil w)
    | some t =>
      have : w = t := by simpa using h1
      rw [this]
  · right
    cases s2 with
    | none => exact absurd h2 (List.not_mem_nil w)
    | some t =>
      have : w = t := by simpa using h2
      rw [this]

/-- Claim C3 (amended): for every tournament with duplicate-free team ids,
every slot-statistics input, and every assignment the external
`kuhn_munkres` call may return (in fact, every assignment whatsoever), the
bracket `compute_optimal_bracket` returns places distinct teams at distinct
filled R32 positions, each match's predicted winner is one of its two
teams, every present R16 winner is the winner of one of its two feeder
entries (vector indices `2k`, `2k+1`) of the R32 list, and likewise QF from
R16, SF from QF, and the champion from the two SF winners.  The unamended
claim's guarantee that all 32 positions are filled does not hold — see the
counterexample. -/
theorem C3_optimal_bracket_sound (teams : List TeamId) (tg : TeamId → Option Char)
    (asg : Nat → Nat) (stats : SlotStats) (hnodup : teams.Nodup) :
    (∀ p q tp tq, p ≠ q →
      position_assignments (eligible_teams teams tg) tg asg p = some tp →
      position_assignments (eligible_teams teams tg) tg asg q = some tq →
      tp ≠ tq) ∧
    (∀ m ∈ (compute_optimal_bracket teams tg asg stats).round_of_32,
      position_assignments (eligible_teams teams tg) tg asg
          (position_to_index m.slot 0) = some m.team_a ∧
        position_assignments (eligible_teams teams tg) tg asg
          (position_to_index m.slot 1) = some m.team_b ∧
        (m.winner = m.team_a ∨ m.winner = m.team_b)) ∧
    (∀ slot w,
      (compute_optimal_bracket teams tg asg stats).round_of_16 slot = some w →
      ∃ i, (i = slot * 2 ∨ i = slot * 2 + 1) ∧
        i < (compute_optimal_bracket teams tg asg stats).round_of_32.length ∧
        ((compute_optimal_bracket teams tg asg stats).round_of_32.getD i
          ⟨0, 0, 0, 0⟩).winner = w) ∧
    (∀ slot w,
      (compute_optimal_bracket teams tg asg stats).quarter_finals slot = some w →
      (compute_optimal_bracket teams tg asg stats).round_of_16 (slot * 2) =
          some w ∨
        (compute_optimal_bracket teams tg asg stats).round_of_16 (slot * 2 + 1) =
          some w) ∧
    (∀ slot w,
      (compute_optimal_bracket teams tg asg stats).semi_finals slot = some w →
      (compute_optimal_bracket teams tg asg stats).quarter_finals (slot * 2) =
          some w ∨
        (compute_optimal_bracket teams tg asg stats).quarter_finals (slot * 2 + 1) =
          some w) ∧
    (∀ w, (compute_optimal_bracket teams tg asg stats).champion = some w →
      (compute_optimal_bracket teams tg asg stats).semi_finals 0 = some w ∨
        (compute_optimal_bracket teams tg asg stats).semi_finals 1 = some w) := by
  have hetnd : (eligible_teams teams tg).Nodup := hnodup.filter _
  refine ⟨?_, ?_, ?_, ?_, ?_, ?_⟩
  · intro p q tp tq hne hp hq
    exact position_assignments_inj _ tg asg hetnd p q tp tq hne hp hq
  · intro m hm
    obtain ⟨slot, _, hmem⟩ := List.mem_flatMap.1 hm
    cases hpa : position_assignments (eligible_teams teams tg) tg asg
        (position_to_index slot 0) with
    | none =>
      rw [hpa] at hmem
      cases hpb : position_assignments (eligible_teams teams tg) tg asg
          (position_to_index slot 1) with
      | none =>
        rw [hpb] at hmem
        exact absurd hmem (List.not_mem_nil m)
      | some b =>
        rw [hpb] at hmem
        exact absurd hmem (List.not_mem_nil m)
    | some a =>
      rw [hpa] at hmem
      cases hpb : position_assignments (eligible_teams teams tg) tg asg
          (position_to_index slot 1) with
      | none =>
        rw [hpb] at hmem
        exact absurd hmem (List.not_mem_nil m)
      | some b =>
        rw [hpb] at hmem
        have hm' : m = ⟨slot, a, b,
            if stats.r32win a slot ≥ stats.r32win b slot then a else b⟩ := by
          simpa using hmem
        rw [hm']
        refine ⟨hpa, hpb, ?_⟩
        by_cases hw : stats.r32win a slot ≥ stats.r32win b slot
        · rw [if_pos hw]
          exact Or.inl rfl
        · rw [if_neg hw]
          exact Or.inr rfl
  · intro slot w h
    have h' : r16_of (build_r32_matches (eligible_teams teams tg) tg asg stats)
        stats slot = some w := h
    unfold r16_of at h'
    by_cases hs : slot < 8
    · rw [if_pos hs] at h'
      have hmem := pick_winner_mem _ _ _ h'
      rcases List.mem_append.1 hmem with h1 | h2
      · by_cases hlen : slot * 2 <
            (build_r32_matches (eligible_teams teams tg) tg asg stats).length
        · rw [if_pos hlen] at h1
          have hw : ((build_r32_matches (eligible_teams teams tg) tg asg
              stats).getD (slot * 2) ⟨0, 0, 0, 0⟩).winner = w := by
            have : w = ((build_r32_matches (eligible_teams teams tg) tg asg
                stats).getD (slot * 2) ⟨0, 0, 0, 0⟩).winner := by simpa using h1
            exact this.symm
          exact ⟨slot * 2, Or.inl rfl, hlen, hw⟩
        · rw [if_neg hlen] at h1
          exact absurd h1 (List.not_mem_nil w)
      · by_cases hlen : slot * 2 + 1 <
            (build_r32_matches (eligible_teams teams tg) tg asg stats).length
        · rw [if_pos hlen] at h2
          have hw : ((build_r32_matches (eligible_teams teams tg) tg asg
              stats).getD (slot * 2 + 1) ⟨0, 0, 0, 0⟩).winner = w := by
            have : w = ((build_r32_matches (eligible_teams teams tg) tg asg
                stats).getD (slot * 2 + 1) ⟨0, 0, 0, 0⟩).winner := by simpa using h2
            exact this.symm
          exact ⟨slot * 2 + 1, Or.inr rfl, hlen, hw⟩
        · rw [if_neg hlen] at h2
          exact absurd h2 (List.not_mem_nil w)
    · rw [if_neg hs] at h'
      exact Option.noConfusion h'
  · intro slot w h
    have h' : qf_of (r16_of (build_r32_matches (eligible_teams teams tg) tg asg
        stats) stats) stats slot = some w := h
    unfold qf_of at h'
    by_cases hs : slot < 4
    · rw [if_pos hs] at h'
      exact mem_opt_pair (pick_winner_mem _ _ _ h')
    · rw [if_neg hs] at h'
      exact Option.noConfusion h'
  · intro slot w h
    have h' : sf_of (qf_of (r16_of (build_r32_matches (eligible_teams teams tg)
        tg asg stats) stats) stats) stats slot = some w := h
    unfold sf_of at h'
    by_cases hs : slot < 2
    · rw [if_pos hs] at h'
      exact mem_opt_pair (pick_winner_mem _ _ _ h')
    · rw [if_neg hs] at h'
      exact Option.noConfusion h'
  · intro w h
    have h' : champion_of (sf_of (qf_of (r16_of (build_r32_matches
        (eligible_teams teams tg) tg asg stats) stats) stats) stats) stats =
        some w := h
    unfold champion_of at h'
    exact mem_opt_pair (pick_winner_mem _ _ _ h')

/-- The weight matrix for all-zero statistics vanishes. -/
theorem obWeight_zero (et : List TeamId) (tg : TeamId → Option Char)
    (ti pi : Nat) : obWeight et tg zeroStats ti pi = 0 := by
  unfold obWeight
  by_cases h1 : ti < et.length
  · rw [if_pos h1]
    cases heb : build_eligibility tg (et.getD ti 0) with
    | none => rfl
    | some vp =>
      dsimp only
      by_cases h2 : vp.contains (index_to_position pi) = true
      · rw [if_pos h2]
        rfl
      · rw [if_neg h2]
  · rw [if_neg h1]

/-- The identity assignment satisfies the `kuhn_munkres` contract for the
all-zero statistics of the canonical 48-team tournament (all matchings have
total weight 0). -/
theorem km_id_zero :
    KuhnMunkresResult (max (eligible_teams teams48 tg48).length 32)
      (obWeight (eligible_teams teams48 tg48) tg48 zeroStats) (fun i => i) := by
  refine ⟨fun i hi => hi, fun i j _ _ hne => hne, ?_⟩
  intro asg' _ _
  have hz : ∀ f : Nat → Nat,
      ((List.range (max (eligible_teams teams48 tg48).length 32)).map
        (fun i => obWeight (eligible_teams teams48 tg48) tg48 zeroStats i
          (f i))).sum = 0 := by
    intro f
    have hcong : (List.range (max (eligible_teams teams48 tg48).length 32)).map
        (fun i => obWeight (eligible_teams teams48 tg48) tg48 zeroStats i (f i)) =
        (List.range (max (eligible_teams teams48 tg48).length 32)).map
          (fun _ => 0) := by
      apply List.map_congr_left
      intro x _
      exact obWeight_zero _ _ _ _
    rw [hcong]
    simp
  rw [hz, hz]

/-- Counterexample to the unamended C3: with all-zero statistics every
assignment is weight-maximal, and under the identity assignment (which the
contract permits) the extraction's eligibility re-validation drops teams
placed at positions their group cannot occupy, so the returned Round of 32
has fewer than 16 matches and fewer than 32 team ids — not the claimed
guaranteed 32. -/
theorem C3_zero_stats_unfilled :
    KuhnMunkresResult (max (eligible_teams teams48 tg48).length 32)
      (obWeight (eligible_teams teams48 tg48) tg48 zeroStats) (fun i => i) ∧
    teams48.Nodup ∧
    (compute_optimal_bracket teams48 tg48 (fun i => i)
      zeroStats).round_of_32.length < 16 ∧
    ((compute_optimal_bracket teams48 tg48 (fun i => i)
        zeroStats).round_of_32.flatMap (fun m => [m.team_a, m.team_b])).length
      < 32 := by
  refine ⟨km_id_zero, (List.nodup_range 48), ?_, ?_⟩
  · decide
  · decide

/-- Witness for C3 at the canonical 48-team tournament, zero statistics, and
the identity assignment (the distinctness clause of the claim theorem). -/
theorem C3_optimal_bracket_sound_witness :
    teams48.Nodup ∧
    (∀ p q tp tq, p ≠ q →
      position_assignments (eligible_teams teams48 tg48) tg48 (fun i => i) p =
        some tp →
      position_assignments (eligible_teams teams48 tg48) tg48 (fun i => i) q =
        some tq →
      tp ≠ tq) :=
  ⟨(List.nodup_range 48),
    (C3_optimal_bracket_sound teams48 tg48 (fun i => i) zeroStats
      (List.nodup_range 48)).1⟩

end WC
